import Mathlib

/-!
# vboxvfs vnode operations: a shallow embedding of `vboxvfs_vnops.c`

The C functions of `src/vboxvfs/vboxvfs_vnops.c` are transcribed as Lean
functions with explicit state passing.

* Pointers are `Option Nat`: `none` is `NULL`, `some a` is the address `a`.
* Calls into the kernel or into the shared-folder provider (`msleep`, `vget`,
  `getnewvnode`, `insmntque1`, `uiomove`, `sfprov_*`, `getmicrotime`) are
  taken from explicit arguments, so every function below is a pure function
  of the node state and of what the outside world answers.
* A call that can block with the node mutex released (`msleep`, `vget`,
  `getnewvnode`, `insmntque1`) consumes one `alloc_event`, which carries the
  return value of the call and the binding fields of the node as other
  threads have left them when the call comes back.
* `Option` results: `none` stands for a run that does not come back in the
  model (fuel or schedule exhausted, `panic`, a read outside the data the
  model knows about).
-/

namespace VBoxVfs

/-! ## Constants of the platform (`<sys/errno.h>`, `<sys/lockmgr.h>`, `<machine/param.h>`) -/

def ENOENT : Nat := 2
def ENXIO : Nat := 6
def ENOMEM : Nat := 12
def ENOTDIR : Nat := 20
def EISDIR : Nat := 21
def EINVAL : Nat := 22
def EOPNOTSUPP : Nat := 45

def LK_NOWAIT : Nat := 0x000200
def PAGE_SIZE : Nat := 4096

/-- The vnode types of `enum vtype`. -/
inductive vtype where
  | VNON | VREG | VDIR | VBLK | VCHR | VLNK | VSOCK | VFIFO | VBAD | VMARKER
  deriving DecidableEq, Repr

/-! ## Bit operations on flag words -/

/-- The C expression `s & ~m` on a flag word: the bits of `s` that are not in `m`. -/
def and_not (s m : Nat) : Nat := s ^^^ (s &&& m)

/-- The values of the `VBOXFS_VNODE_*` masks of `sf_vpstate`.  They are
defined in `vboxvfs.h`, which is not part of the sources at hand, so they
are a parameter of the model. -/
structure vpstate_flags where
  VBOXFS_VNODE_ALLOCATING : Nat
  VBOXFS_VNODE_WANT : Nat
  VBOXFS_VNODE_DOOMED : Nat
  VBOXFS_VNODE_WRECLAIM : Nat
  deriving DecidableEq, Repr

/-- The four masks are non-zero and pairwise disjoint, as bit flags are. -/
def vpstate_flags.wf (F : vpstate_flags) : Prop :=
  F.VBOXFS_VNODE_ALLOCATING ≠ 0 ∧ F.VBOXFS_VNODE_WANT ≠ 0 ∧
  F.VBOXFS_VNODE_DOOMED ≠ 0 ∧ F.VBOXFS_VNODE_WRECLAIM ≠ 0 ∧
  F.VBOXFS_VNODE_ALLOCATING &&& F.VBOXFS_VNODE_WANT = 0 ∧
  F.VBOXFS_VNODE_ALLOCATING &&& F.VBOXFS_VNODE_DOOMED = 0 ∧
  F.VBOXFS_VNODE_ALLOCATING &&& F.VBOXFS_VNODE_WRECLAIM = 0 ∧
  F.VBOXFS_VNODE_WANT &&& F.VBOXFS_VNODE_DOOMED = 0 ∧
  F.VBOXFS_VNODE_WANT &&& F.VBOXFS_VNODE_WRECLAIM = 0 ∧
  F.VBOXFS_VNODE_DOOMED &&& F.VBOXFS_VNODE_WRECLAIM = 0

/-- The usual assignment of the masks (1, 2, 4, 8), used for concrete runs. -/
def std_flags : vpstate_flags := ⟨1, 2, 4, 8⟩

/-! ## Data model -/

/-- A `struct timespec`. -/
structure timespec where
  tv_sec : Int
  tv_nsec : Int
  deriving DecidableEq, Repr

/-- A `struct timeval` as `getmicrotime` fills it. -/
structure timeval where
  tv_sec : Nat
  tv_usec : Nat
  deriving DecidableEq, Repr

/-- The provider's attribute snapshot `sffs_stat_t`.  `sf_size` and `sf_alloc`
are `off_t`, held as their 64-bit words. -/
structure sffs_stat where
  sf_mode : Nat
  sf_size : Nat
  sf_alloc : Nat
  sf_atime : timespec
  sf_mtime : timespec
  sf_ctime : timespec
  deriving DecidableEq, Repr

/-- The `struct dirent` part of a directory entry, as it is copied out. -/
structure dirent where
  d_fileno : Nat
  d_reclen : Nat
  d_name : String
  deriving DecidableEq, Repr

/-- One cached directory entry, `struct sffs_dirent`: the `dirent` and the
resume token `sf_off`. -/
structure sffs_dirent where
  sf_entry : dirent
  sf_off : Int
  deriving DecidableEq, Repr

/-- One buffer of the cached listing, `sffs_dirents_t`; the chain through
`sf_next` is a `List` of these.  `sf_entries` are the entries packed in the
buffer, each taking `sizeof(struct sffs_dirent) + d_reclen` bytes.  `sf_len`
is compared with `off_t` values and is taken as a signed quantity like them. -/
structure sffs_dirents where
  sf_len : Int
  sf_entries : List sffs_dirent
  deriving DecidableEq, Repr

/-- The node, `struct vboxfs_node`. -/
structure vboxfs_node where
  sf_path : String
  sf_type : vtype
  sf_ino : Nat
  /-- address of the parent node, `none` for `NULL` -/
  sf_parent : Option Nat
  /-- the bound vnode, `none` for `NULL` -/
  sf_vnode : Option Nat
  sf_vpstate : Nat
  /-- the open provider file, `none` for `NULL` -/
  sf_file : Option Nat
  sf_stat : sffs_stat
  sf_stat_time : Nat
  /-- the cached listing; the empty list is the `NULL` chain -/
  sf_dir_list : List sffs_dirents
  deriving DecidableEq, Repr

/-- The mount, `struct vboxfs_mnt`, as far as the vnode operations read it. -/
structure vboxfs_mnt where
  sf_stat_ttl : Nat
  sf_uid : Nat
  sf_gid : Nat
  sf_dmode : Nat
  sf_fmode : Nat
  sf_dmask : Nat
  sf_fmask : Nat
  deriving DecidableEq, Repr

/-! ## Vnode binding: `vboxfs_alloc_vp`, `vboxfs_free_vp`, `vboxfs_reclaim` -/

/-- What one blocking call of `vboxfs_alloc_vp` comes back with: its return
value, for `getnewvnode` the new vnode, and the binding fields of the node
and the set of vnodes with `VI_DOOMED` as they are when the call returns.
The fields are whatever the other threads have made of them, the flag the
thread itself set before the call (`VBOXFS_VNODE_WRECLAIM`,
`VBOXFS_VNODE_WANT`, `VBOXFS_VNODE_ALLOCATING`) included. -/
structure alloc_event where
  ret : Nat
  newvp : Nat
  sf_vnode : Option Nat
  sf_vpstate : Nat
  vi_doomed : List Nat
  deriving DecidableEq, Repr

/-- The node as the thread finds it when the blocking call returns. -/
def alloc_event.node (e : alloc_event) (node : vboxfs_node) : vboxfs_node :=
  { node with sf_vnode := e.sf_vnode, sf_vpstate := e.sf_vpstate }

/-- The result of `vboxfs_alloc_vp`: the return value, `*vpp`, the node,
whether `wakeup(&node->sf_vpstate)` was called, and whether the new vnode
got `VV_ROOT`. -/
structure alloc_result where
  error : Nat
  vpp : Option Nat
  node : vboxfs_node
  wakeup_want : Bool
  vv_root : Bool
  deriving DecidableEq, Repr

/-- The loop `while ((node->sf_vpstate & VBOXFS_VNODE_WRECLAIM) != 0) msleep(...)`
of lines 181-184: every `msleep` consumes one event. -/
def wreclaim_wait (F : vpstate_flags) :
    List alloc_event → vboxfs_node → List Nat → Option (List alloc_event × vboxfs_node × List Nat)
  | [], node, doomed =>
    if node.sf_vpstate &&& F.VBOXFS_VNODE_WRECLAIM ≠ 0 then none else some ([], node, doomed)
  | e :: env, node, doomed =>
    if node.sf_vpstate &&& F.VBOXFS_VNODE_WRECLAIM ≠ 0 then
      wreclaim_wait F env (e.node node) e.vi_doomed
    else some (e :: env, node, doomed)

/-- Lines 288-314 of `vboxfs_alloc_vp`, from the label `unlock` on: the
allocation is over with `error` and `vp`. -/
def alloc_finish (F : vpstate_flags) (node : vboxfs_node) (error : Nat) (vp : Option Nat)
    (vv_root : Bool) : alloc_result :=
  let st := and_not node.sf_vpstate F.VBOXFS_VNODE_ALLOCATING
  if st &&& F.VBOXFS_VNODE_WANT ≠ 0 then
    { error := error, vpp := vp,
      node := { node with sf_vpstate := and_not st F.VBOXFS_VNODE_WANT, sf_vnode := vp },
      wakeup_want := true, vv_root := vv_root }
  else
    { error := error, vpp := vp,
      node := { node with sf_vpstate := st, sf_vnode := vp },
      wakeup_want := false, vv_root := vv_root }

/-- How one pass through the body of `vboxfs_alloc_vp` ends: with a
`return` (through `out` or directly), with `goto loop` / `goto loop1`, or
not at all (`panic`, or no event left for a blocking call). -/
inductive alloc_pass_end where
  | ret (r : alloc_result)
  | again (env : List alloc_event) (doomed : List Nat) (node : vboxfs_node)
  | stuck
  deriving DecidableEq, Repr

/-- Lines 166-206 of `vboxfs_alloc_vp`: the node records the vnode `vp`. -/
def alloc_pass_bound (F : vpstate_flags) (env : List alloc_event) (doomed : List Nat)
    (node : vboxfs_node) (lkflag : Nat) (vp : Nat) : alloc_pass_end :=
  if (node.sf_type = vtype.VDIR ∧ node.sf_parent = none) ∨
      (vp ∈ doomed ∧ lkflag &&& LK_NOWAIT ≠ 0) then
    .ret { error := ENOENT, vpp := none, node := node, wakeup_want := false, vv_root := false }
  else if vp ∈ doomed then
    -- node->sf_vpstate |= VBOXFS_VNODE_WRECLAIM; while (...) msleep(...); goto loop1
    match wreclaim_wait F env
        { node with sf_vpstate := node.sf_vpstate ||| F.VBOXFS_VNODE_WRECLAIM } doomed with
    | none => .stuck
    | some (env1, node1, doomed1) => .again env1 doomed1 node1
  else
    match env with
    | [] => .stuck
    | e :: env1 =>
      -- error = vget(vp, lkflag | LK_INTERLOCK, curthread)
      if e.ret = ENOENT then
        .again env1 e.vi_doomed (e.node node)
      else if e.ret ≠ 0 then
        .ret { error := e.ret, vpp := none, node := e.node node, wakeup_want := false,
               vv_root := false }
      else if (e.node node).sf_vnode = none ∨ (e.node node).sf_vnode ≠ some vp then
        .again env1 e.vi_doomed (e.node node)
      else
        .ret { error := 0, vpp := some vp, node := e.node node, wakeup_want := false,
               vv_root := false }

/-- Lines 208-300 of `vboxfs_alloc_vp`: the node records no vnode. -/
def alloc_pass_unbound (F : vpstate_flags) (env : List alloc_event)
    (np : Nat) (node : vboxfs_node) (vpp0 : Option Nat) : alloc_pass_end :=
  if node.sf_vpstate &&& F.VBOXFS_VNODE_DOOMED ≠ 0 ∨
      (node.sf_type = vtype.VDIR ∧ node.sf_parent = none) then
    .ret { error := ENOENT, vpp := none, node := node, wakeup_want := false, vv_root := false }
  else if node.sf_vpstate &&& F.VBOXFS_VNODE_ALLOCATING ≠ 0 then
    match env with
    | [] => .stuck
    | e :: env1 =>
      -- node->sf_vpstate |= VBOXFS_VNODE_WANT; error = msleep(...)
      if e.ret ≠ 0 then
        .ret { error := e.ret, vpp := vpp0, node := e.node node, wakeup_want := false,
               vv_root := false }
      else
        .again env1 e.vi_doomed (e.node node)
  else
    match env with
    | [] => .stuck
    | e :: env1 =>
      -- node->sf_vpstate |= VBOXFS_VNODE_ALLOCATING; error = getnewvnode(...)
      if e.ret ≠ 0 then
        .ret (alloc_finish F (e.node node) e.ret none false)
      else if node.sf_type = vtype.VNON ∨ node.sf_type = vtype.VBAD ∨
          node.sf_type = vtype.VMARKER then
        -- default: panic("vboxfs_alloc_vp: type %p %d", ...)
        .stuck
      else
        match env1 with
        | [] => .stuck
        | e2 :: _ =>
          -- error = insmntque1(vp, mp, vboxfs_insmntque_dtr, NULL)
          if e2.ret ≠ 0 then
            .ret (alloc_finish F (e2.node node) e2.ret none false)
          else
            .ret (alloc_finish F (e2.node node) 0 (some e.newvp)
              (decide (node.sf_type = vtype.VDIR ∧ node.sf_parent = some np)))

/-- One pass through the body of `vboxfs_alloc_vp`, from the label `loop`. -/
def alloc_pass (F : vpstate_flags) (env : List alloc_event) (doomed : List Nat)
    (np : Nat) (node : vboxfs_node) (lkflag : Nat) (vpp0 : Option Nat) : alloc_pass_end :=
  match node.sf_vnode with
  | some vp => alloc_pass_bound F env doomed node lkflag vp
  | none => alloc_pass_unbound F env np node vpp0

/-- The function `vboxfs_alloc_vp` (lines 155-315).  `np` is the address of
`node`, `doomed` the vnodes that have `VI_DOOMED` set, `vpp0` what `*vpp`
holds before the call.  Every `goto loop` / `goto loop1` takes one unit of
`fuel`. -/
def vboxfs_alloc_vp (F : vpstate_flags) :
    Nat → List alloc_event → List Nat → Nat → vboxfs_node → Nat → Option Nat → Option alloc_result
  | 0, _, _, _, _, _, _ => none
  | fuel + 1, env, doomed, np, node, lkflag, vpp0 =>
    match alloc_pass F env doomed np node lkflag vpp0 with
    | .ret r => some r
    | .again env1 doomed1 node1 => vboxfs_alloc_vp F fuel env1 doomed1 np node1 lkflag vpp0
    | .stuck => none

/-- The result of `vboxfs_reclaim`: the return value, the node, whether
`wakeup(&node->sf_vnode)` was called and whether `vboxfs_free_node` was. -/
structure reclaim_result where
  error : Nat
  node : vboxfs_node
  wakeup_reclaim : Bool
  freed : Bool
  deriving DecidableEq, Repr

/-- The function `vboxfs_free_vp` (lines 321-334): the node after the call and
whether `wakeup(&node->sf_vnode)` was called. -/
def vboxfs_free_vp (F : vpstate_flags) (node : vboxfs_node) : vboxfs_node × Bool :=
  ({ node with sf_vnode := none,
               sf_vpstate := and_not node.sf_vpstate F.VBOXFS_VNODE_WRECLAIM },
   decide (node.sf_vpstate &&& F.VBOXFS_VNODE_WRECLAIM ≠ 0))

/-- The function `vboxfs_reclaim` (lines 1009-1041). -/
def vboxfs_reclaim (F : vpstate_flags) (node : vboxfs_node) : reclaim_result :=
  let (node1, woke) := vboxfs_free_vp F node
  if node1.sf_vpstate &&& F.VBOXFS_VNODE_ALLOCATING = 0 then
    { error := 0, node := { node1 with sf_vpstate := F.VBOXFS_VNODE_DOOMED },
      wakeup_reclaim := woke, freed := true }
  else
    { error := 0, node := node1, wakeup_reclaim := woke, freed := false }

/-- The binding invariant on the fields an event delivers: a node that
records a bound vnode is not marked `VBOXFS_VNODE_ALLOCATING`. -/
def alloc_event.bound_not_allocating (F : vpstate_flags) (e : alloc_event) : Prop :=
  e.sf_vnode ≠ none → e.sf_vpstate &&& F.VBOXFS_VNODE_ALLOCATING = 0

/-- The same rule on a node. -/
def vboxfs_node.bound_not_allocating (F : vpstate_flags) (node : vboxfs_node) : Prop :=
  node.sf_vnode ≠ none → node.sf_vpstate &&& F.VBOXFS_VNODE_ALLOCATING = 0

/-! ## Attribute cache: `vsfnode_stat_cached`, `vboxfs_getattr`, `vboxfs_setattr`, `vboxfs_close` -/

def S_IFMT : Nat := 0o170000
def S_IFIFO : Nat := 0o010000
def S_IFCHR : Nat := 0o020000
def S_IFDIR : Nat := 0o040000
def S_IFBLK : Nat := 0o060000
def S_IFREG : Nat := 0o100000
def S_IFLNK : Nat := 0o120000
def S_IFSOCK : Nat := 0o140000

def S_ISDIR (m : Nat) : Bool := m &&& S_IFMT == S_IFDIR
def S_ISREG (m : Nat) : Bool := m &&& S_IFMT == S_IFREG
def S_ISFIFO (m : Nat) : Bool := m &&& S_IFMT == S_IFIFO
def S_ISCHR (m : Nat) : Bool := m &&& S_IFMT == S_IFCHR
def S_ISBLK (m : Nat) : Bool := m &&& S_IFMT == S_IFBLK
def S_ISLNK (m : Nat) : Bool := m &&& S_IFMT == S_IFLNK
def S_ISSOCK (m : Nat) : Bool := m &&& S_IFMT == S_IFSOCK

/-- The value `VNOVAL` (-1) in a field of `w` bits. -/
def VNOVAL (w : Nat) : Nat := 2 ^ w - 1

/-- The value `NODEV`, `(dev_t)(-1)`. -/
def NODEV : Nat := VNOVAL 32

/-- The fields of `struct vattr` that the vnode operations read or write.
`va_mode` is 16 bits wide, `va_uid` and `va_gid` 32, the others 64; the
seconds of the three times are signed, `VNOVAL` there is -1. -/
structure vattr where
  va_type : vtype
  va_mode : Nat
  va_nlink : Nat
  va_uid : Nat
  va_gid : Nat
  va_fsid : Nat
  va_fileid : Nat
  va_size : Nat
  va_blocksize : Nat
  va_atime : timespec
  va_mtime : timespec
  va_ctime : timespec
  va_gen : Nat
  va_flags : Nat
  va_rdev : Nat
  va_bytes : Nat
  va_filerev : Nat
  va_vaflags : Nat
  deriving DecidableEq, Repr

/-- The function `vsfnode_cur_time_usec` (lines 99-107) on the time that
`getmicrotime` reports: `now.tv_sec*1000 + now.tv_usec` as a `uint64_t`. -/
def vsfnode_cur_time_usec (now : timeval) : Nat :=
  (now.tv_sec * 1000 + now.tv_usec) % 2 ^ 64

/-- The function `vsfnode_stat_cached` (lines 109-114); the subtraction and
the product are those of 64-bit unsigned integers. -/
def vsfnode_stat_cached (mp : vboxfs_mnt) (now : timeval) (np : vboxfs_node) : Bool :=
  decide ((vsfnode_cur_time_usec now + (2 ^ 64 - np.sf_stat_time % 2 ^ 64)) % 2 ^ 64 <
    (mp.sf_stat_ttl * 1000) % 2 ^ 64)

/-- The function `vsfnode_update_stat_cache` (lines 116-131).
`sfprov_get_attr` is the provider's answer: from what `np->sf_stat` holds to
the return value and what the call leaves in `np->sf_stat`; `now` is the
time `getmicrotime` reports after the call. -/
def vsfnode_update_stat_cache (sfprov_get_attr : sffs_stat → Nat × sffs_stat) (now : timeval)
    (np : vboxfs_node) : Nat × vboxfs_node :=
  let (error, st) := sfprov_get_attr np.sf_stat
  if error = 0 then
    (error, { np with sf_stat := st, sf_stat_time := vsfnode_cur_time_usec now })
  else
    (error, { np with sf_stat := st })

/-- The result of `vboxfs_getattr`: the return value, `*vap`, the node, and
whether `sfprov_get_attr` was called. -/
structure getattr_result where
  error : Nat
  vap : vattr
  node : vboxfs_node
  prov_called : Bool
  deriving DecidableEq, Repr

/-- Lines 498-523 of `vboxfs_getattr`: type and mode from the provider's mode. -/
def getattr_mode (mp : vboxfs_mnt) (mode : Nat) (vap : vattr) : vattr :=
  let vap := { vap with va_mode := mode }
  if S_ISDIR mode then
    let m := if mp.sf_dmode ≠ 0 then mp.sf_dmode &&& 0o777 else vap.va_mode
    { vap with va_type := vtype.VDIR, va_mode := (and_not m mp.sf_dmask ||| S_IFDIR) % 2 ^ 16 }
  else if S_ISREG mode then
    let m := if mp.sf_fmode ≠ 0 then mp.sf_fmode &&& 0o777 else vap.va_mode
    { vap with va_type := vtype.VREG, va_mode := (and_not m mp.sf_fmask ||| S_IFREG) % 2 ^ 16 }
  else if S_ISFIFO mode then { vap with va_type := vtype.VFIFO }
  else if S_ISCHR mode then { vap with va_type := vtype.VCHR }
  else if S_ISBLK mode then { vap with va_type := vtype.VBLK }
  else if S_ISLNK mode then
    let m := if mp.sf_fmode ≠ 0 then mp.sf_fmode &&& 0o777 else vap.va_mode
    { vap with va_type := vtype.VLNK, va_mode := (and_not m mp.sf_fmask ||| S_IFLNK) % 2 ^ 16 }
  else if S_ISSOCK mode then { vap with va_type := vtype.VSOCK }
  else vap

/-- A 64-bit word read as the signed `off_t`. -/
def off_t_val (x : Nat) : Int :=
  if x % 2 ^ 64 < 2 ^ 63 then ((x % 2 ^ 64 : Nat) : Int) else ((x % 2 ^ 64 : Nat) : Int) - 2 ^ 64

/-- A signed value as the `u_quad_t` it converts to. -/
def u_quad_t_of (i : Int) : Nat := (i % 2 ^ 64).toNat

/-- The expression `(np->sf_stat.sf_alloc + 511) / 512` of line 528, stored in
the `u_quad_t` field `va_bytes`: the sum wraps in the 64-bit `off_t`, and the
division of C rounds towards zero. -/
def getattr_bytes (sf_alloc : Nat) : Nat :=
  u_quad_t_of (Int.tdiv (off_t_val (sf_alloc + 511)) 512)

/-- The function `vboxfs_getattr` (lines 455-532).  `v_type` is `vp->v_type`,
`fsid` is `vp->v_mount->mnt_stat.f_fsid.val[0]`, `vap0` what `*vap` holds
before the call, `now` the time at the freshness test and `now2` the time
after a fetch. -/
def vboxfs_getattr (mp : vboxfs_mnt) (sfprov_get_attr : sffs_stat → Nat × sffs_stat)
    (now now2 : timeval) (v_type : vtype) (fsid : Nat) (np : vboxfs_node) (vap0 : vattr) :
    getattr_result :=
  let vap : vattr :=
    { vap0 with
      va_type := v_type, va_nlink := 1, va_uid := mp.sf_uid, va_gid := mp.sf_gid,
      va_rdev := NODEV, va_gen := VNOVAL 64, va_flags := 0, va_filerev := 0,
      va_vaflags := 0, va_fileid := if np.sf_ino = 0 then 2 else np.sf_ino, va_fsid := fsid,
      va_atime := ⟨-1, -1⟩, va_mtime := ⟨-1, -1⟩, va_ctime := ⟨-1, -1⟩ }
  let fetch : Nat × vboxfs_node × Bool :=
    if vsfnode_stat_cached mp now np then (0, np, false)
    else
      let (error, np1) := vsfnode_update_stat_cache sfprov_get_attr now2 np
      (error, np1, true)
  if fetch.1 ≠ 0 then
    { error := fetch.1, vap := vap, node := fetch.2.1, prov_called := fetch.2.2 }
  else
    let np1 := fetch.2.1
    let vap := { vap with va_atime := np1.sf_stat.sf_atime, va_mtime := np1.sf_stat.sf_mtime,
                          va_ctime := np1.sf_stat.sf_ctime }
    let vap := getattr_mode mp (np1.sf_stat.sf_mode % 2 ^ 16) vap
    { error := 0,
      vap := { vap with va_size := np1.sf_stat.sf_size % 2 ^ 64, va_blocksize := 512,
                        va_bytes := getattr_bytes np1.sf_stat.sf_alloc },
      node := np1, prov_called := fetch.2.2 }

/-- The `S_IF*` bits of a vnode type, as `vboxfs_setattr` (lines 545-558)
pairs them. -/
def vtype_ifmt : vtype → Nat
  | vtype.VREG => S_IFREG
  | vtype.VDIR => S_IFDIR
  | vtype.VBLK => S_IFBLK
  | vtype.VCHR => S_IFCHR
  | vtype.VLNK => S_IFLNK
  | vtype.VFIFO => S_IFIFO
  | vtype.VSOCK => S_IFSOCK
  | _ => 0

/-- Permission bits overridden and masked, with the type bits put back: the
mode `m` gives way to `override & 0777` when `override` is not 0, loses the
bits of `mask`, and gets the bits `type_bits`, as a 16-bit `mode_t`. -/
def override_and_mask (override mask type_bits m : Nat) : Nat :=
  (and_not (if override ≠ 0 then override &&& 0o777 else m) mask ||| type_bits) % 2 ^ 16

/-! ## Directory enumeration: `vboxfs_readdir` -/

/-- The bytes one cached entry takes in its buffer,
`sizeof(struct sffs_dirent) + dirent->sf_entry.d_reclen`.  `S` is
`sizeof(struct sffs_dirent)`; the structure is declared in `vboxvfs.h`, which
is not part of the sources at hand, so its size is a parameter. -/
def entry_size (S : Nat) (e : sffs_dirent) : Int := (S : Int) + (e.sf_entry.d_reclen : Int)

/-- The loop of lines 746-749: skip the buffers that end at or before the
position `pos`.  Returns `cur_buf` (the rest of the chain) and `offset`. -/
def readdir_skip : List sffs_dirents → Int → Int → List sffs_dirents × Int
  | [], offset, _ => ([], offset)
  | b :: bs, offset, pos =>
    if offset + b.sf_len ≤ pos then readdir_skip bs (offset + b.sf_len) pos
    else (b :: bs, offset)

/-- The loop of lines 761-767 over the entries from `dirent` on: the value of
`off` when the loop is left, `none` when it runs past the entries of the
buffer. -/
def readdir_walk (S : Nat) : List sffs_dirent → Int → Int → Option Int
  | [], off, pos => if off < pos then none else some off
  | e :: es, off, pos =>
    if off < pos then
      if e.sf_off = pos then some off
      else readdir_walk S es (off + entry_size S e) pos
    else some off

/-- How the validation of lines 743-775 ends. -/
inductive readdir_start where
  | einval
  | start (cur_buf : List sffs_dirents) (offset : Int)
  | fault
  deriving DecidableEq, Repr

/-- Lines 743-775 of `vboxfs_readdir`: validate the position `pos` and find
the buffer and the byte offset in it where the enumeration starts. -/
def readdir_validate (S : Nat) (list : List sffs_dirents) (pos : Int) : readdir_start :=
  match readdir_skip list 0 pos with
  | ([], offset) => if offset ≠ pos then .einval else .start [] (pos - offset)
  | (b :: bs, offset) =>
    if offset ≠ pos then
      match readdir_walk S b.sf_entries offset pos with
      | none => .fault
      | some off => if off ≥ pos then .einval else .start (b :: bs) (pos - offset)
    else .start (b :: bs) (pos - offset)

/-- The entry that starts at byte `offset` of a buffer with the entries
given, `(struct sffs_dirent *)((char *)&cur_buf->sf_entries[0] + offset)`;
`none` when no entry starts there. -/
def dirent_at (S : Nat) : List sffs_dirent → Int → Option sffs_dirent
  | [], _ => none
  | e :: es, offset =>
    if offset = 0 then some e
    else if offset < entry_size S e then none
    else dirent_at S es (offset - entry_size S e)

/-- The state of the loop of lines 781-819 when it is left: `error`, whether
`cur_buf` is `NULL`, the `uio`, and the entries copied out. -/
structure readdir_emit where
  error : Nat
  cur_buf_null : Bool
  uio_offset : Int
  uio_resid : Int
  out : List dirent
  deriving DecidableEq, Repr

/-- Lines 793-811: the local `node` after the name of the entry was looked at.
`node` is `none` for `NULL` and otherwise the `sf_ino` of the node pointed
to; for a name other than "." and ".." the variable keeps the value it had. -/
def readdir_node (dir_ino : Nat) (parent_ino : Option Nat) (node : Option Nat) (name : String) :
    Option Nat :=
  if name = "." then some dir_ino
  else if name = ".." then
    match parent_ino with
    | some p => some p
    | none => some dir_ino
  else node

/-- Lines 808-811: the `d_fileno` written for the value of `node`. -/
def readdir_fileno (node : Option Nat) : Nat :=
  match node with
  | some ino => ino
  | none => 0xdeadbeef

/-- Lines 808-813: the entry as it is copied out, with the `d_fileno` for the
value of `node`. -/
def readdir_copy (node : Option Nat) (d : sffs_dirent) : dirent :=
  { d.sf_entry with d_fileno := readdir_fileno node }

/-- How one round of the loop of lines 781-819 ends. -/
inductive readdir_round where
  | stop (r : readdir_emit)
  | next_buf (bufs : List sffs_dirents)
  | emitted (ent : dirent) (offset : Int) (uio_offset : Int) (uio_resid : Int) (node : Option Nat)
  | fault
  deriving DecidableEq, Repr

/-- One round of the loop of lines 781-819.  `uiomove_error` is what
`uiomove` returns for the entry it is given. -/
def readdir_emit_round (S : Nat) (uiomove_error : dirent → Nat) (dir_ino : Nat)
    (parent_ino : Option Nat) (cur_buf : List sffs_dirents) (offset uio_offset uio_resid : Int)
    (node : Option Nat) : readdir_round :=
  match cur_buf with
  | [] => .stop ⟨0, true, uio_offset, uio_resid, []⟩
  | b :: bs =>
    if offset ≥ b.sf_len then .next_buf bs
    else
      match dirent_at S b.sf_entries offset with
      | none => .fault
      | some d =>
        if (d.sf_entry.d_reclen : Int) > uio_resid then
          .stop ⟨0, false, uio_offset, uio_resid, []⟩
        else
          let node1 := readdir_node dir_ino parent_ino node d.sf_entry.d_name
          let ent : dirent := readdir_copy node1 d
          if uiomove_error ent ≠ 0 then
            .stop ⟨uiomove_error ent, false, uio_offset, uio_resid, []⟩
          else
            .emitted ent (offset + entry_size S d) d.sf_off
              (uio_resid - (d.sf_entry.d_reclen : Int)) node1

/-- The loop of lines 781-819; every round takes one unit of `fuel`. -/
def readdir_emit_loop (S : Nat) (uiomove_error : dirent → Nat) (dir_ino : Nat)
    (parent_ino : Option Nat) :
    Nat → List sffs_dirents → Int → Int → Int → Option Nat → Option readdir_emit
  | 0, _, _, _, _, _ => none
  | fuel + 1, cur_buf, offset, uio_offset, uio_resid, node =>
    match readdir_emit_round S uiomove_error dir_ino parent_ino cur_buf offset uio_offset
        uio_resid node with
    | .stop r => some r
    | .next_buf bs =>
      readdir_emit_loop S uiomove_error dir_ino parent_ino fuel bs 0 uio_offset uio_resid node
    | .emitted ent offset1 uio_offset1 uio_resid1 node1 =>
      match readdir_emit_loop S uiomove_error dir_ino parent_ino fuel cur_buf offset1
          uio_offset1 uio_resid1 node1 with
      | none => none
      | some r => some { r with out := ent :: r.out }
    | .fault => none

/-- The result of `vboxfs_readdir`: the return value, `*eofp`, the `uio`, the
entries copied out, the directory node, and whether `sfprov_readdir` was
called. -/
structure readdir_result where
  error : Nat
  eof : Bool
  uio_offset : Int
  uio_resid : Int
  out : List dirent
  node : vboxfs_node
  prov_called : Bool
  deriving DecidableEq, Repr

/-- The function `vboxfs_readdir` (lines 706-827).  `sfprov_readdir` is the
provider's answer (return value and listing), `mem` the nodes by address,
`node0` the indeterminate value the local `node` starts with, `eof0` what
`*eofp` holds before the call.  The `d_fileno` that the loop stores in the
cached entry before copying it out is not kept in the cache of the model; the
code never reads it back. -/
def vboxfs_readdir (S : Nat) (uiomove_error : dirent → Nat)
    (sfprov_readdir : Nat × List sffs_dirents) (mem : Nat → vboxfs_node) (fuel : Nat)
    (v_type : vtype) (dir : vboxfs_node) (uio_offset uio_resid : Int) (node0 : Option Nat)
    (eof0 : Bool) : Option readdir_result :=
  if v_type ≠ vtype.VDIR then
    some { error := ENOTDIR, eof := eof0, uio_offset := uio_offset, uio_resid := uio_resid,
           out := [], node := dir, prov_called := false }
  else
    let called := decide (dir.sf_dir_list = [])
    let error := if dir.sf_dir_list = [] then sfprov_readdir.1 else 0
    let dir1 := if dir.sf_dir_list = [] then { dir with sf_dir_list := sfprov_readdir.2 } else dir
    if error ≠ 0 then
      some { error := error, eof := false, uio_offset := uio_offset, uio_resid := uio_resid,
             out := [], node := dir1, prov_called := called }
    else
      match readdir_validate S dir1.sf_dir_list uio_offset with
      | .fault => none
      | .einval =>
        some { error := EINVAL, eof := false, uio_offset := uio_offset, uio_resid := uio_resid,
               out := [], node := dir1, prov_called := called }
      | .start cur_buf offset =>
        match readdir_emit_loop S uiomove_error dir.sf_ino
            (dir.sf_parent.map (fun p => (mem p).sf_ino)) fuel cur_buf offset uio_offset
            uio_resid node0 with
        | none => none
        | some r =>
          some { error := r.error, eof := decide (r.error = 0) && r.cur_buf_null,
                 uio_offset := if r.error ≠ 0 then uio_offset else r.uio_offset,
                 uio_resid := r.uio_resid, out := r.out, node := dir1, prov_called := called }

/-! ### The layout of a cached listing, and the enumeration over the flat list of entries -/

/-- The bytes a run of entries takes. -/
def entries_len (S : Nat) (es : List sffs_dirent) : Int := (es.map (entry_size S)).sum

/-- The entries of a buffer chain in order. -/
def all_entries (bufs : List sffs_dirents) : List sffs_dirent :=
  bufs.flatMap (fun b => b.sf_entries)

/-- Every resume token `sf_off` is the byte offset of the end of its entry,
for entries packed from the byte offset `start` on. -/
def tokens_ok (S : Nat) : Int → List sffs_dirent → Prop
  | _, [] => True
  | start, e :: es => e.sf_off = start + entry_size S e ∧ tokens_ok S e.sf_off es

/-- The layout the provider is to give a listing whose first buffer starts at
byte offset `base`: in every buffer `sf_len` is the sum of the sizes of its
entries, and the resume tokens are the cumulative end offsets. -/
def layout_ok (S : Nat) : Int → List sffs_dirents → Prop
  | _, [] => True
  | base, b :: bs =>
    b.sf_len = entries_len S b.sf_entries ∧ tokens_ok S base b.sf_entries ∧
    layout_ok S (base + b.sf_len) bs

/-- The loop of lines 781-819 told over the flat list of the entries that are
left: entries are taken as long as the next one fits the budget and its
copy-out succeeds. -/
def readdir_emit_flat (uiomove_error : dirent → Nat) (dir_ino : Nat) (parent_ino : Option Nat) :
    List sffs_dirent → Int → Int → Option Nat → readdir_emit
  | [], uio_offset, uio_resid, _ => ⟨0, true, uio_offset, uio_resid, []⟩
  | d :: ds, uio_offset, uio_resid, node =>
    if (d.sf_entry.d_reclen : Int) > uio_resid then ⟨0, false, uio_offset, uio_resid, []⟩
    else
      let node1 := readdir_node dir_ino parent_ino node d.sf_entry.d_name
      if uiomove_error (readdir_copy node1 d) ≠ 0 then
        ⟨uiomove_error (readdir_copy node1 d), false, uio_offset, uio_resid, []⟩
      else
        let r := readdir_emit_flat uiomove_error dir_ino parent_ino ds d.sf_off
          (uio_resid - (d.sf_entry.d_reclen : Int)) node1
        { r with out := readdir_copy node1 d :: r.out }

/-- Where the enumeration stands: at the end of the chain with nothing left,
or at byte `offset` of the first buffer of `cur_buf` with the entries `rest`
left in the chain. -/
def stands_at (S : Nat) (cur_buf : List sffs_dirents) (offset : Int)
    (rest : List sffs_dirent) : Prop :=
  (cur_buf = [] ∧ rest = []) ∨
  ∃ b bs p c, cur_buf = b :: bs ∧ b.sf_entries = p ++ c ∧ offset = entries_len S p ∧
    rest = c ++ all_entries bs

/-- In every buffer `sf_len` is the sum of the sizes of its entries. -/
def lens_ok (S : Nat) (bufs : List sffs_dirents) : Prop :=
  ∀ b ∈ bufs, b.sf_len = entries_len S b.sf_entries

/-- Fuel that is enough for any enumeration over the listing. -/
def readdir_fuel (list : List sffs_dirents) : Nat := (all_entries list).length + list.length + 1

/-- The entries a call takes from the entries left: as many as fit the budget
one after the other. -/
def readdir_fit : Int → List sffs_dirent → List sffs_dirent
  | _, [] => []
  | uio_resid, d :: ds =>
    if (d.sf_entry.d_reclen : Int) > uio_resid then []
    else d :: readdir_fit (uio_resid - (d.sf_entry.d_reclen : Int)) ds

/-- An entry without its `d_fileno`, to compare what is copied out with what
is cached. -/
def sans_fileno (d : dirent) : dirent := { d with d_fileno := 0 }

/-- The bytes copied out for a run of entries. -/
def reclen_sum (es : List sffs_dirent) : Int :=
  (es.map (fun e => (e.sf_entry.d_reclen : Int))).sum

/-- A sequence of `vboxfs_readdir` calls on a directory, each from the
position the call before it left, with the budget `uio_resid` and the
indeterminate initial `node` given for each call: the results in order. -/
def readdir_session (S : Nat) (uiomove_error : dirent → Nat)
    (sfprov_readdir : Nat × List sffs_dirents) (mem : Nat → vboxfs_node) (fuel : Nat) :
    List (Int × Option Nat) → vboxfs_node → Int → List readdir_result
  | [], _, _ => []
  | c :: cs, dir, pos =>
    match vboxfs_readdir S uiomove_error sfprov_readdir mem fuel vtype.VDIR dir pos c.1 c.2
        false with
    | none => []
    | some r =>
      r :: readdir_session S uiomove_error sfprov_readdir mem fuel cs r.node r.uio_offset

/-- Every call of the sequence has budget for the entry that is next when the
call is made, if there is one. -/
def budgets_ok : List (Int × Option Nat) → List sffs_dirent → Prop
  | [], _ => True
  | c :: cs, rest =>
    (∀ d, rest.head? = some d → (d.sf_entry.d_reclen : Int) ≤ c.1) ∧
    budgets_ok cs (rest.drop (readdir_fit c.1 rest).length)

/-! ## Name resolution: `vboxfs_lookup` -/

def ISDOTDOT : Nat := 0x00002000
def MAKEENTRY : Nat := 0x00004000

/-- The fields of `struct componentname` that `vboxfs_lookup` reads. -/
structure componentname where
  cn_nameptr : String
  cn_namelen : Nat
  cn_flags : Nat
  cn_lkflags : Nat
  deriving DecidableEq, Repr

/-- The result of `vboxfs_lookup`: the return value, `*vpp`, whether
`cache_enter` was called, and the result of the `vboxfs_alloc_vp` call that
was made, if one was. -/
structure lookup_result where
  error : Nat
  vpp : Option Nat
  cache_entered : Bool
  alloc : Option alloc_result
  deriving DecidableEq, Repr

/-- The function `vboxfs_vn_get_ino_alloc` (lines 336-342), the callback
handed to `vn_vget_ino_gen`; `arg` is the node pointer, a `NULL` pointer is
dereferenced by `vboxfs_alloc_vp` and the call does not come back. -/
def vboxfs_vn_get_ino_alloc (F : vpstate_flags) (fuel : Nat) (env : List alloc_event)
    (doomed : List Nat) (mem : Nat → vboxfs_node) (arg : Option Nat) (lkflags : Nat)
    (rvp0 : Option Nat) : Option alloc_result :=
  match arg with
  | none => none
  | some p => vboxfs_alloc_vp F fuel env doomed p (mem p) lkflags rvp0

/-- The function `sfnode_construct_path` (lines 348-360); `none` is the `panic`. -/
def sfnode_construct_path (node : vboxfs_node) (tail : String) : Option String :=
  if tail = "." ∨ tail = ".." then none
  else some (node.sf_path ++ "/" ++ tail)

/-- The function `vboxfs_lookup` (lines 933-1001).  `dvp` is the vnode of the
directory and `node` its node; `sfprov_get_attr` is the provider's answer for
a path, `vboxfs_alloc_node` the address and content of the node that function
(which is not part of the sources at hand) creates for a path and type, with
its return value.  The kernel's `vn_vget_ino_gen` is taken to call the
callback it is given; its own return value is overwritten by the caller. -/
def vboxfs_lookup (F : vpstate_flags) (fuel : Nat) (env : List alloc_event) (doomed : List Nat)
    (mem : Nat → vboxfs_node) (sfprov_get_attr : String → Nat × sffs_stat)
    (vboxfs_alloc_node : String → vtype → Nat × Nat × vboxfs_node)
    (dvp : Nat) (node : vboxfs_node) (cnp : componentname) (vpp0 : Option Nat) :
    Option lookup_result :=
  if cnp.cn_flags &&& ISDOTDOT ≠ 0 then
    -- error = vn_vget_ino_gen(dvp, vboxfs_vn_get_ino_alloc, node->sf_parent, ...);
    -- error = ENOENT; if (error != 0) goto out;
    match vboxfs_vn_get_ino_alloc F fuel env doomed mem node.sf_parent cnp.cn_lkflags vpp0 with
    | none => none
    | some r => some { error := ENOENT, vpp := r.vpp, cache_entered := false, alloc := some r }
  else if cnp.cn_namelen = 1 ∧ cnp.cn_nameptr.data.head? = some (Char.ofNat 46) then
    some { error := 0, vpp := some dvp,
           cache_entered := decide (cnp.cn_flags &&& MAKEENTRY ≠ 0), alloc := none }
  else
    match sfnode_construct_path node cnp.cn_nameptr with
    | none => none
    | some fullpath =>
      let (error, stat) := sfprov_get_attr fullpath
      let m := stat.sf_mode
      if error ≠ 0 then
        some { error := ENOENT, vpp := vpp0,
               cache_entered := decide (cnp.cn_flags &&& MAKEENTRY ≠ 0), alloc := none }
      else
        let type := if S_ISDIR m then vtype.VDIR else if S_ISREG m then vtype.VREG
          else if S_ISLNK m then vtype.VLNK else vtype.VNON
        let (_, up, unode) := vboxfs_alloc_node fullpath type
        match vboxfs_alloc_vp F fuel env doomed up unode cnp.cn_lkflags vpp0 with
        | none => none
        | some r =>
          some { error := r.error, vpp := r.vpp,
                 cache_entered := decide (cnp.cn_flags &&& MAKEENTRY ≠ 0), alloc := some r }

/-! ## Reading: `vboxfs_read` -/

/-- The kernel's `min` of `<sys/libkern.h>`, `static __inline u_int min(u_int a,
u_int b)`: both arguments are converted to 32-bit unsigned integers. -/
def u_int_min (a b : Nat) : Nat := min (a % 2 ^ 32) (b % 2 ^ 32)

/-- The state of the loop of `vboxfs_read` when it is left: `error`, the
`uio`, and the number of `sfprov_read` calls made. -/
structure read_state where
  error : Nat
  uio_offset : Nat
  uio_resid : Nat
  prov_calls : Nat
  deriving DecidableEq, Repr

/-- The loop of lines 635-642 of `vboxfs_read`.  `sfprov_read offset cap` is
the provider's return value and the byte count it stores in `done` for a read
of at most `cap` bytes at `offset`; `uiomove_error offset` is what `uiomove`
returns for the copy-out at `offset`; a successful `uiomove` of `done` bytes
moves `min(done, uio_resid)` bytes, a failing one is taken to move none.
Every round takes one unit of `fuel`. -/
def vboxfs_read_loop (sfprov_read : Nat → Nat → Nat × Nat) (uiomove_error : Nat → Nat) :
    Nat → Nat → Nat → Nat → Option read_state
  | 0, _, _, _ => none
  | fuel + 1, uio_offset, uio_resid, calls =>
    let bytes := u_int_min PAGE_SIZE uio_resid
    let error := (sfprov_read uio_offset bytes).1
    let done := (sfprov_read uio_offset bytes).2 % 2 ^ 32
    if error = 0 ∧ done > 0 then
      if uiomove_error uio_offset ≠ 0 then
        some ⟨uiomove_error uio_offset, uio_offset, uio_resid, calls + 1⟩
      else if uio_resid - min done uio_resid > 0 then
        vboxfs_read_loop sfprov_read uiomove_error fuel (uio_offset + min done uio_resid)
          (uio_resid - min done uio_resid) (calls + 1)
      else
        some ⟨0, uio_offset + min done uio_resid, uio_resid - min done uio_resid, calls + 1⟩
    else
      some ⟨error, uio_offset, uio_resid, calls + 1⟩

/-- The function `vboxfs_read` (lines 593-650).  `tmpbuf_ok` tells whether
`contigmalloc` gave a buffer.  The loop gets `uio_resid + 1` units of fuel,
which it cannot use up: every round but the last moves at least one byte. -/
def vboxfs_read (sfprov_read : Nat → Nat → Nat × Nat) (uiomove_error : Nat → Nat)
    (tmpbuf_ok : Bool) (v_type : vtype) (np : vboxfs_node) (uio_offset uio_resid : Nat) :
    Option read_state :=
  if v_type = vtype.VDIR then some ⟨EISDIR, uio_offset, uio_resid, 0⟩
  else if v_type ≠ vtype.VREG then some ⟨EINVAL, uio_offset, uio_resid, 0⟩
  else if uio_resid = 0 then some ⟨0, uio_offset, uio_resid, 0⟩
  else if np.sf_file = none then some ⟨ ENXIO, uio_offset, uio_resid, 0⟩
  else if tmpbuf_ok = false then some ⟨ENOMEM, uio_offset, uio_resid, 0⟩
  else
    match vboxfs_read_loop sfprov_read uiomove_error (uio_resid + 1) uio_offset uio_resid 0 with
    | none => none
    | some r => some { r with error := if uio_resid ≠ r.uio_resid then 0 else r.error }

/-- A provider that reads a file of `len` bytes: a read of at most `cap` bytes
at `offset` succeeds with `min(cap, len - offset)` bytes. -/
def file_read (len : Nat) : Nat → Nat → Nat × Nat :=
  fun offset cap => (0, min cap (len - offset))

/-! ## Operations that are not supported: `vboxfs_write` ... `vboxfs_advlock` -/

/-- The argument record `struct vop_*_args` of a vnode operation: the vnodes it
names (`a_dvp`, `a_vp`, `a_tdvp`, `a_tvp`), each by the address of its node,
and its other arguments as words. -/
structure vop_args where
  a_vps : List Nat
  a_words : List Nat
  deriving DecidableEq, Repr

/-- What a vnode operation leaves: its return value and the nodes in memory. -/
structure vop_result where
  error : Nat
  mem : Nat → vboxfs_node

/-- Lines 652-656. -/
def vboxfs_write (_ap : vop_args) (mem : Nat → vboxfs_node) : vop_result :=
  { error := EOPNOTSUPP, mem := mem }

/-- Lines 658-662. -/
def vboxfs_create (_ap : vop_args) (mem : Nat → vboxfs_node) : vop_result :=
  { error := EOPNOTSUPP, mem := mem }

/-- Lines 664-668. -/
def vboxfs_remove (_ap : vop_args) (mem : Nat → vboxfs_node) : vop_result :=
  { error := EOPNOTSUPP, mem := mem }

/-- Lines 670-674. -/
def vboxfs_rename (_ap : vop_args) (mem : Nat → vboxfs_node) : vop_result :=
  { error := EOPNOTSUPP, mem := mem }

/-- Lines 676-680. -/
def vboxfs_link (_ap : vop_args) (mem : Nat → vboxfs_node) : vop_result :=
  { error := EOPNOTSUPP, mem := mem }

/-- Lines 682-686. -/
def vboxfs_symlink (_ap : vop_args) (mem : Nat → vboxfs_node) : vop_result :=
  { error := EOPNOTSUPP, mem := mem }

/-- Lines 688-692. -/
def vboxfs_mknod (_ap : vop_args) (mem : Nat → vboxfs_node) : vop_result :=
  { error := EOPNOTSUPP, mem := mem }

/-- Lines 694-698. -/
def vboxfs_mkdir (_ap : vop_args) (mem : Nat → vboxfs_node) : vop_result :=
  { error := EOPNOTSUPP, mem := mem }

/-- Lines 700-704. -/
def vboxfs_rmdir (_ap : vop_args) (mem : Nat → vboxfs_node) : vop_result :=
  { error := EOPNOTSUPP, mem := mem }

/-- Lines 918-922. -/
def vboxfs_getextattr (_ap : vop_args) (mem : Nat → vboxfs_node) : vop_result :=
  { error := EOPNOTSUPP, mem := mem }

/-- Lines 924-928. -/
def vboxfs_advlock (_ap : vop_args) (mem : Nat → vboxfs_node) : vop_result :=
  { error := EOPNOTSUPP, mem := mem }

/-- The slots of `struct vop_vector` that take a request to change the file
system, to lock a range or to read an extended attribute. -/
inductive vop_slot where
  | vop_advlock | vop_create | vop_getextattr | vop_link | vop_mkdir | vop_mknod
  | vop_remove | vop_rename | vop_rmdir | vop_symlink | vop_write
  deriving DecidableEq, Repr

/-- The entries of `vboxfs_vnodeops` (lines 65-97) in these slots. -/
def vboxfs_vnodeops : vop_slot → vop_args → (Nat → vboxfs_node) → vop_result
  | vop_slot.vop_advlock => vboxfs_advlock
  | vop_slot.vop_create => vboxfs_create
  | vop_slot.vop_getextattr => vboxfs_getextattr
  | vop_slot.vop_link => vboxfs_link
  | vop_slot.vop_mkdir => vboxfs_mkdir
  | vop_slot.vop_mknod => vboxfs_mknod
  | vop_slot.vop_remove => vboxfs_remove
  | vop_slot.vop_rename => vboxfs_rename
  | vop_slot.vop_rmdir => vboxfs_rmdir
  | vop_slot.vop_symlink => vboxfs_symlink
  | vop_slot.vop_write => vboxfs_write

/-! ## Concurrent calls of `vboxfs_alloc_vp` -/

/-- Where a thread stands in `vboxfs_alloc_vp` when it does not hold the node
mutex: before `VBOXFS_NODE_LOCK` at `loop` (line 164), in a blocking call
(`vget`, line 188; `msleep` on `&node->sf_vnode`, line 182; `msleep` on
`&node->sf_vpstate`, line 222; `getnewvnode`, line 235; `insmntque1`,
line 284), or after its `return`. -/
inductive alloc_pc where
  | at_loop
  | in_vget (vp : Nat)
  | asleep_wreclaim
  | asleep_want
  | in_getnewvnode
  | in_insmntque1 (vp : Nat)
  | returned (error : Nat) (vpp : Option Nat)
  deriving DecidableEq, Repr

/-- One call of `vboxfs_alloc_vp` in progress: its `lkflag`, what `*vpp` held
before the call, and where the thread stands. -/
structure alloc_thread where
  lkflag : Nat
  vpp0 : Option Nat
  pc : alloc_pc
  deriving DecidableEq, Repr

/-- What a thread does from one such point to the next: where it stands
then, the node as it leaves it, whether it called
`wakeup(&node->sf_vpstate)`, whether it goes on to call `getnewvnode`, and
the vnode that `getnewvnode` handed out to it in this step, if it did. -/
structure alloc_step where
  pc : alloc_pc
  node : vboxfs_node
  wakeup_want : Bool
  getnewvnode_called : Bool
  getnewvnode_gave : Option Nat := none
  deriving DecidableEq, Repr

/-- Lines 165-232 of `vboxfs_alloc_vp`: from the label `loop1`, with the node
mutex held, to the point where the thread gives the mutex up.  `none`: the
`while` loop of line 181 is not entered, and `goto loop1` finds the node as
it is now, so that the thread goes round with the mutex held. -/
def alloc_enter (F : vpstate_flags) (node : vboxfs_node) (doomed : List Nat) (lkflag : Nat) :
    Option alloc_step :=
  match node.sf_vnode with
  | some vp =>
    if (node.sf_type = vtype.VDIR ∧ node.sf_parent = none) ∨
        (vp ∈ doomed ∧ lkflag &&& LK_NOWAIT ≠ 0) then
      some { pc := .returned ENOENT none, node := node, wakeup_want := false,
             getnewvnode_called := false }
    else if vp ∈ doomed then
      if (node.sf_vpstate ||| F.VBOXFS_VNODE_WRECLAIM) &&& F.VBOXFS_VNODE_WRECLAIM ≠ 0 then
        some { pc := .asleep_wreclaim,
               node := { node with sf_vpstate := node.sf_vpstate ||| F.VBOXFS_VNODE_WRECLAIM },
               wakeup_want := false, getnewvnode_called := false }
      else none
    else
      some { pc := .in_vget vp, node := node, wakeup_want := false,
             getnewvnode_called := false }
  | none =>
    if node.sf_vpstate &&& F.VBOXFS_VNODE_DOOMED ≠ 0 ∨
        (node.sf_type = vtype.VDIR ∧ node.sf_parent = none) then
      some { pc := .returned ENOENT none, node := node, wakeup_want := false,
             getnewvnode_called := false }
    else if node.sf_vpstate &&& F.VBOXFS_VNODE_ALLOCATING ≠ 0 then
      some { pc := .asleep_want,
             node := { node with sf_vpstate := node.sf_vpstate ||| F.VBOXFS_VNODE_WANT },
             wakeup_want := false, getnewvnode_called := false }
    else
      some { pc := .in_getnewvnode,
             node := { node with sf_vpstate := node.sf_vpstate ||| F.VBOXFS_VNODE_ALLOCATING },
             wakeup_want := false, getnewvnode_called := true }

/-- The label `unlock` (lines 288-300) and the `return`, as a step. -/
def alloc_leave (F : vpstate_flags) (np : Nat) (node : vboxfs_node) (error : Nat)
    (vp : Option Nat) : alloc_step :=
  { pc := .returned (alloc_finish F node error vp
            (decide (node.sf_type = vtype.VDIR ∧ node.sf_parent = some np))).error
          (alloc_finish F node error vp
            (decide (node.sf_type = vtype.VDIR ∧ node.sf_parent = some np))).vpp,
    node := (alloc_finish F node error vp
            (decide (node.sf_type = vtype.VDIR ∧ node.sf_parent = some np))).node,
    wakeup_want := (alloc_finish F node error vp
            (decide (node.sf_type = vtype.VDIR ∧ node.sf_parent = some np))).wakeup_want,
    getnewvnode_called := false }

/-- One step of a thread in `vboxfs_alloc_vp`: the blocking call it is in
returns `ret` (`getnewvnode` gives the vnode `newvp`), and the thread runs on
to the next point where it stands without the mutex.  A thread asleep on
`&node->sf_vpstate` leaves `msleep` with 0 only through `wakeup`, which is
not a step of its own; `ret` other than 0 is a signal.  `none`: the kernel
panics (line 279), or the thread goes round with the mutex held. -/
def alloc_thread_step (F : vpstate_flags) (np : Nat) (node : vboxfs_node) (doomed : List Nat)
    (t : alloc_thread) (ret newvp : Nat) : Option alloc_step :=
  match t.pc with
  | .at_loop => alloc_enter F node doomed t.lkflag
  | .asleep_wreclaim =>
    if node.sf_vpstate &&& F.VBOXFS_VNODE_WRECLAIM ≠ 0 then
      some { pc := .asleep_wreclaim, node := node, wakeup_want := false,
             getnewvnode_called := false }
    else alloc_enter F node doomed t.lkflag
  | .in_vget vp =>
    if ret = ENOENT then
      some { pc := .at_loop, node := node, wakeup_want := false, getnewvnode_called := false }
    else if ret ≠ 0 then
      some { pc := .returned ret none, node := node, wakeup_want := false,
             getnewvnode_called := false }
    else if node.sf_vnode = none ∨ node.sf_vnode ≠ some vp then
      some { pc := .at_loop, node := node, wakeup_want := false, getnewvnode_called := false }
    else
      some { pc := .returned 0 (some vp), node := node, wakeup_want := false,
             getnewvnode_called := false }
  | .asleep_want =>
    if ret ≠ 0 then
      some { pc := .returned ret t.vpp0, node := node, wakeup_want := false,
             getnewvnode_called := false }
    else
      some { pc := .asleep_want, node := node, wakeup_want := false,
             getnewvnode_called := false }
  | .in_getnewvnode =>
    if ret ≠ 0 then some (alloc_leave F np node ret none)
    else if node.sf_type = vtype.VNON ∨ node.sf_type = vtype.VBAD ∨
        node.sf_type = vtype.VMARKER then none
    else
      some { pc := .in_insmntque1 newvp, node := node, wakeup_want := false,
             getnewvnode_called := false, getnewvnode_gave := some newvp }
  | .in_insmntque1 vp =>
    if ret ≠ 0 then some (alloc_leave F np node ret none)
    else some (alloc_leave F np node 0 (some vp))
  | .returned error vpp =>
    some { pc := .returned error vpp, node := node, wakeup_want := false,
           getnewvnode_called := false }

/-- The threads that call `vboxfs_alloc_vp` on one node, the node, the vnodes
with `VI_DOOMED`, the number of calls of `getnewvnode` made so far, and the
vnodes that `getnewvnode` has handed out so far, the latest first. -/
structure alloc_sys where
  node : vboxfs_node
  vi_doomed : List Nat
  threads : List alloc_thread
  getnewvnode_calls : Nat
  getnewvnode_vps : List Nat
  deriving DecidableEq, Repr

/-- The call `wakeup(&node->sf_vpstate)`: every thread asleep on that channel
leaves `msleep` with 0 and goes to `loop` (line 228). -/
def alloc_wakeup (ts : List alloc_thread) : List alloc_thread :=
  ts.map (fun t => if t.pc = alloc_pc.asleep_want then { t with pc := alloc_pc.at_loop } else t)

/-- An entry of a schedule: the thread that runs next, what the blocking call
it is in returns, and the vnode `getnewvnode` hands out. -/
structure alloc_sched where
  tid : Nat
  ret : Nat
  newvp : Nat
  deriving DecidableEq, Repr

/-- One step of the system: the thread `e.tid` runs.  An entry that names no
thread changes nothing. -/
def alloc_sys_step (F : vpstate_flags) (np : Nat) (s : alloc_sys) (e : alloc_sched) :
    Option alloc_sys :=
  match s.threads[e.tid]? with
  | none => some s
  | some t =>
    match alloc_thread_step F np s.node s.vi_doomed t e.ret e.newvp with
    | none => none
    | some r =>
      some { node := r.node, vi_doomed := s.vi_doomed,
             threads :=
               if r.wakeup_want then alloc_wakeup (s.threads.set e.tid { t with pc := r.pc })
               else s.threads.set e.tid { t with pc := r.pc },
             getnewvnode_calls := s.getnewvnode_calls + (if r.getnewvnode_called then 1 else 0),
             getnewvnode_vps := r.getnewvnode_gave.toList ++ s.getnewvnode_vps }

/-- The system run along a schedule. -/
def alloc_run (F : vpstate_flags) (np : Nat) : alloc_sys → List alloc_sched → Option alloc_sys
  | s, [] => some s
  | s, e :: es =>
    match alloc_sys_step F np s e with
    | none => none
    | some s1 => alloc_run F np s1 es

/-- The calls `calls` (each with its `lkflag` and its `*vpp`) enter
`vboxfs_alloc_vp` on `node`; no call of `getnewvnode` has been made, and it
has handed out no vnode. -/
def alloc_start (node : vboxfs_node) (doomed : List Nat) (calls : List (Nat × Option Nat)) :
    alloc_sys :=
  { node := node, vi_doomed := doomed,
    threads := calls.map (fun c => { lkflag := c.1, vpp0 := c.2, pc := alloc_pc.at_loop }),
    getnewvnode_calls := 0, getnewvnode_vps := [] }

/-- The node can be given a vnode: it is not a directory without a parent
(line 209), and its type is one `vboxfs_alloc_vp` knows (lines 246-280). -/
def alloc_node_ok (node : vboxfs_node) : Prop :=
  ¬(node.sf_type = vtype.VDIR ∧ node.sf_parent = none) ∧
  node.sf_type ≠ vtype.VNON ∧ node.sf_type ≠ vtype.VBAD ∧ node.sf_type ≠ vtype.VMARKER

/-- The vnodes `getnewvnode` has handed out when the allocating thread
stands at `pc`: none while it is in `getnewvnode`, and the vnode it takes
into `insmntque1`. -/
def alloc_pc_vps : alloc_pc → List Nat
  | alloc_pc.in_insmntque1 v => [v]
  | _ => []

/-- No thread has got further than `loop`: the node is not bound, nobody
allocates, `getnewvnode` has not been called. -/
def alloc_idle (F : vpstate_flags) (s : alloc_sys) : Prop :=
  s.node.sf_vnode = none ∧ s.node.sf_vpstate &&& F.VBOXFS_VNODE_ALLOCATING = 0 ∧
  s.getnewvnode_calls = 0 ∧ s.getnewvnode_vps = [] ∧
  ∀ (i : Nat) (t : alloc_thread), s.threads[i]? = some t → t.pc = alloc_pc.at_loop

/-- One thread allocates: the node is not bound and `VBOXFS_VNODE_ALLOCATING`
is set, `getnewvnode` has been called once, by the thread `a`, which stands
at `pc`, and every other thread is at `loop` or asleep with
`VBOXFS_VNODE_WANT` set. -/
def alloc_busy_at (F : vpstate_flags) (s : alloc_sys) (a : Nat) (pc : alloc_pc) : Prop :=
  s.node.sf_vnode = none ∧ s.node.sf_vpstate &&& F.VBOXFS_VNODE_ALLOCATING ≠ 0 ∧
  s.getnewvnode_calls = 1 ∧ s.getnewvnode_vps = alloc_pc_vps pc ∧
  (∃ ta : alloc_thread, s.threads[a]? = some ta ∧ ta.pc = pc) ∧
  ∀ (i : Nat) (t : alloc_thread), i ≠ a → s.threads[i]? = some t →
    t.pc = alloc_pc.at_loop ∨
    (t.pc = alloc_pc.asleep_want ∧ s.node.sf_vpstate &&& F.VBOXFS_VNODE_WANT ≠ 0)

/-- One thread allocates, and it is in `getnewvnode` or in `insmntque1`. -/
def alloc_busy (F : vpstate_flags) (s : alloc_sys) : Prop :=
  ∃ (a : Nat) (pc : alloc_pc), alloc_busy_at F s a pc ∧
    (pc = alloc_pc.in_getnewvnode ∨ ∃ v, pc = alloc_pc.in_insmntque1 v ∧ v ∉ s.vi_doomed)

/-- The node is bound to the vnode `v`, which the one call of `getnewvnode`
handed out, and every thread is at `loop`, in `vget` of `v`, or has returned
`v`. -/
def alloc_bound_to (s : alloc_sys) (v : Nat) : Prop :=
  s.getnewvnode_calls = 1 ∧ s.getnewvnode_vps = [v] ∧ s.node.sf_vnode = some v ∧
  v ∉ s.vi_doomed ∧
  ∀ (i : Nat) (t : alloc_thread), s.threads[i]? = some t →
    t.pc = alloc_pc.at_loop ∨ t.pc = alloc_pc.in_vget v ∨ t.pc = alloc_pc.returned 0 (some v)

/-- The node is bound to the vnode of the one call of `getnewvnode`. -/
def alloc_bound (s : alloc_sys) : Prop := ∃ v, alloc_bound_to s v

/-- What holds of the system at every step when all calls start on a node
that is not bound and nothing fails. -/
def alloc_inv (F : vpstate_flags) (s : alloc_sys) : Prop :=
  alloc_node_ok s.node ∧ s.node.sf_vpstate &&& F.VBOXFS_VNODE_DOOMED = 0 ∧
  (alloc_idle F s ∨ alloc_busy F s ∨ alloc_bound s)

/-- Every call of the schedule succeeds, no signal comes in, and `getnewvnode`
hands out no vnode that is being reclaimed. -/
def alloc_sched_ok (doomed : List Nat) (sched : List alloc_sched) : Prop :=
  ∀ e ∈ sched, e.ret = 0 ∧ e.newvp ∉ doomed

/-- The step `e` can be taken from `s`; it changes neither the set of doomed
vnodes nor the number of threads, leaves a node that can be given a vnode and
is not marked as doomed, and leads to a state of which `Q` holds. -/
def alloc_step_to (F : vpstate_flags) (np : Nat) (s : alloc_sys) (e : alloc_sched)
    (Q : alloc_sys → Prop) : Prop :=
  ∃ s1, alloc_sys_step F np s e = some s1 ∧ s1.vi_doomed = s.vi_doomed ∧
    s1.threads.length = s.threads.length ∧ alloc_node_ok s1.node ∧
    s1.node.sf_vpstate &&& F.VBOXFS_VNODE_DOOMED = 0 ∧ Q s1

/-- A vnode that is not in the list. -/
def alloc_fresh (doomed : List Nat) : Nat := doomed.foldr max 0 + 1

/-- The schedule that lets each of the threads `is` run twice. -/
def alloc_twice (newvp : Nat) (is : List Nat) : List alloc_sched :=
  is.flatMap (fun i => [{ tid := i, ret := 0, newvp := newvp }, { tid := i, ret := 0, newvp := newvp }])

/-! ## Sample data for concrete runs -/

def zero_time : timespec := ⟨0, 0⟩

def zero_stat : sffs_stat := ⟨0, 0, 0, zero_time, zero_time, zero_time⟩

/-- A regular file below the directory at address 1, not bound to a vnode. -/
def sample_file : vboxfs_node :=
  { sf_path := "/a", sf_type := vtype.VREG, sf_ino := 7, sf_parent := some 1,
    sf_vnode := none, sf_vpstate := 0, sf_file := none, sf_stat := zero_stat,
    sf_stat_time := 0, sf_dir_list := [] }

/-- The same file bound to the vnode 42. -/
def sample_file_bound : vboxfs_node := { sample_file with sf_vnode := some 42 }

/-- A schedule for an allocation: `getnewvnode` gives vnode 42, `insmntque1`
succeeds, and nobody else touches the node. -/
def sample_alloc_env : List alloc_event :=
  [⟨0, 42, none, 1, []⟩, ⟨0, 0, none, 1, []⟩]

/-- A schedule for a reuse: `vget` succeeds and the node is as it was. -/
def sample_reuse_env : List alloc_event := [⟨0, 0, some 42, 0, []⟩]

/-- A mount with the given attribute TTL in milliseconds and no overrides. -/
def sample_mnt (ttl : Nat) : vboxfs_mnt :=
  { sf_stat_ttl := ttl, sf_uid := 0, sf_gid := 0, sf_dmode := 0, sf_fmode := 0,
    sf_dmask := 0, sf_fmask := 0 }

/-- A provider whose attribute query always succeeds. -/
def sample_get_attr : sffs_stat → Nat × sffs_stat := fun _ => (0, zero_stat)

def zero_vattr : vattr :=
  { va_type := vtype.VNON, va_mode := 0, va_nlink := 0, va_uid := 0, va_gid := 0, va_fsid := 0,
    va_fileid := 0, va_size := 0, va_blocksize := 0, va_atime := zero_time,
    va_mtime := zero_time, va_ctime := zero_time, va_gen := 0, va_flags := 0, va_rdev := 0,
    va_bytes := 0, va_filerev := 0, va_vaflags := 0 }

/-- The node after a first `vboxfs_getattr` at 1700000000 s + 990000 us with a
TTL of 100 ms. -/
def sample_fetched : getattr_result :=
  vboxfs_getattr (sample_mnt 100) sample_get_attr ⟨1700000000, 990000⟩ ⟨1700000000, 990000⟩
    vtype.VREG 0 sample_file zero_vattr

/-- Four entries in two buffers, for `sizeof(struct sffs_dirent) = 16`: ".",
"..", "foo" in the first buffer and "bar" in the second, with tokens 28, 56,
88 and 120. -/
def sample_listing : List sffs_dirents :=
  [ { sf_len := 88,
      sf_entries := [ ⟨⟨0, 12, "."⟩, 28⟩, ⟨⟨0, 12, ".."⟩, 56⟩, ⟨⟨0, 16, "foo"⟩, 88⟩ ] },
    { sf_len := 32, sf_entries := [ ⟨⟨0, 16, "bar"⟩, 120⟩ ] } ]

/-- A directory with inode 5 below the directory at address 1, with the
listing cached. -/
def sample_dir : vboxfs_node :=
  { sf_path := "/d", sf_type := vtype.VDIR, sf_ino := 5, sf_parent := some 1,
    sf_vnode := some 43, sf_vpstate := 0, sf_file := none, sf_stat := zero_stat,
    sf_stat_time := 0, sf_dir_list := sample_listing }

/-- The parent of `sample_dir`: a directory with inode 3. -/
def sample_parent : vboxfs_node :=
  { sf_path := "", sf_type := vtype.VDIR, sf_ino := 3, sf_parent := some 1,
    sf_vnode := some 41, sf_vpstate := 0, sf_file := none, sf_stat := zero_stat,
    sf_stat_time := 0, sf_dir_list := [] }

/-- Memory with `sample_parent` at every address. -/
def sample_mem : Nat → vboxfs_node := fun _ => sample_parent

/-- A copy-out that never fails. -/
def uiomove_ok : dirent → Nat := fun _ => 0

/-- The regular file `sample_file`, open with the provider handle 9. -/
def sample_open_file : vboxfs_node := { sample_file with sf_file := some 9 }

/-- The name ".." as `namei` hands it to the lookup. -/
def sample_dotdot : componentname :=
  { cn_nameptr := "..", cn_namelen := 2, cn_flags := ISDOTDOT, cn_lkflags := 0 }

/-- A schedule in which `vget` on the parent's vnode 41 succeeds. -/
def sample_parent_env : List alloc_event := [⟨0, 0, some 41, 0, []⟩]

/-- A provider whose attribute query succeeds with the mode given. -/
def mode_get_attr (mode : Nat) : sffs_stat → Nat × sffs_stat :=
  fun _ => (0, { zero_stat with sf_mode := mode })

/-- A mount with TTL 0 and the file mode override and file mask given. -/
def sample_fmask_mnt (fmode fmask : Nat) : vboxfs_mnt :=
  { sample_mnt 0 with sf_fmode := fmode, sf_fmask := fmask }

/-- A directory that has no parent and is not bound to a vnode. -/
def sample_orphan_dir : vboxfs_node :=
  { sf_path := "/gone", sf_type := vtype.VDIR, sf_ino := 9, sf_parent := none,
    sf_vnode := none, sf_vpstate := 0, sf_file := none, sf_stat := zero_stat,
    sf_stat_time := 0, sf_dir_list := [] }

/-- Two calls; the call 0 allocates, the call 1 falls asleep and is
interrupted by a signal (`EINTR`, 4) before the vnode 42 is bound. -/
def sample_signal_sched : List alloc_sched :=
  [⟨0, 0, 0⟩, ⟨1, 0, 0⟩, ⟨1, 4, 0⟩, ⟨0, 0, 42⟩, ⟨0, 0, 0⟩]

/-- Two calls; `getnewvnode` fails for the call 0 (`ENFILE`, 23), and the
call 1 then allocates the vnode 43. -/
def sample_enfile_sched : List alloc_sched :=
  [⟨0, 0, 0⟩, ⟨0, 23, 0⟩, ⟨1, 0, 0⟩, ⟨1, 0, 43⟩, ⟨1, 0, 0⟩]

/-- Three calls; the call 0 allocates the vnode 42 while the call 1 sleeps,
the call 2 comes after the allocation, and the calls 1 and 2 take the vnode
with `vget`. -/
def sample_three_sched : List alloc_sched :=
  [⟨0, 0, 0⟩, ⟨1, 0, 0⟩, ⟨0, 0, 42⟩, ⟨1, 0, 0⟩, ⟨0, 0, 0⟩, ⟨2, 0, 0⟩, ⟨1, 0, 0⟩, ⟨1, 0, 0⟩,
   ⟨2, 0, 0⟩]

/-- Where the threads stand at the end of a run, the number of calls of
`getnewvnode`, and the vnodes it handed out, the latest first. -/
def alloc_outcome (r : Option alloc_sys) : Option (List alloc_pc × Nat × List Nat) :=
  r.map (fun s => (s.threads.map (fun t => t.pc), s.getnewvnode_calls, s.getnewvnode_vps))

/-! ## Lemmas on flag words -/

theorem and_not_and_self (s m : Nat) : and_not s m &&& m = 0 := by
  apply Nat.eq_of_testBit_eq
  intro i
  simp [and_not, Nat.testBit_xor, Nat.testBit_and]

theorem and_not_and_of_and_eq_zero (s m k : Nat) (h : s &&& k = 0) : and_not s m &&& k = 0 := by
  apply Nat.eq_of_testBit_eq
  intro i
  have hi := congrArg (fun x => x.testBit i) h
  simp [Nat.testBit_and] at hi
  simp [and_not, Nat.testBit_xor, Nat.testBit_and]
  cases hs : s.testBit i <;> cases hm : m.testBit i <;> cases hk : k.testBit i <;> simp_all

theorem and_not_and_disjoint (s m k : Nat) (h : m &&& k = 0) : and_not s m &&& k = s &&& k := by
  apply Nat.eq_of_testBit_eq
  intro i
  have hi := congrArg (fun x => x.testBit i) h
  simp [Nat.testBit_and] at hi
  simp [and_not, Nat.testBit_xor, Nat.testBit_and]
  cases hs : s.testBit i <;> cases hm : m.testBit i <;> cases hk : k.testBit i <;> simp_all

theorem std_flags_wf : std_flags.wf := by
  unfold vpstate_flags.wf std_flags
  decide

/-! ## Binding: what a successful `vboxfs_alloc_vp` returns -/

theorem wreclaim_wait_env (F : vpstate_flags) (env : List alloc_event) :
    ∀ (node : vboxfs_node) (doomed : List Nat) (env1 : List alloc_event) (node1 : vboxfs_node)
      (doomed1 : List Nat),
      wreclaim_wait F env node doomed = some (env1, node1, doomed1) →
      ∀ e ∈ env1, e ∈ env := by
  induction env with
  | nil =>
    intro node doomed env1 node1 doomed1 h
    unfold wreclaim_wait at h
    split at h
    · simp at h
    · simp at h
      intro e he
      rw [h.1] at he
      exact he
  | cons e0 env ih =>
    intro node doomed env1 node1 doomed1 h
    unfold wreclaim_wait at h
    split at h
    · intro e he
      exact List.mem_cons_of_mem _ (ih _ _ _ _ _ h e he)
    · simp at h
      intro e he
      rw [h.1]
      exact he

theorem alloc_finish_vpp (F : vpstate_flags) (node : vboxfs_node) (error : Nat) (vp : Option Nat)
    (r : Bool) :
    (alloc_finish F node error vp r).error = error ∧
    (alloc_finish F node error vp r).vpp = vp ∧
    (alloc_finish F node error vp r).node.sf_vnode = vp ∧
    (alloc_finish F node error vp r).node.sf_vpstate &&& F.VBOXFS_VNODE_ALLOCATING = 0 := by
  unfold alloc_finish
  simp only []
  split
  · refine ⟨rfl, rfl, rfl, ?_⟩
    exact and_not_and_of_and_eq_zero _ _ _ (and_not_and_self _ _)
  · exact ⟨rfl, rfl, rfl, and_not_and_self _ _⟩

/-- A pass that goes round again leaves only events of the schedule it was given. -/
theorem alloc_pass_again (F : vpstate_flags) (env : List alloc_event) (doomed : List Nat)
    (np : Nat) (node : vboxfs_node) (lkflag : Nat) (vpp0 : Option Nat)
    (env1 : List alloc_event) (doomed1 : List Nat) (node1 : vboxfs_node)
    (h : alloc_pass F env doomed np node lkflag vpp0 = .again env1 doomed1 node1) :
    ∀ e ∈ env1, e ∈ env := by
  unfold alloc_pass at h
  split at h
  · unfold alloc_pass_bound at h
    split at h
    · cases h
    · split at h
      · split at h
        · cases h
        · rename_i hw
          cases h
          exact wreclaim_wait_env F env _ _ _ _ _ hw
      · split at h
        · cases h
        · split at h
          · cases h
            exact fun x hx => List.mem_cons_of_mem _ hx
          · split at h
            · cases h
            · split at h
              · cases h
                exact fun x hx => List.mem_cons_of_mem _ hx
              · cases h
  · unfold alloc_pass_unbound at h
    split at h
    · cases h
    · split at h
      · split at h
        · cases h
        · split at h
          · cases h
          · cases h
            exact fun x hx => List.mem_cons_of_mem _ hx
      · split at h
        · cases h
        · split at h
          · cases h
          · split at h
            · cases h
            · split at h
              · cases h
              · split at h
                · cases h
                · cases h

/-- What a pass that returns 0 returns. -/
theorem alloc_pass_ret (F : vpstate_flags) (env : List alloc_event) (doomed : List Nat)
    (np : Nat) (node : vboxfs_node) (lkflag : Nat) (vpp0 : Option Nat) (r : alloc_result)
    (h : alloc_pass F env doomed np node lkflag vpp0 = .ret r) (h0 : r.error = 0) :
    (∃ vp, r.vpp = some vp ∧ r.node.sf_vnode = some vp) ∧
    ((∀ e ∈ env, e.bound_not_allocating F) →
      r.node.sf_vpstate &&& F.VBOXFS_VNODE_ALLOCATING = 0) := by
  unfold alloc_pass at h
  split at h
  · rename_i vp hvp
    unfold alloc_pass_bound at h
    split at h
    · cases h
      simp [ENOENT] at h0
    · split at h
      · split at h
        · cases h
        · cases h
      · split at h
        · cases h
        · rename_i e env1
          split at h
          · cases h
          · split at h
            · rename_i hret
              cases h
              exact absurd h0 hret
            · split at h
              · cases h
              · rename_i hne
                cases h
                have h3 : e.sf_vnode = some vp := by
                  by_contra hc
                  exact hne (Or.inr hc)
                refine ⟨⟨vp, rfl, h3⟩, fun henv => ?_⟩
                apply henv e (List.mem_cons_self _ _)
                rw [h3]
                simp
  · unfold alloc_pass_unbound at h
    split at h
    · cases h
      simp [ENOENT] at h0
    · split at h
      · split at h
        · cases h
        · split at h
          · rename_i hret
            cases h
            exact absurd h0 hret
          · cases h
      · split at h
        · cases h
        · rename_i e env1
          split at h
          · rename_i hret
            cases h
            rw [(alloc_finish_vpp F (e.node node) e.ret none false).1] at h0
            exact absurd h0 hret
          · split at h
            · cases h
            · split at h
              · cases h
              · rename_i e2 env2
                split at h
                · rename_i hret
                  cases h
                  rw [(alloc_finish_vpp F (e2.node node) e2.ret none false).1] at h0
                  exact absurd h0 hret
                · cases h
                  have := alloc_finish_vpp F (e2.node node) 0 (some e.newvp)
                    (decide (node.sf_type = vtype.VDIR ∧ node.sf_parent = some np))
                  exact ⟨⟨e.newvp, this.2.1, this.2.2.1⟩, fun _ => this.2.2.2⟩

theorem or_and_disjoint (s m k : Nat) (h : m &&& k = 0) : (s ||| m) &&& k = s &&& k := by
  apply Nat.eq_of_testBit_eq
  intro i
  have hi := congrArg (fun x => x.testBit i) h
  simp [Nat.testBit_and] at hi
  simp [Nat.testBit_or, Nat.testBit_and]
  cases hs : s.testBit i <;> cases hm : m.testBit i <;> cases hk : k.testBit i <;> simp_all

theorem wreclaim_wait_rule (F : vpstate_flags) (env : List alloc_event) :
    ∀ (node : vboxfs_node) (doomed : List Nat) (env1 : List alloc_event) (node1 : vboxfs_node)
      (doomed1 : List Nat),
      wreclaim_wait F env node doomed = some (env1, node1, doomed1) →
      node.bound_not_allocating F → (∀ e ∈ env, e.bound_not_allocating F) →
      node1.bound_not_allocating F := by
  induction env with
  | nil =>
    intro node doomed env1 node1 doomed1 h hn _
    unfold wreclaim_wait at h
    split at h
    · cases h
    · cases h
      exact hn
  | cons e0 env ih =>
    intro node doomed env1 node1 doomed1 h hn henv
    unfold wreclaim_wait at h
    split at h
    · exact ih _ _ _ _ _ h (henv e0 (List.mem_cons_self _ _))
        (fun e he => henv e (List.mem_cons_of_mem _ he))
    · cases h
      exact hn

/-- The rule is the code's own: a pass of `vboxfs_alloc_vp` that starts from a
node that keeps it, with other threads keeping it, returns or goes round
again with a node that keeps it. -/
theorem alloc_pass_rule (F : vpstate_flags) (hF : F.wf) (env : List alloc_event)
    (doomed : List Nat) (np : Nat) (node : vboxfs_node) (lkflag : Nat) (vpp0 : Option Nat)
    (hn : node.bound_not_allocating F) (henv : ∀ e ∈ env, e.bound_not_allocating F) :
    (∀ r, alloc_pass F env doomed np node lkflag vpp0 = .ret r → r.node.bound_not_allocating F) ∧
    (∀ env1 doomed1 node1, alloc_pass F env doomed np node lkflag vpp0 =
      .again env1 doomed1 node1 → node1.bound_not_allocating F) := by
  have hfin : ∀ (n : vboxfs_node) (err : Nat) (vp : Option Nat) (b : Bool),
      (alloc_finish F n err vp b).node.bound_not_allocating F :=
    fun n err vp b _ => (alloc_finish_vpp F n err vp b).2.2.2
  have hev : ∀ e ∈ env, (e.node node).bound_not_allocating F := fun e he => henv e he
  unfold alloc_pass
  split
  · rename_i vp hvp
    unfold alloc_pass_bound
    split
    · exact ⟨fun r h => (by cases h; exact hn), fun _ _ _ h => by cases h⟩
    · split
      · split
        · exact ⟨fun r h => (by cases h), fun _ _ _ h => by cases h⟩
        · rename_i hw
          refine ⟨fun r h => (by cases h), fun _ _ _ h => ?_⟩
          cases h
          refine wreclaim_wait_rule F env _ _ _ _ _ hw ?_ henv
          intro hv
          have hWA : F.VBOXFS_VNODE_WRECLAIM &&& F.VBOXFS_VNODE_ALLOCATING = 0 := by
            rw [Nat.land_comm]; exact hF.2.2.2.2.2.2.1
          show (node.sf_vpstate ||| F.VBOXFS_VNODE_WRECLAIM) &&& F.VBOXFS_VNODE_ALLOCATING = 0
          rw [or_and_disjoint _ _ _ hWA]
          exact hn hv
      · split
        · exact ⟨fun r h => (by cases h), fun _ _ _ h => by cases h⟩
        · rename_i e env1
          have he := hev e (List.mem_cons_self _ _)
          split
          · exact ⟨fun r h => (by cases h), fun _ _ _ h => by cases h; exact he⟩
          · split
            · exact ⟨fun r h => (by cases h; exact he), fun _ _ _ h => by cases h⟩
            · split
              · exact ⟨fun r h => (by cases h), fun _ _ _ h => by cases h; exact he⟩
              · exact ⟨fun r h => (by cases h; exact he), fun _ _ _ h => by cases h⟩
  · unfold alloc_pass_unbound
    split
    · exact ⟨fun r h => (by cases h; exact hn), fun _ _ _ h => by cases h⟩
    · split
      · split
        · exact ⟨fun r h => (by cases h), fun _ _ _ h => by cases h⟩
        · rename_i e env1
          have he := hev e (List.mem_cons_self _ _)
          split
          · exact ⟨fun r h => (by cases h; exact he), fun _ _ _ h => by cases h⟩
          · exact ⟨fun r h => (by cases h), fun _ _ _ h => by cases h; exact he⟩
      · split
        · exact ⟨fun r h => (by cases h), fun _ _ _ h => by cases h⟩
        · split
          · exact ⟨fun r h => (by cases h; exact hfin _ _ _ _), fun _ _ _ h => by cases h⟩
          · split
            · exact ⟨fun r h => (by cases h), fun _ _ _ h => by cases h⟩
            · split
              · exact ⟨fun r h => (by cases h), fun _ _ _ h => by cases h⟩
              · split
                · exact ⟨fun r h => (by cases h; exact hfin _ _ _ _), fun _ _ _ h => by cases h⟩
                · exact ⟨fun r h => (by cases h; exact hfin _ _ _ _), fun _ _ _ h => by cases h⟩

/-- And so does `vboxfs_alloc_vp` as a whole, and `vboxfs_reclaim`, which
leaves the node unbound. -/
theorem vboxfs_alloc_vp_rule (F : vpstate_flags) (hF : F.wf) (fuel : Nat)
    (env : List alloc_event) (doomed : List Nat) (np : Nat) (node : vboxfs_node) (lkflag : Nat)
    (vpp0 : Option Nat) (r : alloc_result)
    (hn : node.bound_not_allocating F) (henv : ∀ e ∈ env, e.bound_not_allocating F)
    (h : vboxfs_alloc_vp F fuel env doomed np node lkflag vpp0 = some r) :
    r.node.bound_not_allocating F ∧ (vboxfs_reclaim F r.node).node.bound_not_allocating F := by
  have hrec : ∀ n : vboxfs_node, (vboxfs_reclaim F n).node.bound_not_allocating F := by
    intro n hv
    exfalso
    apply hv
    unfold vboxfs_reclaim vboxfs_free_vp
    simp only []
    split <;> rfl
  refine ⟨?_, hrec _⟩
  induction fuel generalizing env doomed node with
  | zero => simp [vboxfs_alloc_vp] at h
  | succ fuel ih =>
    unfold vboxfs_alloc_vp at h
    have hp := alloc_pass_rule F hF env doomed np node lkflag vpp0 hn henv
    split at h
    · rename_i r1 hr1
      cases h
      exact hp.1 r hr1
    · rename_i env1 doomed1 node1 hag
      exact ih env1 doomed1 node1 (hp.2 _ _ _ hag)
        (fun e he => henv e (alloc_pass_again F env doomed np node lkflag vpp0 _ _ _ hag e he)) h
    · cases h

/-- C1: whenever `vboxfs_alloc_vp` returns 0, `*vpp` is non-null and is the
vnode the node records in `sf_vnode`, on the path that reuses the recorded
vnode and on the path that allocates a new one alike; and
`VBOXFS_VNODE_ALLOCATING` is clear in `sf_vpstate` on return, the other
threads keeping to the rule that a node with a recorded vnode is not marked
allocating. -/
theorem vboxfs_alloc_vp_success (F : vpstate_flags) (fuel : Nat) (env : List alloc_event)
    (doomed : List Nat) (np : Nat) (node : vboxfs_node) (lkflag : Nat) (vpp0 : Option Nat)
    (r : alloc_result)
    (h : vboxfs_alloc_vp F fuel env doomed np node lkflag vpp0 = some r) (h0 : r.error = 0) :
    (∃ vp, r.vpp = some vp ∧ r.node.sf_vnode = some vp) ∧
    ((∀ e ∈ env, e.bound_not_allocating F) →
      r.node.sf_vpstate &&& F.VBOXFS_VNODE_ALLOCATING = 0) := by
  induction fuel generalizing env doomed node with
  | zero => simp [vboxfs_alloc_vp] at h
  | succ fuel ih =>
    unfold vboxfs_alloc_vp at h
    split at h
    · rename_i r1 hr1
      cases h
      exact alloc_pass_ret F env doomed np node lkflag vpp0 r hr1 h0
    · rename_i env1 doomed1 node1 hag
      obtain ⟨h1, h2⟩ := ih env1 doomed1 node1 h
      exact ⟨h1, fun henv => h2 (fun e he =>
        henv e (alloc_pass_again F env doomed np node lkflag vpp0 _ _ _ hag e he))⟩
    · cases h

/-- The allocating path at work: an unbound file gets the new vnode 42. -/
theorem vboxfs_alloc_vp_new_run :
    vboxfs_alloc_vp std_flags 1 sample_alloc_env [] 5 sample_file 0 none =
      some { error := 0, vpp := some 42, node := { sample_file with sf_vnode := some 42 },
             wakeup_want := false, vv_root := false } := by
  decide

/-- The reusing path at work: a bound file hands out its vnode 42. -/
theorem vboxfs_alloc_vp_reuse_run :
    vboxfs_alloc_vp std_flags 1 sample_reuse_env [] 5 sample_file_bound 0 none =
      some { error := 0, vpp := some 42, node := sample_file_bound,
             wakeup_want := false, vv_root := false } := by
  decide

theorem sample_reuse_env_inv : ∀ e ∈ sample_reuse_env, e.bound_not_allocating std_flags := by
  intro e he
  simp only [sample_reuse_env, List.mem_singleton] at he
  subst he
  intro _
  decide

theorem vboxfs_alloc_vp_success_witness :
    (∃ vp, (some 42 : Option Nat) = some vp ∧ sample_file_bound.sf_vnode = some vp) ∧
    sample_file_bound.sf_vpstate &&& std_flags.VBOXFS_VNODE_ALLOCATING = 0 :=
  ⟨(vboxfs_alloc_vp_success std_flags 1 sample_reuse_env [] 5 sample_file_bound 0 none
      { error := 0, vpp := some 42, node := sample_file_bound, wakeup_want := false,
        vv_root := false }
      (by decide) rfl).1,
   (vboxfs_alloc_vp_success std_flags 1 sample_reuse_env [] 5 sample_file_bound 0 none
      { error := 0, vpp := some 42, node := sample_file_bound, wakeup_want := false,
        vv_root := false }
      (by decide) rfl).2 sample_reuse_env_inv⟩

/-! ## Unbinding: `vboxfs_reclaim` -/

/-- C2: `vboxfs_reclaim` returns 0 with `sf_vnode` cleared and
`VBOXFS_VNODE_WRECLAIM` clear, having called `wakeup(&node->sf_vnode)` exactly
when `VBOXFS_VNODE_WRECLAIM` was set.  It sets `sf_vpstate` to
`VBOXFS_VNODE_DOOMED` and frees the node exactly when
`VBOXFS_VNODE_ALLOCATING` was clear; with `VBOXFS_VNODE_ALLOCATING` set the
node is not freed, `sf_vpstate` only loses `VBOXFS_VNODE_WRECLAIM`, and the
`VBOXFS_VNODE_DOOMED` bit is as it was. -/
theorem vboxfs_reclaim_spec (F : vpstate_flags) (hF : F.wf) (node : vboxfs_node) :
    (vboxfs_reclaim F node).error = 0 ∧
    (vboxfs_reclaim F node).node.sf_vnode = none ∧
    (vboxfs_reclaim F node).node.sf_vpstate &&& F.VBOXFS_VNODE_WRECLAIM = 0 ∧
    ((vboxfs_reclaim F node).wakeup_reclaim = true ↔
      node.sf_vpstate &&& F.VBOXFS_VNODE_WRECLAIM ≠ 0) ∧
    ((vboxfs_reclaim F node).freed = true ↔
      node.sf_vpstate &&& F.VBOXFS_VNODE_ALLOCATING = 0) ∧
    ((vboxfs_reclaim F node).node.sf_vpstate = F.VBOXFS_VNODE_DOOMED ↔
      node.sf_vpstate &&& F.VBOXFS_VNODE_ALLOCATING = 0) ∧
    (node.sf_vpstate &&& F.VBOXFS_VNODE_ALLOCATING ≠ 0 →
      (vboxfs_reclaim F node).freed = false ∧
      (vboxfs_reclaim F node).node.sf_vpstate =
        and_not node.sf_vpstate F.VBOXFS_VNODE_WRECLAIM ∧
      (vboxfs_reclaim F node).node.sf_vpstate &&& F.VBOXFS_VNODE_DOOMED =
        node.sf_vpstate &&& F.VBOXFS_VNODE_DOOMED) := by
  obtain ⟨hA, _, hD, hW, _, hAD, hAW, _, _, hDW⟩ := hF
  have hWA : F.VBOXFS_VNODE_WRECLAIM &&& F.VBOXFS_VNODE_ALLOCATING = 0 := by
    rw [Nat.land_comm]; exact hAW
  have hWD : F.VBOXFS_VNODE_WRECLAIM &&& F.VBOXFS_VNODE_DOOMED = 0 := by
    rw [Nat.land_comm]; exact hDW
  have hDA : F.VBOXFS_VNODE_DOOMED &&& F.VBOXFS_VNODE_ALLOCATING = 0 := by
    rw [Nat.land_comm]; exact hAD
  have e1 := and_not_and_disjoint node.sf_vpstate _ _ hWA
  have e2 := and_not_and_disjoint node.sf_vpstate _ _ hWD
  have e3 := and_not_and_self node.sf_vpstate F.VBOXFS_VNODE_WRECLAIM
  by_cases hal : node.sf_vpstate &&& F.VBOXFS_VNODE_ALLOCATING = 0
  · have hr : vboxfs_reclaim F node =
        { error := 0,
          node := { (vboxfs_free_vp F node).1 with sf_vpstate := F.VBOXFS_VNODE_DOOMED },
          wakeup_reclaim := decide (node.sf_vpstate &&& F.VBOXFS_VNODE_WRECLAIM ≠ 0),
          freed := true } := by
      simp [vboxfs_reclaim, vboxfs_free_vp, e1, hal]
    rw [hr]
    simp [vboxfs_free_vp, hal, hDW]
  · have hr : vboxfs_reclaim F node =
        { error := 0, node := (vboxfs_free_vp F node).1,
          wakeup_reclaim := decide (node.sf_vpstate &&& F.VBOXFS_VNODE_WRECLAIM ≠ 0),
          freed := false } := by
      simp [vboxfs_reclaim, vboxfs_free_vp, e1, hal]
    rw [hr]
    simp [vboxfs_free_vp, hal, e2, e3]
    intro hd
    have := congrArg (fun x => x &&& F.VBOXFS_VNODE_ALLOCATING) hd
    simp only [e1, hDA] at this
    exact hal this

theorem vboxfs_reclaim_spec_witness :
    (vboxfs_reclaim std_flags sample_file_bound).error = 0 ∧
    (vboxfs_reclaim std_flags sample_file_bound).node.sf_vnode = none ∧
    (vboxfs_reclaim std_flags sample_file_bound).node.sf_vpstate &&&
      std_flags.VBOXFS_VNODE_WRECLAIM = 0 ∧
    ((vboxfs_reclaim std_flags sample_file_bound).wakeup_reclaim = true ↔
      sample_file_bound.sf_vpstate &&& std_flags.VBOXFS_VNODE_WRECLAIM ≠ 0) ∧
    ((vboxfs_reclaim std_flags sample_file_bound).freed = true ↔
      sample_file_bound.sf_vpstate &&& std_flags.VBOXFS_VNODE_ALLOCATING = 0) ∧
    ((vboxfs_reclaim std_flags sample_file_bound).node.sf_vpstate =
        std_flags.VBOXFS_VNODE_DOOMED ↔
      sample_file_bound.sf_vpstate &&& std_flags.VBOXFS_VNODE_ALLOCATING = 0) ∧
    (sample_file_bound.sf_vpstate &&& std_flags.VBOXFS_VNODE_ALLOCATING ≠ 0 →
      (vboxfs_reclaim std_flags sample_file_bound).freed = false ∧
      (vboxfs_reclaim std_flags sample_file_bound).node.sf_vpstate =
        and_not sample_file_bound.sf_vpstate std_flags.VBOXFS_VNODE_WRECLAIM ∧
      (vboxfs_reclaim std_flags sample_file_bound).node.sf_vpstate &&&
          std_flags.VBOXFS_VNODE_DOOMED =
        sample_file_bound.sf_vpstate &&& std_flags.VBOXFS_VNODE_DOOMED) :=
  vboxfs_reclaim_spec std_flags std_flags_wf sample_file_bound

/-! ## Attribute cache -/

/-- Within one second of the clock the freshness test is the intended one: a
snapshot stamped at `tv_sec = s, tv_usec = u1` is fresh at `tv_sec = s,
tv_usec = u2` exactly when fewer than `ttl * 1000` microseconds have gone by. -/
theorem vsfnode_stat_cached_same_second (mp : vboxfs_mnt) (np : vboxfs_node) (s u1 u2 : Nat)
    (hs : s * 1000 + u2 < 2 ^ 64) (hu : u1 ≤ u2) (httl : mp.sf_stat_ttl * 1000 < 2 ^ 64)
    (hst : np.sf_stat_time = vsfnode_cur_time_usec ⟨s, u1⟩) :
    vsfnode_stat_cached mp ⟨s, u2⟩ np = decide (u2 - u1 < mp.sf_stat_ttl * 1000) := by
  unfold vsfnode_stat_cached
  rw [hst]
  unfold vsfnode_cur_time_usec
  simp only []
  have h1 : (s * 1000 + u1) % 2 ^ 64 = s * 1000 + u1 := Nat.mod_eq_of_lt (by omega)
  have h2 : (s * 1000 + u2) % 2 ^ 64 = s * 1000 + u2 := Nat.mod_eq_of_lt hs
  have h3 : (mp.sf_stat_ttl * 1000) % 2 ^ 64 = mp.sf_stat_ttl * 1000 := Nat.mod_eq_of_lt httl
  rw [h1, h2, h1, h3]
  have h4 : (s * 1000 + u2 + (2 ^ 64 - (s * 1000 + u1))) % 2 ^ 64 = u2 - u1 := by
    have : s * 1000 + u2 + (2 ^ 64 - (s * 1000 + u1)) = (u2 - u1) + 2 ^ 64 := by omega
    rw [this, Nat.add_mod_right]
    exact Nat.mod_eq_of_lt (by omega)
  rw [h4]

/-- C3 (evaluation at the failing input): with a TTL of 100 ms, a first
`vboxfs_getattr` at 1700000000 s + 990000 us fetches from the provider and
succeeds; a second call 50 ms later, at 1700000001 s + 40000 us, fetches
again; and a second call 3 s later, at 1700000003 s + 990000 us, is served
from the cache without a provider call. -/
theorem vboxfs_getattr_ttl_across_seconds :
    sample_fetched.error = 0 ∧ sample_fetched.prov_called = true ∧
    (vboxfs_getattr (sample_mnt 100) sample_get_attr ⟨1700000001, 40000⟩ ⟨1700000001, 40000⟩
      vtype.VREG 0 sample_fetched.node zero_vattr).prov_called = true ∧
    (vboxfs_getattr (sample_mnt 100) sample_get_attr ⟨1700000003, 990000⟩ ⟨1700000003, 990000⟩
      vtype.VREG 0 sample_fetched.node zero_vattr).prov_called = false := by
  decide

theorem entries_len_nil (S : Nat) : entries_len S [] = 0 := rfl

theorem entries_len_cons (S : Nat) (e : sffs_dirent) (es : List sffs_dirent) :
    entries_len S (e :: es) = entry_size S e + entries_len S es := by
  simp [entries_len]

theorem entries_len_append (S : Nat) (xs ys : List sffs_dirent) :
    entries_len S (xs ++ ys) = entries_len S xs + entries_len S ys := by
  simp [entries_len]

theorem entry_size_pos (S : Nat) (hS : 0 < S) (e : sffs_dirent) : 0 < entry_size S e := by
  unfold entry_size
  omega

theorem entries_len_nonneg (S : Nat) (es : List sffs_dirent) : 0 ≤ entries_len S es := by
  induction es with
  | nil => simp [entries_len]
  | cons e es ih =>
    rw [entries_len_cons]
    unfold entry_size
    omega

theorem entries_len_pos (S : Nat) (hS : 0 < S) (es : List sffs_dirent) (h : es ≠ []) :
    0 < entries_len S es := by
  cases es with
  | nil => exact absurd rfl h
  | cons e es =>
    rw [entries_len_cons]
    have := entry_size_pos S hS e
    have := entries_len_nonneg S es
    omega

theorem all_entries_nil : all_entries [] = [] := rfl

theorem all_entries_cons (b : sffs_dirents) (bs : List sffs_dirents) :
    all_entries (b :: bs) = b.sf_entries ++ all_entries bs := by
  simp [all_entries]

theorem all_entries_append (xs ys : List sffs_dirents) :
    all_entries (xs ++ ys) = all_entries xs ++ all_entries ys := by
  simp [all_entries]

/-- The entry that follows the run `p` in a buffer starts at the byte offset
that is the size of `p`. -/
theorem dirent_at_append (S : Nat) (hS : 0 < S) (p : List sffs_dirent) (d : sffs_dirent)
    (c : List sffs_dirent) : dirent_at S (p ++ d :: c) (entries_len S p) = some d := by
  induction p with
  | nil => simp [dirent_at, entries_len]
  | cons x p ih =>
    have h1 := entry_size_pos S hS x
    have h2 := entries_len_nonneg S p
    rw [entries_len_cons]
    simp only [List.cons_append, dirent_at]
    rw [if_neg (by omega), if_neg (by omega)]
    have : entry_size S x + entries_len S p - entry_size S x = entries_len S p := by omega
    rw [this]
    exact ih

theorem stands_at_start (S : Nat) (bs : List sffs_dirents) : stands_at S bs 0 (all_entries bs) := by
  cases bs with
  | nil => exact Or.inl ⟨rfl, rfl⟩
  | cons b bs =>
    exact Or.inr ⟨b, bs, [], b.sf_entries, rfl, rfl, rfl, all_entries_cons b bs⟩

/-- The loop over the buffer chain does what the enumeration over the flat
list of the entries left does, when the buffers are laid out as they should
be and the fuel is enough. -/
theorem readdir_emit_loop_flat (S : Nat) (hS : 0 < S) (uiomove_error : dirent → Nat)
    (dir_ino : Nat) (parent_ino : Option Nat) (fuel : Nat) :
    ∀ (cur : List sffs_dirents) (offset : Int) (rest : List sffs_dirent)
      (uio_offset uio_resid : Int) (node : Option Nat),
      lens_ok S cur → stands_at S cur offset rest → rest.length + cur.length + 1 ≤ fuel →
      readdir_emit_loop S uiomove_error dir_ino parent_ino fuel cur offset uio_offset
          uio_resid node =
        some (readdir_emit_flat uiomove_error dir_ino parent_ino rest uio_offset uio_resid
          node) := by
  induction fuel with
  | zero =>
    intro cur offset rest uio_offset uio_resid node _ _ hf
    omega
  | succ fuel ih =>
    intro cur offset rest uio_offset uio_resid node hlens hat hf
    unfold readdir_emit_loop
    rcases hat with ⟨hc, hr⟩ | ⟨b, bs, p, c, hc, hb, ho, hr⟩
    · subst hc
      subst hr
      simp [readdir_emit_round, readdir_emit_flat]
    · subst hc
      have hlen : b.sf_len = entries_len S b.sf_entries := hlens b (List.mem_cons_self _ _)
      have hlens1 : lens_ok S bs := fun x hx => hlens x (List.mem_cons_of_mem _ hx)
      cases c with
      | nil =>
        simp only [List.append_nil] at hb
        have hge : offset ≥ b.sf_len := by
          rw [hlen, hb, ho]
        have hround : readdir_emit_round S uiomove_error dir_ino parent_ino (b :: bs) offset
            uio_offset uio_resid node = .next_buf bs := by
          simp only [readdir_emit_round]
          rw [if_pos hge]
        rw [hround]
        simp only []
        have hr1 : rest = all_entries bs := by simpa using hr
        rw [hr1]
        apply ih bs 0 (all_entries bs) uio_offset uio_resid node hlens1 (stands_at_start S bs)
        rw [hr1] at hf
        simp only [List.length_cons] at hf
        omega
      | cons d c =>
        have hlt : ¬ offset ≥ b.sf_len := by
          rw [hlen, hb, ho, entries_len_append, entries_len_cons]
          have := entry_size_pos S hS d
          have := entries_len_nonneg S c
          omega
        have hat : dirent_at S b.sf_entries offset = some d := by
          rw [hb, ho]
          exact dirent_at_append S hS p d c
        have hr1 : rest = d :: (c ++ all_entries bs) := by simpa using hr
        by_cases hfit : (d.sf_entry.d_reclen : Int) > uio_resid
        · have hround : readdir_emit_round S uiomove_error dir_ino parent_ino (b :: bs) offset
              uio_offset uio_resid node = .stop ⟨0, false, uio_offset, uio_resid, []⟩ := by
            simp only [readdir_emit_round]
            rw [if_neg hlt, hat]
            simp only []
            rw [if_pos hfit]
          rw [hround, hr1]
          simp only [readdir_emit_flat]
          rw [if_pos hfit]
        · by_cases hcp : uiomove_error
              (readdir_copy (readdir_node dir_ino parent_ino node d.sf_entry.d_name) d) ≠ 0
          · have hround : readdir_emit_round S uiomove_error dir_ino parent_ino (b :: bs)
                offset uio_offset uio_resid node =
                .stop ⟨uiomove_error
                  (readdir_copy (readdir_node dir_ino parent_ino node d.sf_entry.d_name) d),
                  false, uio_offset, uio_resid, []⟩ := by
              simp only [readdir_emit_round]
              rw [if_neg hlt, hat]
              simp only []
              rw [if_neg hfit, if_pos hcp]
            rw [hround, hr1]
            simp only [readdir_emit_flat]
            rw [if_neg hfit, if_pos hcp]
          have hround : readdir_emit_round S uiomove_error dir_ino parent_ino (b :: bs) offset
              uio_offset uio_resid node =
              .emitted (readdir_copy (readdir_node dir_ino parent_ino node d.sf_entry.d_name) d)
                (offset + entry_size S d) d.sf_off (uio_resid - (d.sf_entry.d_reclen : Int))
                (readdir_node dir_ino parent_ino node d.sf_entry.d_name) := by
            simp only [readdir_emit_round]
            rw [if_neg hlt, hat]
            simp only []
            rw [if_neg hfit, if_neg hcp]
          rw [hround]
          simp only []
          have hst : stands_at S (b :: bs) (offset + entry_size S d) (c ++ all_entries bs) := by
            refine Or.inr ⟨b, bs, p ++ [d], c, rfl, ?_, ?_, rfl⟩
            · rw [hb]; simp
            · rw [ho, entries_len_append, entries_len_cons, entries_len_nil]; omega
          rw [ih (b :: bs) _ (c ++ all_entries bs) _ _ _ hlens hst (by
            rw [hr1] at hf
            simp only [List.length_cons] at hf ⊢
            omega)]
          rw [hr1]
          simp only [readdir_emit_flat]
          rw [if_neg hfit, if_neg hcp]

theorem tokens_ok_cons (S : Nat) (base : Int) (e : sffs_dirent) (es : List sffs_dirent) :
    tokens_ok S base (e :: es) ↔ e.sf_off = base + entry_size S e ∧ tokens_ok S e.sf_off es :=
  Iff.rfl

theorem tokens_ok_append (S : Nat) (xs ys : List sffs_dirent) :
    ∀ base : Int, tokens_ok S base (xs ++ ys) ↔
      tokens_ok S base xs ∧ tokens_ok S (base + entries_len S xs) ys := by
  induction xs with
  | nil =>
    intro base
    simp [tokens_ok, entries_len]
  | cons x xs ih =>
    intro base
    rw [List.cons_append, tokens_ok_cons, tokens_ok_cons, entries_len_cons, ih x.sf_off]
    constructor
    · rintro ⟨h1, h2, h3⟩
      refine ⟨⟨h1, h2⟩, ?_⟩
      rw [h1] at h3
      rw [← add_assoc]
      exact h3
    · rintro ⟨⟨h1, h2⟩, h3⟩
      refine ⟨h1, h2, ?_⟩
      rw [h1, add_assoc]
      exact h3

theorem layout_ok_tokens (S : Nat) (list : List sffs_dirents) :
    ∀ base : Int, layout_ok S base list → tokens_ok S base (all_entries list) := by
  induction list with
  | nil =>
    intro base _
    simp [all_entries, tokens_ok]
  | cons b bs ih =>
    intro base h
    obtain ⟨h1, h2, h3⟩ := h
    rw [all_entries_cons, tokens_ok_append]
    refine ⟨h2, ?_⟩
    rw [← h1]
    exact ih _ h3

theorem layout_ok_lens (S : Nat) (list : List sffs_dirents) :
    ∀ base : Int, layout_ok S base list → lens_ok S list := by
  induction list with
  | nil =>
    intro base _ b hb
    cases hb
  | cons b bs ih =>
    intro base h x hx
    obtain ⟨h1, _, h3⟩ := h
    rcases List.mem_cons.mp hx with hx | hx
    · rw [hx]; exact h1
    · exact ih _ h3 x hx

/-- The token of the last entry of a run is the byte offset of the end of the run. -/
theorem tokens_ok_last (S : Nat) (base : Int) (xs : List sffs_dirent) (e : sffs_dirent)
    (h : tokens_ok S base (xs ++ [e])) : e.sf_off = base + entries_len S (xs ++ [e]) := by
  rw [tokens_ok_append] at h
  have h2 := h.2.1
  rw [entries_len_append, entries_len_cons, entries_len_nil, h2]
  omega

/-- Two ways to cut one list: the cut that is not later by bytes is not later
by entries. -/
theorem append_cut_le (S : Nat) (hS : 0 < S) (xs ys pre suf : List sffs_dirent)
    (h : xs ++ ys = pre ++ suf) (hle : entries_len S xs ≤ entries_len S pre) :
    ∃ t, pre = xs ++ t ∧ ys = t ++ suf := by
  rcases List.append_eq_append_iff.mp h with ⟨a, ha, hb⟩ | ⟨c, hc, hd⟩
  · exact ⟨a, ha, hb⟩
  · have hc0 : c = [] := by
      by_contra hne
      have := entries_len_pos S hS c hne
      rw [hc, entries_len_append] at hle
      omega
    subst hc0
    refine ⟨[], ?_, ?_⟩
    · simpa using hc.symm
    · simpa using hd.symm

theorem append_cut_lt (S : Nat) (xs ys pre suf : List sffs_dirent)
    (h : xs ++ ys = pre ++ suf) (hlt : entries_len S pre < entries_len S xs) :
    ∃ c, c ≠ [] ∧ xs = pre ++ c ∧ suf = c ++ ys := by
  rcases List.append_eq_append_iff.mp h with ⟨a, ha, hb⟩ | ⟨c, hc, hd⟩
  · have := entries_len_nonneg S a
    rw [ha, entries_len_append] at hlt
    omega
  · refine ⟨c, ?_, hc, hd⟩
    intro hc0
    subst hc0
    simp only [List.append_nil] at hc
    rw [hc] at hlt
    omega

/-- What the skipping loop leaves: the buffers skipped end at or before the
position, and the buffer it stops at ends after it. -/
theorem readdir_skip_spec (S : Nat) (pos : Int) (list : List sffs_dirents) :
    ∀ base : Int, layout_ok S base list →
      ∃ skipped cur base1, readdir_skip list base pos = (cur, base1) ∧ list = skipped ++ cur ∧
        base1 = base + entries_len S (all_entries skipped) ∧ layout_ok S base1 cur ∧
        (∀ b bs, cur = b :: bs → pos < base1 + b.sf_len) ∧ (skipped = [] ∨ base1 ≤ pos) := by
  induction list with
  | nil =>
    intro base _
    refine ⟨[], [], base, rfl, rfl, ?_, ?_, ?_, Or.inl rfl⟩
    · simp [all_entries, entries_len]
    · simp [layout_ok]
    · intro b bs h
      cases h
  | cons b bs ih =>
    intro base h
    obtain ⟨h1, h2, h3⟩ := h
    by_cases hle : base + b.sf_len ≤ pos
    · obtain ⟨skipped, cur, base1, e1, e2, e3, e4, e5, e6⟩ := ih (base + b.sf_len) h3
      refine ⟨b :: skipped, cur, base1, ?_, ?_, ?_, e4, e5, Or.inr ?_⟩
      · simp only [readdir_skip]
        rw [if_pos hle]
        exact e1
      · rw [e2]; rfl
      · rw [e3, all_entries_cons, entries_len_append, h1]
        omega
      · rcases e6 with e6 | e6
        · rw [e6] at e3
          simp [all_entries, entries_len] at e3
          omega
        · exact e6
    · refine ⟨[], b :: bs, base, ?_, rfl, ?_, ⟨h1, h2, h3⟩, ?_, Or.inl rfl⟩
      · simp only [readdir_skip]
        rw [if_neg hle]
      · simp [all_entries, entries_len]
      · intro b1 bs1 hb
        cases hb
        omega

/-- The walk through a buffer towards a position that is the end of an entry
of the buffer stops at that entry, before the position. -/
theorem readdir_walk_token (S : Nat) (hS : 0 < S) (pos : Int) (c : List sffs_dirent)
    (p : List sffs_dirent) :
    ∀ base : Int, p ≠ [] → tokens_ok S base (p ++ c) → pos = base + entries_len S p →
      ∃ off, readdir_walk S (p ++ c) base pos = some off ∧ off < pos := by
  induction p with
  | nil =>
    intro base h
    exact absurd rfl h
  | cons x p ih =>
    intro base _ htok hpos
    rw [List.cons_append, tokens_ok_cons] at htok
    rw [entries_len_cons] at hpos
    have hx := entry_size_pos S hS x
    have hp := entries_len_nonneg S p
    have hlt : base < pos := by omega
    rw [List.cons_append]
    simp only [readdir_walk]
    rw [if_pos hlt]
    by_cases heq : x.sf_off = pos
    · rw [if_pos heq]
      exact ⟨base, rfl, hlt⟩
    · rw [if_neg heq]
      have hne : p ≠ [] := by
        intro hp0
        subst hp0
        rw [entries_len_nil] at hpos
        apply heq
        rw [htok.1]
        omega
      rw [← htok.1]
      apply ih x.sf_off hne htok.2
      rw [htok.1]
      omega

theorem readdir_walk_none (S : Nat) (pos : Int) (es : List sffs_dirent) :
    ∀ off : Int, readdir_walk S es off pos = none → off + entries_len S es < pos := by
  induction es with
  | nil =>
    intro off h
    simp only [readdir_walk] at h
    split at h
    · rw [entries_len_nil]; omega
    · cases h
  | cons e es ih =>
    intro off h
    simp only [readdir_walk] at h
    split at h
    · split at h
      · cases h
      · have := ih _ h
        rw [entries_len_cons]
        omega
    · cases h

theorem readdir_walk_some (S : Nat) (pos : Int) (es : List sffs_dirent) :
    ∀ off off1 : Int, readdir_walk S es off pos = some off1 → off1 < pos →
      ∃ e ∈ es, e.sf_off = pos := by
  induction es with
  | nil =>
    intro off off1 h hlt
    simp only [readdir_walk] at h
    split at h
    · cases h
    · cases h
      omega
  | cons e es ih =>
    intro off off1 h hlt
    simp only [readdir_walk] at h
    split at h
    · split at h
      · rename_i heq
        exact ⟨e, List.mem_cons_self _ _, heq⟩
      · obtain ⟨x, hx, hxo⟩ := ih _ _ h hlt
        exact ⟨x, List.mem_cons_of_mem _ hx, hxo⟩
    · cases h
      omega

/-- The end of a run of entries at the head of the listing is position 0 or
the token of an entry. -/
theorem run_end_is_token (S : Nat) (pos : Int) (xs ys : List sffs_dirent)
    (htok : tokens_ok S 0 (xs ++ ys)) (hpos : pos = entries_len S xs) :
    pos = 0 ∨ ∃ e ∈ xs ++ ys, e.sf_off = pos := by
  rcases List.eq_nil_or_concat xs with h | ⟨l, e, h⟩
  · left
    rw [hpos, h, entries_len_nil]
  · right
    refine ⟨e, ?_, ?_⟩
    · rw [h]; simp
    · rw [h, List.concat_eq_append] at htok hpos
      rw [tokens_ok_append] at htok
      rw [tokens_ok_last S 0 l e htok.1, hpos]
      omega

/-- Position 0 and the token of an entry are ends of runs at the head of
the listing. -/
theorem token_is_run_end (S : Nat) (pos : Int) (all : List sffs_dirent)
    (htok : tokens_ok S 0 all) (h : pos = 0 ∨ ∃ e ∈ all, e.sf_off = pos) :
    ∃ pre suf, all = pre ++ suf ∧ pos = entries_len S pre := by
  rcases h with h | ⟨e, he, hoff⟩
  · exact ⟨[], all, rfl, by rw [h, entries_len_nil]⟩
  · obtain ⟨l1, l2, hl⟩ := List.append_of_mem he
    refine ⟨l1 ++ [e], l2, by rw [hl]; simp, ?_⟩
    have h1 : all = (l1 ++ [e]) ++ l2 := by rw [hl]; simp
    rw [h1, tokens_ok_append] at htok
    rw [← hoff, tokens_ok_last S 0 l1 e htok.1]
    omega

/-- A position that is the end of a run of entries at the head of the listing
passes the validation, and the enumeration then stands right after the run. -/
theorem readdir_validate_valid (S : Nat) (hS : 0 < S) (list : List sffs_dirents)
    (pre suf : List sffs_dirent) (pos : Int) (hl : layout_ok S 0 list)
    (hall : all_entries list = pre ++ suf) (hpos : pos = entries_len S pre) :
    ∃ cur off, readdir_validate S list pos = .start cur off ∧ stands_at S cur off suf ∧
      lens_ok S cur ∧ cur.length ≤ list.length := by
  obtain ⟨skipped, cur, base1, e1, e2, e3, e4, e5, e6⟩ := readdir_skip_spec S pos list 0 hl
  have hpre := entries_len_nonneg S pre
  have hle : entries_len S (all_entries skipped) ≤ entries_len S pre := by
    rcases e6 with e6 | e6
    · rw [e6, all_entries_nil, entries_len_nil]; exact hpre
    · omega
  have hcut : all_entries skipped ++ all_entries cur = pre ++ suf := by
    rw [← all_entries_append, ← e2]; exact hall
  obtain ⟨t, ht1, ht2⟩ := append_cut_le S hS _ _ _ _ hcut hle
  have hpos1 : pos = base1 + entries_len S t := by
    rw [hpos, ht1, entries_len_append, e3]; omega
  have hlens : lens_ok S cur := layout_ok_lens S cur base1 e4
  have hlength : cur.length ≤ list.length := by
    rw [e2, List.length_append]; omega
  unfold readdir_validate
  rw [e1]
  cases cur with
  | nil =>
    rw [all_entries_nil] at ht2
    have ht : t = [] := (List.append_eq_nil.mp ht2.symm).1
    have hs : suf = [] := (List.append_eq_nil.mp ht2.symm).2
    rw [ht, entries_len_nil] at hpos1
    have hb : ¬ base1 ≠ pos := by omega
    simp only []
    rw [if_neg hb]
    exact ⟨[], pos - base1, rfl, Or.inl ⟨rfl, hs⟩, hlens, hlength⟩
  | cons b bs =>
    have hb := e5 b bs rfl
    have hlen : b.sf_len = entries_len S b.sf_entries := hlens b (List.mem_cons_self _ _)
    rw [all_entries_cons] at ht2
    obtain ⟨c, _, hc1, hc2⟩ := append_cut_lt S b.sf_entries (all_entries bs) t suf ht2
      (by omega)
    have hst : stands_at S (b :: bs) (pos - base1) suf :=
      Or.inr ⟨b, bs, t, c, rfl, hc1, by omega, hc2⟩
    simp only []
    by_cases hne : base1 ≠ pos
    · rw [if_pos hne]
      have htne : t ≠ [] := by
        intro h0
        rw [h0, entries_len_nil] at hpos1
        omega
      have htok : tokens_ok S base1 (t ++ c) := by
        rw [← hc1]; exact e4.2.1
      obtain ⟨off, hw, hoff⟩ := readdir_walk_token S hS pos c t base1 htne htok hpos1
      rw [hc1, hw]
      simp only []
      rw [if_neg (by omega)]
      exact ⟨b :: bs, pos - base1, rfl, hst, hlens, hlength⟩
    · rw [if_neg hne]
      exact ⟨b :: bs, pos - base1, rfl, hst, hlens, hlength⟩

/-- On a listing laid out as it should be the validation reads nothing outside
the entries, and a position that passes it is 0 or the token of an entry. -/
theorem readdir_validate_sound (S : Nat) (list : List sffs_dirents) (pos : Int)
    (hl : layout_ok S 0 list) :
    readdir_validate S list pos ≠ .fault ∧
    (∀ cur off, readdir_validate S list pos = .start cur off →
      pos = 0 ∨ ∃ e ∈ all_entries list, e.sf_off = pos) := by
  obtain ⟨skipped, cur, base1, e1, e2, e3, e4, e5, e6⟩ := readdir_skip_spec S pos list 0 hl
  have htok : tokens_ok S 0 (all_entries skipped ++ all_entries cur) := by
    rw [← all_entries_append, ← e2]; exact layout_ok_tokens S list 0 hl
  have hrun : base1 = pos → pos = 0 ∨ ∃ e ∈ all_entries list, e.sf_off = pos := by
    intro hb
    have := run_end_is_token S pos _ _ htok (by omega)
    rw [← all_entries_append, ← e2] at this
    exact this
  unfold readdir_validate
  rw [e1]
  cases cur with
  | nil =>
    simp only []
    by_cases hne : base1 ≠ pos
    · rw [if_pos hne]
      exact ⟨by simp, fun cur off h => by cases h⟩
    · rw [if_neg hne]
      exact ⟨by simp, fun cur off _ => hrun (by omega)⟩
  | cons b bs =>
    have hb := e5 b bs rfl
    have hlen : b.sf_len = entries_len S b.sf_entries := e4.1
    simp only []
    by_cases hne : base1 ≠ pos
    · rw [if_pos hne]
      cases hw : readdir_walk S b.sf_entries base1 pos with
      | none =>
        have := readdir_walk_none S pos _ _ hw
        omega
      | some off =>
        simp only []
        by_cases hge : off ≥ pos
        · rw [if_pos hge]
          exact ⟨by simp, fun cur off h => by cases h⟩
        · rw [if_neg hge]
          refine ⟨by simp, fun cur off1 _ => Or.inr ?_⟩
          obtain ⟨e, he, heo⟩ := readdir_walk_some S pos _ _ _ hw (by omega)
          refine ⟨e, ?_, heo⟩
          rw [e2, all_entries_append, all_entries_cons]
          simp [he]
    · rw [if_neg hne]
      exact ⟨by simp, fun cur off _ => hrun (by omega)⟩

theorem readdir_fit_split (resid : Int) (suf : List sffs_dirent) :
    suf = readdir_fit resid suf ++ suf.drop (readdir_fit resid suf).length := by
  induction suf generalizing resid with
  | nil => simp [readdir_fit]
  | cons d ds ih =>
    simp only [readdir_fit]
    split
    · simp
    · simp only [List.length_cons, List.drop_succ_cons, List.cons_append]
      rw [← ih]

theorem readdir_fit_length_le (resid : Int) (suf : List sffs_dirent) :
    (readdir_fit resid suf).length ≤ suf.length := by
  have h := congrArg List.length (readdir_fit_split resid suf)
  rw [List.length_append] at h
  omega

theorem readdir_fit_eq_iff (resid : Int) (suf : List sffs_dirent) :
    readdir_fit resid suf = suf ↔ (readdir_fit resid suf).length = suf.length := by
  constructor
  · intro h
    rw [h]
  · intro h
    have h1 := readdir_fit_split resid suf
    have h2 : suf.drop (readdir_fit resid suf).length = [] := by
      rw [h]; simp
    rw [h2, List.append_nil] at h1
    exact h1.symm

/-- What the enumeration over the flat list gives when the copy-out never
fails: no error, the entries that fit in their order, the end of the chain
exactly when all entries left were taken, the token of the last entry taken
as the new position, and the budget less the bytes copied out. -/
theorem readdir_emit_flat_spec (S : Nat) (uiomove_error : dirent → Nat)
    (hcp : ∀ d, uiomove_error d = 0) (dir_ino : Nat) (parent_ino : Option Nat)
    (suf : List sffs_dirent) :
    ∀ (pos resid : Int) (node : Option Nat),
      (readdir_emit_flat uiomove_error dir_ino parent_ino suf pos resid node).error = 0 ∧
      (readdir_emit_flat uiomove_error dir_ino parent_ino suf pos resid node).out.map sans_fileno =
        (readdir_fit resid suf).map (fun e => sans_fileno e.sf_entry) ∧
      (readdir_emit_flat uiomove_error dir_ino parent_ino suf pos resid node).cur_buf_null =
        decide (readdir_fit resid suf = suf) ∧
      (tokens_ok S pos suf →
        (readdir_emit_flat uiomove_error dir_ino parent_ino suf pos resid node).uio_offset =
          pos + entries_len S (readdir_fit resid suf)) ∧
      (readdir_emit_flat uiomove_error dir_ino parent_ino suf pos resid node).uio_resid =
        resid - reclen_sum (readdir_fit resid suf) := by
  induction suf with
  | nil =>
    intro pos resid node
    simp [readdir_emit_flat, readdir_fit, entries_len, reclen_sum]
  | cons d ds ih =>
    intro pos resid node
    by_cases hfit : (d.sf_entry.d_reclen : Int) > resid
    · simp only [readdir_emit_flat, readdir_fit, if_pos hfit]
      simp [entries_len, reclen_sum]
    · simp only [readdir_emit_flat, readdir_fit, if_neg hfit, hcp, ne_eq, not_true_eq_false,
        if_false]
      obtain ⟨h1, h2, h3, h4, h5⟩ := ih d.sf_off (resid - (d.sf_entry.d_reclen : Int))
        (readdir_node dir_ino parent_ino node d.sf_entry.d_name)
      refine ⟨h1, ?_, ?_, ?_, ?_⟩
      · simp only [List.map_cons]
        rw [h2]
        rfl
      · rw [h3]
        simp
      · intro htok
        rw [tokens_ok_cons] at htok
        rw [h4 htok.2, entries_len_cons, htok.1]
        omega
      · rw [h5]
        simp only [reclen_sum, List.map_cons, List.sum_cons]
        omega

/-- The error of the enumeration over the flat list is 0 or one that the
copy-out gave. -/
theorem readdir_emit_flat_error (uiomove_error : dirent → Nat) (dir_ino : Nat)
    (parent_ino : Option Nat) (suf : List sffs_dirent) :
    ∀ (pos resid : Int) (node : Option Nat),
      (readdir_emit_flat uiomove_error dir_ino parent_ino suf pos resid node).error = 0 ∨
      ∃ d, (readdir_emit_flat uiomove_error dir_ino parent_ino suf pos resid node).error =
        uiomove_error d := by
  induction suf with
  | nil =>
    intro pos resid node
    left
    rfl
  | cons d ds ih =>
    intro pos resid node
    simp only [readdir_emit_flat]
    split
    · left; rfl
    · split
      · right; exact ⟨_, rfl⟩
      · exact ih _ _ _

/-- One call of `vboxfs_readdir` on a cached listing, at a position that is
the end of a run of entries at the head of the listing: the call returns and
does what the enumeration over the flat list of the entries left does. -/
theorem vboxfs_readdir_at_run_end_gen (S : Nat) (hS : 0 < S) (uiomove_error : dirent → Nat)
    (sfprov_readdir : Nat × List sffs_dirents)
    (mem : Nat → vboxfs_node) (fuel : Nat) (dir : vboxfs_node) (pre suf : List sffs_dirent)
    (pos resid : Int) (node0 : Option Nat) (eof0 : Bool)
    (hlist : dir.sf_dir_list ≠ []) (hl : layout_ok S 0 dir.sf_dir_list)
    (hall : all_entries dir.sf_dir_list = pre ++ suf) (hpos : pos = entries_len S pre)
    (hf : readdir_fuel dir.sf_dir_list ≤ fuel) :
    vboxfs_readdir S uiomove_error sfprov_readdir mem fuel vtype.VDIR dir pos resid node0 eof0 =
      some
        { error := (readdir_emit_flat uiomove_error dir.sf_ino
            (dir.sf_parent.map (fun p => (mem p).sf_ino)) suf pos resid node0).error,
          eof := decide ((readdir_emit_flat uiomove_error dir.sf_ino
              (dir.sf_parent.map (fun p => (mem p).sf_ino)) suf pos resid node0).error = 0) &&
            (readdir_emit_flat uiomove_error dir.sf_ino
              (dir.sf_parent.map (fun p => (mem p).sf_ino)) suf pos resid node0).cur_buf_null,
          uio_offset := if (readdir_emit_flat uiomove_error dir.sf_ino
              (dir.sf_parent.map (fun p => (mem p).sf_ino)) suf pos resid node0).error ≠ 0
            then pos
            else (readdir_emit_flat uiomove_error dir.sf_ino
              (dir.sf_parent.map (fun p => (mem p).sf_ino)) suf pos resid node0).uio_offset,
          uio_resid := (readdir_emit_flat uiomove_error dir.sf_ino
            (dir.sf_parent.map (fun p => (mem p).sf_ino)) suf pos resid node0).uio_resid,
          out := (readdir_emit_flat uiomove_error dir.sf_ino
            (dir.sf_parent.map (fun p => (mem p).sf_ino)) suf pos resid node0).out,
          node := dir, prov_called := false } := by
  obtain ⟨cur, off, hv, hst, hlens, hlen⟩ :=
    readdir_validate_valid S hS dir.sf_dir_list pre suf pos hl hall hpos
  have hfuel : suf.length + cur.length + 1 ≤ fuel := by
    have h1 : suf.length ≤ (all_entries dir.sf_dir_list).length := by
      rw [hall, List.length_append]; omega
    unfold readdir_fuel at hf
    omega
  have hloop := readdir_emit_loop_flat S hS uiomove_error dir.sf_ino
    (dir.sf_parent.map (fun p => (mem p).sf_ino)) fuel cur off suf pos resid node0 hlens hst
    hfuel
  unfold vboxfs_readdir
  simp only [ne_eq, not_true_eq_false, if_false, if_neg hlist, hv, hloop,
    decide_eq_false hlist]

/-- The same for a copy-out that never fails: the call succeeds. -/
theorem vboxfs_readdir_at_run_end (S : Nat) (hS : 0 < S) (uiomove_error : dirent → Nat)
    (hcp : ∀ d, uiomove_error d = 0) (sfprov_readdir : Nat × List sffs_dirents)
    (mem : Nat → vboxfs_node) (fuel : Nat) (dir : vboxfs_node) (pre suf : List sffs_dirent)
    (pos resid : Int) (node0 : Option Nat) (eof0 : Bool)
    (hlist : dir.sf_dir_list ≠ []) (hl : layout_ok S 0 dir.sf_dir_list)
    (hall : all_entries dir.sf_dir_list = pre ++ suf) (hpos : pos = entries_len S pre)
    (hf : readdir_fuel dir.sf_dir_list ≤ fuel) :
    vboxfs_readdir S uiomove_error sfprov_readdir mem fuel vtype.VDIR dir pos resid node0 eof0 =
      some
        { error := 0,
          eof := (readdir_emit_flat uiomove_error dir.sf_ino
            (dir.sf_parent.map (fun p => (mem p).sf_ino)) suf pos resid node0).cur_buf_null,
          uio_offset := (readdir_emit_flat uiomove_error dir.sf_ino
            (dir.sf_parent.map (fun p => (mem p).sf_ino)) suf pos resid node0).uio_offset,
          uio_resid := (readdir_emit_flat uiomove_error dir.sf_ino
            (dir.sf_parent.map (fun p => (mem p).sf_ino)) suf pos resid node0).uio_resid,
          out := (readdir_emit_flat uiomove_error dir.sf_ino
            (dir.sf_parent.map (fun p => (mem p).sf_ino)) suf pos resid node0).out,
          node := dir, prov_called := false } := by
  have herr := (readdir_emit_flat_spec S uiomove_error hcp dir.sf_ino
    (dir.sf_parent.map (fun p => (mem p).sf_ino)) suf pos resid node0).1
  rw [vboxfs_readdir_at_run_end_gen S hS uiomove_error sfprov_readdir mem fuel dir pre suf pos
    resid node0 eof0 hlist hl hall hpos hf]
  simp only [herr, ne_eq, not_true_eq_false, if_false, decide_True, Bool.true_and]

/-- One call of `vboxfs_readdir` on a cached listing, at a position that is
neither 0 nor the token of an entry: the call fails with `EINVAL`, copies
nothing out and leaves the `uio` as it was. -/
theorem vboxfs_readdir_not_token (S : Nat) (uiomove_error : dirent → Nat)
    (sfprov_readdir : Nat × List sffs_dirents)
    (mem : Nat → vboxfs_node) (fuel : Nat) (dir : vboxfs_node)
    (pos resid : Int) (node0 : Option Nat) (eof0 : Bool)
    (hlist : dir.sf_dir_list ≠ []) (hl : layout_ok S 0 dir.sf_dir_list)
    (hpos : ¬ (pos = 0 ∨ ∃ e ∈ all_entries dir.sf_dir_list, e.sf_off = pos)) :
    vboxfs_readdir S uiomove_error sfprov_readdir mem fuel vtype.VDIR dir pos resid node0 eof0 =
      some { error := EINVAL, eof := false, uio_offset := pos, uio_resid := resid, out := [],
             node := dir, prov_called := false } := by
  have hsound := readdir_validate_sound S dir.sf_dir_list pos hl
  have hv : readdir_validate S dir.sf_dir_list pos = .einval := by
    cases h : readdir_validate S dir.sf_dir_list pos with
    | einval => rfl
    | start cur off => exact absurd (hsound.2 cur off h) hpos
    | fault => exact absurd h hsound.1
  unfold vboxfs_readdir
  simp only [ne_eq, not_true_eq_false, if_false, if_neg hlist, hv, decide_eq_false hlist]

theorem sample_listing_layout : layout_ok 16 0 sample_listing := by
  simp [layout_ok, tokens_ok, sample_listing, entries_len, entry_size]

/-- The token of an entry is the end of a run that ends with the entry. -/
theorem token_position (S : Nat) (all pre suf : List sffs_dirent) (e : sffs_dirent)
    (htok : tokens_ok S 0 all) (hall : all = pre ++ e :: suf) :
    e.sf_off = entries_len S pre + entry_size S e := by
  have h1 : all = (pre ++ [e]) ++ suf := by rw [hall]; simp
  rw [h1, tokens_ok_append] at htok
  rw [tokens_ok_last S 0 pre e htok.1, entries_len_append, entries_len_cons, entries_len_nil]
  omega

/-- C5: on a cached listing laid out with cumulative resume tokens, with a
copy-out that does not itself give `EINVAL`, `vboxfs_readdir` returns, and it
returns `EINVAL` exactly when the position asked for is neither 0 nor the
`sf_off` of an entry; it then has copied nothing out and left position and
budget as they were.  A negative position, a position beyond the end of the
listing and a position strictly inside an entry are rejected; at position 0
and at every token the error, if any, is one that the copy-out gave. -/
theorem vboxfs_readdir_einval_iff (S : Nat) (hS : 0 < S) (uiomove_error : dirent → Nat)
    (hcp : ∀ d, uiomove_error d ≠ EINVAL) (sfprov_readdir : Nat × List sffs_dirents)
    (mem : Nat → vboxfs_node) (fuel : Nat) (dir : vboxfs_node)
    (pos resid : Int) (node0 : Option Nat) (eof0 : Bool)
    (hlist : dir.sf_dir_list ≠ []) (hl : layout_ok S 0 dir.sf_dir_list)
    (hf : readdir_fuel dir.sf_dir_list ≤ fuel) :
    ∃ r, vboxfs_readdir S uiomove_error sfprov_readdir mem fuel vtype.VDIR dir pos resid node0
        eof0 = some r ∧
      (r.error = EINVAL ↔ ¬ (pos = 0 ∨ ∃ e ∈ all_entries dir.sf_dir_list, e.sf_off = pos)) ∧
      (r.error = EINVAL →
        r.out = [] ∧ r.uio_offset = pos ∧ r.uio_resid = resid ∧ r.eof = false) ∧
      (r.error ≠ EINVAL → r.error = 0 ∨ ∃ d, r.error = uiomove_error d) ∧
      (pos < 0 → r.error = EINVAL) ∧
      (entries_len S (all_entries dir.sf_dir_list) < pos → r.error = EINVAL) ∧
      (∀ pre e suf, all_entries dir.sf_dir_list = pre ++ e :: suf →
        entries_len S pre < pos → pos < entries_len S pre + entry_size S e →
        r.error = EINVAL) := by
  have htok := layout_ok_tokens S dir.sf_dir_list 0 hl
  by_cases hv : pos = 0 ∨ ∃ e ∈ all_entries dir.sf_dir_list, e.sf_off = pos
  · obtain ⟨pre, suf, hall, hpos⟩ := token_is_run_end S pos _ htok hv
    have hr := vboxfs_readdir_at_run_end_gen S hS uiomove_error sfprov_readdir mem fuel dir
      pre suf pos resid node0 eof0 hlist hl hall hpos hf
    have herr := readdir_emit_flat_error uiomove_error dir.sf_ino
      (dir.sf_parent.map (fun p => (mem p).sf_ino)) suf pos resid node0
    have hne : (readdir_emit_flat uiomove_error dir.sf_ino
        (dir.sf_parent.map (fun p => (mem p).sf_ino)) suf pos resid node0).error ≠ EINVAL := by
      rcases herr with h | ⟨d, h⟩
      · rw [h]; decide
      · rw [h]; exact hcp d
    refine ⟨_, hr, ?_, ?_, ?_, ?_, ?_, ?_⟩
    · simp only [hne, false_iff, not_not]
      exact hv
    · intro h; exact absurd h hne
    · intro _; exact herr
    · intro hneg
      have := entries_len_nonneg S pre
      omega
    · intro hbig
      rw [hall, entries_len_append] at hbig
      have := entries_len_nonneg S suf
      omega
    · intro pre1 e suf1 hall1 h1 h2
      exfalso
      rw [hall] at hall1
      obtain ⟨c, hc, hc1, hc2⟩ := append_cut_lt S pre suf pre1 (e :: suf1) hall1 (by omega)
      cases c with
      | nil => exact hc rfl
      | cons x c =>
        simp only [List.cons_append, List.cons.injEq] at hc2
        rw [hc1, ← hc2.1, entries_len_append, entries_len_cons] at hpos
        have := entries_len_nonneg S c
        omega
  · have hr := vboxfs_readdir_not_token S uiomove_error sfprov_readdir mem fuel dir pos resid
      node0 eof0 hlist hl hv
    refine ⟨_, hr, ?_, ?_, ?_, ?_, ?_, ?_⟩
    · simp [hv]
    · intro _; exact ⟨rfl, rfl, rfl, rfl⟩
    · intro h; exact absurd rfl h
    · intro _; rfl
    · intro _; rfl
    · intro _ _ _ _ _ _; rfl

theorem vboxfs_readdir_einval_iff_witness :
    ∃ r, vboxfs_readdir 16 uiomove_ok (0, []) sample_mem 7 vtype.VDIR sample_dir 30 512 none
        false = some r ∧
      (r.error = EINVAL ↔ ¬ ((30 : Int) = 0 ∨
        ∃ e ∈ all_entries sample_dir.sf_dir_list, e.sf_off = 30)) ∧
      (r.error = EINVAL →
        r.out = [] ∧ r.uio_offset = 30 ∧ r.uio_resid = 512 ∧ r.eof = false) ∧
      (r.error ≠ EINVAL → r.error = 0 ∨ ∃ d, r.error = uiomove_ok d) ∧
      ((30 : Int) < 0 → r.error = EINVAL) ∧
      (entries_len 16 (all_entries sample_dir.sf_dir_list) < 30 → r.error = EINVAL) ∧
      (∀ pre e suf, all_entries sample_dir.sf_dir_list = pre ++ e :: suf →
        entries_len 16 pre < 30 → 30 < entries_len 16 pre + entry_size 16 e →
        r.error = EINVAL) :=
  vboxfs_readdir_einval_iff 16 (by decide) uiomove_ok (fun _ => by simp [uiomove_ok, EINVAL])
    (0, []) sample_mem 7
    sample_dir 30 512 none false (by decide) sample_listing_layout (by decide)

/-- A position strictly inside the second entry is rejected: the run. -/
theorem vboxfs_readdir_einval_run :
    vboxfs_readdir 16 uiomove_ok (0, []) sample_mem 7 vtype.VDIR sample_dir 30 512 none false =
      some { error := EINVAL, eof := false, uio_offset := 30, uio_resid := 512, out := [],
             node := sample_dir, prov_called := false } := by
  decide

/-- C6: at a valid position with an entry `e` next, a call whose budget
`uio_resid` is smaller than the `d_reclen` of `e` returns 0, copies nothing
out, leaves `uio_offset` and `uio_resid` as they were and does not set the
end-of-stream flag; and a later call at that same position whose budget is
enough for `e` hands `e` to the copy-out first, so that `e` is the first
entry copied out when its copy-out succeeds. -/
theorem vboxfs_readdir_budget_too_small (S : Nat) (hS : 0 < S) (uiomove_error : dirent → Nat)
    (sfprov_readdir : Nat × List sffs_dirents)
    (mem : Nat → vboxfs_node) (fuel : Nat) (dir : vboxfs_node) (pre suf : List sffs_dirent)
    (e : sffs_dirent) (pos resid resid2 : Int) (node0 node1 : Option Nat) (eof0 eof1 : Bool)
    (hlist : dir.sf_dir_list ≠ []) (hl : layout_ok S 0 dir.sf_dir_list)
    (hall : all_entries dir.sf_dir_list = pre ++ e :: suf) (hpos : pos = entries_len S pre)
    (hf : readdir_fuel dir.sf_dir_list ≤ fuel)
    (hres : resid < (e.sf_entry.d_reclen : Int)) :
    vboxfs_readdir S uiomove_error sfprov_readdir mem fuel vtype.VDIR dir pos resid node0 eof0 =
      some { error := 0, eof := false, uio_offset := pos, uio_resid := resid, out := [],
             node := dir, prov_called := false } ∧
    ((e.sf_entry.d_reclen : Int) ≤ resid2 →
      uiomove_error (readdir_copy (readdir_node dir.sf_ino
        (dir.sf_parent.map (fun p => (mem p).sf_ino)) node1 e.sf_entry.d_name) e) = 0 →
      ∃ r2, vboxfs_readdir S uiomove_error sfprov_readdir mem fuel vtype.VDIR dir pos resid2
          node1 eof1 = some r2 ∧
        r2.out.head? = some (readdir_copy (readdir_node dir.sf_ino
          (dir.sf_parent.map (fun p => (mem p).sf_ino)) node1 e.sf_entry.d_name) e)) := by
  constructor
  · rw [vboxfs_readdir_at_run_end_gen S hS uiomove_error sfprov_readdir mem fuel dir pre
      (e :: suf) pos resid node0 eof0 hlist hl hall hpos hf]
    have hgt : (e.sf_entry.d_reclen : Int) > resid := hres
    simp only [readdir_emit_flat, if_pos hgt]
    simp
  · intro hres2 hcp
    refine ⟨_, vboxfs_readdir_at_run_end_gen S hS uiomove_error sfprov_readdir mem fuel dir pre
      (e :: suf) pos resid2 node1 eof1 hlist hl hall hpos hf, ?_⟩
    have hle : ¬ (e.sf_entry.d_reclen : Int) > resid2 := by omega
    simp only [readdir_emit_flat, if_neg hle, hcp, ne_eq, not_true_eq_false, if_false]
    rfl

theorem vboxfs_readdir_budget_too_small_witness :
    vboxfs_readdir 16 uiomove_ok (0, []) sample_mem 7 vtype.VDIR sample_dir 56 15 none false =
      some { error := 0, eof := false, uio_offset := 56, uio_resid := 15, out := [],
             node := sample_dir, prov_called := false } ∧
    ∃ r2, vboxfs_readdir 16 uiomove_ok (0, []) sample_mem 7 vtype.VDIR sample_dir 56 16 none
        false = some r2 ∧
      r2.out.head? = some (readdir_copy (readdir_node sample_dir.sf_ino
        (sample_dir.sf_parent.map (fun p => (sample_mem p).sf_ino)) none
        (⟨⟨0, 16, "foo"⟩, 88⟩ : sffs_dirent).sf_entry.d_name) ⟨⟨0, 16, "foo"⟩, 88⟩) :=
  ⟨(vboxfs_readdir_budget_too_small 16 (by decide) uiomove_ok (0, []) sample_mem 7
      sample_dir [⟨⟨0, 12, "."⟩, 28⟩, ⟨⟨0, 12, ".."⟩, 56⟩] [⟨⟨0, 16, "bar"⟩, 120⟩]
      ⟨⟨0, 16, "foo"⟩, 88⟩ 56 15 16 none none false false (by decide) sample_listing_layout
      (by decide) (by decide) (by decide) (by decide)).1,
   (vboxfs_readdir_budget_too_small 16 (by decide) uiomove_ok (0, []) sample_mem 7
      sample_dir [⟨⟨0, 12, "."⟩, 28⟩, ⟨⟨0, 12, ".."⟩, 56⟩] [⟨⟨0, 16, "bar"⟩, 120⟩]
      ⟨⟨0, 16, "foo"⟩, 88⟩ 56 15 16 none none false false (by decide) sample_listing_layout
      (by decide) (by decide) (by decide) (by decide)).2 (by decide) rfl⟩

/-- The two calls of the sample at position 56, before "foo" (`d_reclen` 16):
with a budget of 15 nothing is copied out and the position stays, with a
budget of 16 "foo" is copied out and the position moves to its token 88. -/
theorem vboxfs_readdir_budget_run :
    (vboxfs_readdir 16 uiomove_ok (0, []) sample_mem 7 vtype.VDIR sample_dir 56 15 none
      false).map (fun r => (r.error, r.out.map (fun d => d.d_name), r.eof, r.uio_offset,
        r.uio_resid)) = some (0, [], false, 56, 15) ∧
    (vboxfs_readdir 16 uiomove_ok (0, []) sample_mem 7 vtype.VDIR sample_dir 56 16 none
      false).map (fun r => (r.error, r.out.map (fun d => d.d_name), r.eof, r.uio_offset,
        r.uio_resid)) = some (0, ["foo"], false, 88, 0) := by
  decide

theorem readdir_fit_pos (resid : Int) (d : sffs_dirent) (ds : List sffs_dirent)
    (h : (d.sf_entry.d_reclen : Int) ≤ resid) : 0 < (readdir_fit resid (d :: ds)).length := by
  have hle : ¬ (d.sf_entry.d_reclen : Int) > resid := by omega
  simp only [readdir_fit, if_neg hle, List.length_cons]
  omega

/-- A sequence of calls from the end of a run of entries at the head of the
listing, each with budget for the entry next at its time and at least as many
calls as entries are left: every call succeeds, the calls together copy out
the entries left in order, and a call sets the end-of-stream flag exactly
when the entries copied out up to and including it are all that were left. -/
theorem readdir_session_spec (S : Nat) (hS : 0 < S) (uiomove_error : dirent → Nat)
    (hcp : ∀ d, uiomove_error d = 0) (sfprov_readdir : Nat × List sffs_dirents)
    (mem : Nat → vboxfs_node) (fuel : Nat) (dir : vboxfs_node)
    (hlist : dir.sf_dir_list ≠ []) (hl : layout_ok S 0 dir.sf_dir_list)
    (hf : readdir_fuel dir.sf_dir_list ≤ fuel) (calls : List (Int × Option Nat)) :
    ∀ (pre suf : List sffs_dirent) (pos : Int),
      all_entries dir.sf_dir_list = pre ++ suf → pos = entries_len S pre →
      budgets_ok calls suf → suf.length ≤ calls.length →
      (readdir_session S uiomove_error sfprov_readdir mem fuel calls dir pos).length =
        calls.length ∧
      (∀ r ∈ readdir_session S uiomove_error sfprov_readdir mem fuel calls dir pos,
        r.error = 0) ∧
      ((readdir_session S uiomove_error sfprov_readdir mem fuel calls dir pos).flatMap
          (fun r => r.out)).map sans_fileno = suf.map (fun e => sans_fileno e.sf_entry) ∧
      (∀ front r back,
        readdir_session S uiomove_error sfprov_readdir mem fuel calls dir pos =
          front ++ r :: back →
        (r.eof = true ↔
          ((front ++ [r]).flatMap (fun r => r.out)).length = suf.length)) := by
  induction calls with
  | nil =>
    intro pre suf pos _ _ _ hn
    have hs : suf = [] := List.length_eq_zero.mp (by simpa using hn)
    subst hs
    refine ⟨rfl, ?_, rfl, ?_⟩
    · intro r hr
      simp [readdir_session] at hr
    · intro front r back h
      simp [readdir_session] at h
  | cons c cs ih =>
    intro pre suf pos hall hpos hb hn
    have hr := vboxfs_readdir_at_run_end S hS uiomove_error hcp sfprov_readdir mem fuel dir
      pre suf pos c.1 c.2 false hlist hl hall hpos hf
    obtain ⟨_, hout, heof, hoff, _⟩ := readdir_emit_flat_spec S uiomove_error hcp dir.sf_ino
      (dir.sf_parent.map (fun p => (mem p).sf_ino)) suf pos c.1 c.2
    have htok : tokens_ok S pos suf := by
      have h0 := layout_ok_tokens S dir.sf_dir_list 0 hl
      rw [hall, tokens_ok_append] at h0
      rw [hpos]
      simpa using h0.2
    have hsplit := readdir_fit_split c.1 suf
    have hlen_out : (readdir_emit_flat uiomove_error dir.sf_ino
        (dir.sf_parent.map (fun p => (mem p).sf_ino))
        suf pos c.1 c.2).out.length = (readdir_fit c.1 suf).length := by
      have := congrArg List.length hout
      simpa using this
    have hlen_suf : suf.length = (readdir_fit c.1 suf).length +
        (suf.drop (readdir_fit c.1 suf).length).length := by
      have := congrArg List.length hsplit
      rw [List.length_append] at this
      exact this
    have hrest : (suf.drop (readdir_fit c.1 suf).length).length ≤ cs.length := by
      cases hsuf : suf with
      | nil => simp
      | cons d ds =>
        have hd : (d.sf_entry.d_reclen : Int) ≤ c.1 := hb.1 d (by rw [hsuf]; rfl)
        have := readdir_fit_pos c.1 d ds hd
        rw [hsuf] at hlen_suf hn
        simp only [List.length_cons] at hn hlen_suf
        omega
    have hall1 : all_entries dir.sf_dir_list =
        (pre ++ readdir_fit c.1 suf) ++ suf.drop (readdir_fit c.1 suf).length := by
      rw [List.append_assoc, ← hsplit]
      exact hall
    have hpos1 : (readdir_emit_flat uiomove_error dir.sf_ino
        (dir.sf_parent.map (fun p => (mem p).sf_ino))
        suf pos c.1 c.2).uio_offset = entries_len S (pre ++ readdir_fit c.1 suf) := by
      rw [hoff htok, entries_len_append, hpos]
    obtain ⟨i1, i2, i3, i4⟩ := ih (pre ++ readdir_fit c.1 suf)
      (suf.drop (readdir_fit c.1 suf).length) _ hall1 hpos1 hb.2 hrest
    simp only [readdir_session, hr]
    refine ⟨?_, ?_, ?_, ?_⟩
    · simp only [List.length_cons]
      rw [i1]
    · intro r hmem
      rcases List.mem_cons.mp hmem with h | h
      · rw [h]
      · exact i2 r h
    · simp only [List.flatMap_cons, List.map_append]
      rw [i3, hout, ← List.map_append, ← hsplit]
    · intro front r back h
      cases front with
      | nil =>
        simp only [List.nil_append, List.cons.injEq] at h
        rw [← h.1]
        simp only [List.nil_append, List.flatMap_cons, List.flatMap_nil, List.append_nil]
        rw [heof, hlen_out, decide_eq_true_iff]
        exact readdir_fit_eq_iff c.1 suf
      | cons f front =>
        simp only [List.cons_append, List.cons.injEq] at h
        have := i4 front r back h.2
        rw [this, ← h.1]
        simp only [List.cons_append, List.flatMap_cons, List.length_append]
        rw [hlen_out]
        omega

/-- C4: on a cached listing laid out with cumulative resume tokens and
buffer lengths, with a copy-out that never fails, take the position `ti` at
the end of the entries `E1..Ei` (`pre`) and call `vboxfs_readdir` repeatedly,
each call from the position the call before it left and with budget for the
entry next at its time, at least once and at least as often as entries are
left.  Then every call returns 0, the calls together copy out exactly
`E(i+1)..En` (`suf`), each once and in the original order, a call sets the
end-of-stream flag exactly when the entries copied out up to and including it
are all of `E(i+1)..En`, and the last call has set it. -/
theorem vboxfs_readdir_resume_exact (S : Nat) (hS : 0 < S) (uiomove_error : dirent → Nat)
    (hcp : ∀ d, uiomove_error d = 0) (sfprov_readdir : Nat × List sffs_dirents)
    (mem : Nat → vboxfs_node) (fuel : Nat) (dir : vboxfs_node)
    (calls : List (Int × Option Nat)) (pre suf : List sffs_dirent) (pos : Int)
    (hlist : dir.sf_dir_list ≠ []) (hl : layout_ok S 0 dir.sf_dir_list)
    (hf : readdir_fuel dir.sf_dir_list ≤ fuel)
    (hall : all_entries dir.sf_dir_list = pre ++ suf) (hpos : pos = entries_len S pre)
    (hb : budgets_ok calls suf) (hn : suf.length ≤ calls.length) (hne : calls ≠ []) :
    (readdir_session S uiomove_error sfprov_readdir mem fuel calls dir pos).length =
      calls.length ∧
    (∀ r ∈ readdir_session S uiomove_error sfprov_readdir mem fuel calls dir pos,
      r.error = 0) ∧
    ((readdir_session S uiomove_error sfprov_readdir mem fuel calls dir pos).flatMap
        (fun r => r.out)).map sans_fileno = suf.map (fun e => sans_fileno e.sf_entry) ∧
    (∀ front r back,
      readdir_session S uiomove_error sfprov_readdir mem fuel calls dir pos =
        front ++ r :: back →
      (r.eof = true ↔ ((front ++ [r]).flatMap (fun r => r.out)).length = suf.length)) ∧
    (∃ front r, readdir_session S uiomove_error sfprov_readdir mem fuel calls dir pos =
        front ++ [r] ∧ r.eof = true) := by
  obtain ⟨h1, h2, h3, h4⟩ := readdir_session_spec S hS uiomove_error hcp sfprov_readdir mem
    fuel dir hlist hl hf calls pre suf pos hall hpos hb hn
  refine ⟨h1, h2, h3, h4, ?_⟩
  have hne1 : readdir_session S uiomove_error sfprov_readdir mem fuel calls dir pos ≠ [] := by
    intro h0
    rw [h0] at h1
    exact hne (List.length_eq_zero.mp h1.symm)
  rcases List.eq_nil_or_concat
      (readdir_session S uiomove_error sfprov_readdir mem fuel calls dir pos) with h | ⟨front, r, h⟩
  · exact absurd h hne1
  · rw [List.concat_eq_append] at h
    refine ⟨front, r, h, ?_⟩
    rw [h4 front r [] h, ← h]
    have := congrArg List.length h3
    simpa using this

theorem vboxfs_readdir_resume_exact_witness :
    (readdir_session 16 uiomove_ok (0, []) sample_mem 7 [(30, none), (16, none), (100, none)]
      sample_dir 28).length = [((30 : Int), (none : Option Nat)), (16, none), (100, none)].length ∧
    (∀ r ∈ readdir_session 16 uiomove_ok (0, []) sample_mem 7
        [(30, none), (16, none), (100, none)] sample_dir 28, r.error = 0) ∧
    ((readdir_session 16 uiomove_ok (0, []) sample_mem 7 [(30, none), (16, none), (100, none)]
        sample_dir 28).flatMap (fun r => r.out)).map sans_fileno =
      ([⟨⟨0, 12, ".."⟩, 56⟩, ⟨⟨0, 16, "foo"⟩, 88⟩, ⟨⟨0, 16, "bar"⟩, 120⟩] :
        List sffs_dirent).map (fun e => sans_fileno e.sf_entry) ∧
    (∀ front r back,
      readdir_session 16 uiomove_ok (0, []) sample_mem 7 [(30, none), (16, none), (100, none)]
        sample_dir 28 = front ++ r :: back →
      (r.eof = true ↔ ((front ++ [r]).flatMap (fun r => r.out)).length =
        ([⟨⟨0, 12, ".."⟩, 56⟩, ⟨⟨0, 16, "foo"⟩, 88⟩, ⟨⟨0, 16, "bar"⟩, 120⟩] :
          List sffs_dirent).length)) ∧
    (∃ front r, readdir_session 16 uiomove_ok (0, []) sample_mem 7
        [(30, none), (16, none), (100, none)] sample_dir 28 = front ++ [r] ∧ r.eof = true) :=
  vboxfs_readdir_resume_exact 16 (by decide) uiomove_ok (fun _ => rfl) (0, []) sample_mem 7
    sample_dir [(30, none), (16, none), (100, none)] [⟨⟨0, 12, "."⟩, 28⟩]
    [⟨⟨0, 12, ".."⟩, 56⟩, ⟨⟨0, 16, "foo"⟩, 88⟩, ⟨⟨0, 16, "bar"⟩, 120⟩] 28
    (by decide) sample_listing_layout (by decide) (by decide) (by decide)
    (by simp [budgets_ok, readdir_fit]) (by decide) (by decide)

/-- The three calls of the sample sequence one by one: the first copies out
".." and "foo" and stops before "bar", the second copies out "bar" and sets
the end-of-stream flag, the third finds nothing left. -/
theorem readdir_session_run :
    (readdir_session 16 uiomove_ok (0, []) sample_mem 7 [(30, none), (16, none), (100, none)]
      sample_dir 28).map (fun r => (r.error, r.out.map (fun d => d.d_name), r.eof, r.uio_offset))
    = [(0, ["..", "foo"], false, 88), (0, ["bar"], true, 120), (0, [], true, 120)] := by
  decide

/-- C10 (evaluation at the failing input): one enumeration of the sample
directory (inode 5, parent inode 3) from position 0 writes the `d_fileno` 5
for ".", 3 for "..", and 3 again for "foo" and for "bar": for a name other
than "." and ".." the local `node` still points to the node of the entry
before.  An enumeration that resumes at "foo" writes 0xdeadbeef for "foo"
and "bar" when the indeterminate initial `node` is `NULL`, and the inode 99
of whatever node it points to otherwise. -/
theorem vboxfs_readdir_fileno_stale :
    (vboxfs_readdir 16 uiomove_ok (0, []) sample_mem 7 vtype.VDIR sample_dir 0 512 none
      false).map (fun r => (r.error, r.out.map (fun d => (d.d_name, d.d_fileno)))) =
      some (0, [(".", 5), ("..", 3), ("foo", 3), ("bar", 3)]) ∧
    (vboxfs_readdir 16 uiomove_ok (0, []) sample_mem 7 vtype.VDIR sample_dir 56 512 none
      false).map (fun r => (r.error, r.out.map (fun d => (d.d_name, d.d_fileno)))) =
      some (0, [("foo", 0xdeadbeef), ("bar", 0xdeadbeef)]) ∧
    (vboxfs_readdir 16 uiomove_ok (0, []) sample_mem 7 vtype.VDIR sample_dir 56 512 (some 99)
      false).map (fun r => (r.error, r.out.map (fun d => (d.d_name, d.d_fileno)))) =
      some (0, [("foo", 99), ("bar", 99)]) := by
  decide

/-- The part of C10 that the code does: "." gets the inode of the directory
and ".." that of the parent, or of the directory when there is no parent,
whatever `node` held before. -/
theorem readdir_fileno_dot (dir_ino : Nat) (parent_ino node : Option Nat) :
    readdir_fileno (readdir_node dir_ino parent_ino node ".") = dir_ino ∧
    readdir_fileno (readdir_node dir_ino parent_ino node "..") = parent_ino.getD dir_ino := by
  constructor
  · simp [readdir_node, readdir_fileno]
  · cases parent_ino <;> simp [readdir_node, readdir_fileno]

/-! ## Name resolution -/

/-- A lookup of ".." that returns always returns `ENOENT`. -/
theorem vboxfs_lookup_dotdot_enoent (F : vpstate_flags) (fuel : Nat) (env : List alloc_event)
    (doomed : List Nat) (mem : Nat → vboxfs_node) (sfprov_get_attr : String → Nat × sffs_stat)
    (vboxfs_alloc_node : String → vtype → Nat × Nat × vboxfs_node)
    (dvp : Nat) (node : vboxfs_node) (cnp : componentname) (vpp0 : Option Nat)
    (r : lookup_result) (hdd : cnp.cn_flags &&& ISDOTDOT ≠ 0)
    (h : vboxfs_lookup F fuel env doomed mem sfprov_get_attr vboxfs_alloc_node dvp node cnp
      vpp0 = some r) : r.error = ENOENT := by
  unfold vboxfs_lookup at h
  rw [if_pos hdd] at h
  split at h
  · cases h
  · cases h
    rfl

/-- C7 (evaluation at the failing input): the lookup of ".." in the sample
directory, whose parent is present and bound to the vnode 41, runs
`vboxfs_alloc_vp` on the parent, which returns 0 with the vnode 41, and then
returns `ENOENT`. -/
theorem vboxfs_lookup_dotdot_run :
    vboxfs_lookup std_flags 1 sample_parent_env [] sample_mem (fun _ => (0, zero_stat))
      (fun _ _ => (0, 0, sample_file)) 43 sample_dir sample_dotdot none =
    some { error := ENOENT, vpp := some 41, cache_entered := false,
           alloc := some { error := 0, vpp := some 41, node := sample_parent,
                           wakeup_want := false, vv_root := false } } := by
  decide

/-! ## Reading -/

/-- The loop of `vboxfs_read` on a file of `len` bytes, for a budget below
2^32: it ends without error having moved `min(uio_resid, len - uio_offset)`
bytes. -/
theorem vboxfs_read_loop_file (len : Nat) (fuel : Nat) :
    ∀ (uio_offset uio_resid calls : Nat), 0 < uio_resid → uio_resid < 2 ^ 32 →
      uio_offset ≤ len → uio_resid < fuel →
      ∃ calls1, vboxfs_read_loop (file_read len) (fun _ => 0) fuel uio_offset uio_resid calls =
        some ⟨0, uio_offset + min uio_resid (len - uio_offset),
          uio_resid - min uio_resid (len - uio_offset), calls1⟩ := by
  induction fuel with
  | zero =>
    intro uio_offset uio_resid calls _ _ _ hf
    omega
  | succ fuel ih =>
    intro uio_offset uio_resid calls hpos hlt hoff hf
    have hbytes : u_int_min PAGE_SIZE uio_resid = min 4096 uio_resid := by
      unfold u_int_min PAGE_SIZE
      rw [Nat.mod_eq_of_lt hlt, Nat.mod_eq_of_lt (by norm_num : 4096 < 2 ^ 32)]
    have hdone : min (min 4096 uio_resid) (len - uio_offset) % 2 ^ 32 =
        min (min 4096 uio_resid) (len - uio_offset) := by
      apply Nat.mod_eq_of_lt
      have : min (min 4096 uio_resid) (len - uio_offset) ≤ 4096 :=
        le_trans (Nat.min_le_left _ _) (Nat.min_le_left _ _)
      omega
    unfold vboxfs_read_loop
    simp only [file_read, hbytes, hdone, true_and, ne_eq, not_true_eq_false, if_false]
    by_cases hd : min (min 4096 uio_resid) (len - uio_offset) > 0
    · rw [if_pos hd]
      have hmv : min (min (min 4096 uio_resid) (len - uio_offset)) uio_resid =
          min (min 4096 uio_resid) (len - uio_offset) := by
        apply Nat.min_eq_left
        exact le_trans (Nat.min_le_left _ _) (Nat.min_le_right _ _)
      rw [hmv]
      by_cases hmore : uio_resid - min (min 4096 uio_resid) (len - uio_offset) > 0
      · rw [if_pos hmore]
        obtain ⟨calls1, hrec⟩ := ih (uio_offset + min (min 4096 uio_resid) (len - uio_offset))
          (uio_resid - min (min 4096 uio_resid) (len - uio_offset)) (calls + 1) hmore
          (by omega) (by
            have := Nat.min_le_right (min 4096 uio_resid) (len - uio_offset)
            omega) (by omega)
        refine ⟨calls1, ?_⟩
        rw [hrec]
        congr 2
        · simp only [Nat.min_def] at hd hmore ⊢
          split_ifs at hd hmore ⊢ <;> omega
        · simp only [Nat.min_def] at hd hmore ⊢
          split_ifs at hd hmore ⊢ <;> omega
      · rw [if_neg hmore]
        refine ⟨calls + 1, ?_⟩
        congr 2
        · simp only [Nat.min_def] at hd hmore ⊢
          split_ifs at hd hmore ⊢ <;> omega
        · simp only [Nat.min_def] at hd hmore ⊢
          split_ifs at hd hmore ⊢ <;> omega
    · rw [if_neg hd]
      refine ⟨calls + 1, ?_⟩
      congr 2
      · simp only [Nat.min_def] at hd ⊢
        split_ifs at hd ⊢ <;> omega
      · simp only [Nat.min_def] at hd ⊢
        split_ifs at hd ⊢ <;> omega

/-- What C8 says holds for budgets below 2^32: a read of `n` bytes at
`offset ≤ len` of an open regular file of `len` bytes returns 0 having moved
`min(n, len - offset)` bytes, and a read of 0 bytes returns 0 with no
provider call. -/
theorem vboxfs_read_short_count (len : Nat) (np : vboxfs_node) (uio_offset n : Nat)
    (hopen : np.sf_file ≠ none) (hn : n < 2 ^ 32) (hoff : uio_offset ≤ len) :
    ∃ calls, vboxfs_read (file_read len) (fun _ => 0) true vtype.VREG np uio_offset n =
      some ⟨0, uio_offset + min n (len - uio_offset), n - min n (len - uio_offset), calls⟩ ∧
      (n = 0 → calls = 0) := by
  unfold vboxfs_read
  simp only [reduceCtorEq, if_false, ne_eq, not_true_eq_false, if_neg hopen]
  by_cases h0 : n = 0
  · subst h0
    refine ⟨0, ?_, fun _ => rfl⟩
    simp
  · rw [if_neg h0]
    obtain ⟨calls1, hloop⟩ := vboxfs_read_loop_file len (n + 1) uio_offset n 0 (by omega) hn hoff
      (by omega)
    refine ⟨calls1, ?_, fun h => absurd h h0⟩
    rw [hloop]
    simp

/-- The two runs the specification names: a 10-byte file read with a
4096-byte buffer gives 10 bytes, and a request of 0 bytes gives 0 bytes
without a provider call. -/
theorem vboxfs_read_runs :
    vboxfs_read (file_read 10) (fun _ => 0) true vtype.VREG sample_open_file 0 4096 =
      some ⟨0, 10, 4086, 2⟩ ∧
    vboxfs_read (file_read 10) (fun _ => 0) true vtype.VREG sample_open_file 0 0 =
      some ⟨0, 0, 0, 0⟩ := by
  decide

/-- C8 (evaluation at the failing input): a read of 2^32 bytes at offset 0 of
an open 10-byte file asks the provider once, for 0 bytes, and returns 0
having moved no byte; a read of 2^32 + 4 bytes moves 4 bytes. -/
theorem vboxfs_read_truncated_count :
    vboxfs_read (file_read 10) (fun _ => 0) true vtype.VREG sample_open_file 0 4294967296 =
      some ⟨0, 0, 4294967296, 1⟩ ∧
    vboxfs_read (file_read 10) (fun _ => 0) true vtype.VREG sample_open_file 0 4294967300 =
      some ⟨0, 4, 4294967296, 2⟩ := by
  decide

/-! ## Reported mode -/

/-- Masking and putting the type bits back: no bit of the mask is left outside
the type field, and the type field holds the type bits, when the mode masked
has these type bits or none. -/
theorem mask_and_type (x k T : Nat) (hT : T &&& S_IFMT = T) (hT16 : T < 2 ^ 16)
    (hx : x &&& S_IFMT = T ∨ x &&& S_IFMT = 0) :
    ((and_not x k ||| T) % 2 ^ 16) &&& and_not k S_IFMT = 0 ∧
    ((and_not x k ||| T) % 2 ^ 16) &&& S_IFMT = T := by
  have hTF : ∀ i, T.testBit i = true → S_IFMT.testBit i = true := by
    intro i hi
    have := congrArg (fun y => y.testBit i) hT
    simp only [Nat.testBit_and, hi, Bool.true_and] at this
    exact this
  have hT16i : ∀ i, T.testBit i = true → i < 16 := by
    intro i hi
    by_contra hge
    have h2 : T < 2 ^ i := lt_of_lt_of_le hT16 (Nat.pow_le_pow_right (by norm_num) (by omega))
    rw [Nat.testBit_lt_two_pow h2] at hi
    cases hi
  have hxF : ∀ i, x.testBit i = true → S_IFMT.testBit i = true → T.testBit i = true := by
    intro i h1 h2
    rcases hx with hx | hx
    · have := congrArg (fun y => y.testBit i) hx
      simp only [Nat.testBit_and, h1, h2, Bool.true_and] at this
      exact this.symm
    · have := congrArg (fun y => y.testBit i) hx
      simp [Nat.testBit_and, h1, h2] at this
  constructor
  · apply Nat.eq_of_testBit_eq
    intro i
    simp only [Nat.testBit_and, Nat.testBit_mod_two_pow, Nat.testBit_or, and_not,
      Nat.testBit_xor, Nat.zero_testBit]
    cases hxi : x.testBit i <;> cases hki : k.testBit i <;> cases hFi : S_IFMT.testBit i <;>
      cases hTi : T.testBit i <;> simp
    all_goals first
      | (have hthis := hTF i hTi; rw [hFi] at hthis; cases hthis)
  · apply Nat.eq_of_testBit_eq
    intro i
    simp only [Nat.testBit_and, Nat.testBit_mod_two_pow, Nat.testBit_or, and_not,
      Nat.testBit_xor]
    cases hxi : x.testBit i <;> cases hki : k.testBit i <;> cases hFi : S_IFMT.testBit i <;>
      cases hTi : T.testBit i <;> simp
    all_goals first
      | exact hT16i i hTi
      | (have hthis := hTF i hTi; rw [hFi] at hthis; cases hthis)
      | (have hthis := hxF i hxi hFi; rw [hTi] at hthis; cases hthis)

theorem override_type_field (override m T : Nat) (hm : m &&& S_IFMT = T) :
    (if override ≠ 0 then override &&& 0o777 else m) &&& S_IFMT = T ∨
    (if override ≠ 0 then override &&& 0o777 else m) &&& S_IFMT = 0 := by
  by_cases h : override ≠ 0
  · right
    rw [if_pos h, Nat.land_assoc]
    have : (0o777 : Nat) &&& S_IFMT = 0 := by decide
    rw [this, Nat.and_zero]
  · left
    rw [if_neg h]
    exact hm

/-- What lines 498-523 make of a mode whose type field is one of the seven
known ones: for a directory, a regular file and a symbolic link the type goes
by the mode and the mode is overridden and masked with the type bits put
back; for a FIFO, a character device, a block device and a socket the type
goes by the mode and the mode is left as it is. -/
theorem getattr_mode_spec (mp : vboxfs_mnt) (m : Nat) (vap : vattr) :
    (S_ISDIR m = true → (getattr_mode mp m vap).va_type = vtype.VDIR ∧
      (getattr_mode mp m vap).va_mode = override_and_mask mp.sf_dmode mp.sf_dmask S_IFDIR m) ∧
    (S_ISREG m = true → (getattr_mode mp m vap).va_type = vtype.VREG ∧
      (getattr_mode mp m vap).va_mode = override_and_mask mp.sf_fmode mp.sf_fmask S_IFREG m) ∧
    (S_ISLNK m = true → (getattr_mode mp m vap).va_type = vtype.VLNK ∧
      (getattr_mode mp m vap).va_mode = override_and_mask mp.sf_fmode mp.sf_fmask S_IFLNK m) ∧
    (S_ISFIFO m = true → (getattr_mode mp m vap).va_type = vtype.VFIFO ∧
      (getattr_mode mp m vap).va_mode = m) ∧
    (S_ISCHR m = true → (getattr_mode mp m vap).va_type = vtype.VCHR ∧
      (getattr_mode mp m vap).va_mode = m) ∧
    (S_ISBLK m = true → (getattr_mode mp m vap).va_type = vtype.VBLK ∧
      (getattr_mode mp m vap).va_mode = m) ∧
    (S_ISSOCK m = true → (getattr_mode mp m vap).va_type = vtype.VSOCK ∧
      (getattr_mode mp m vap).va_mode = m) := by
  refine ⟨?_, ?_, ?_, ?_, ?_, ?_, ?_⟩ <;> intro h <;>
    simp only [S_ISDIR, S_ISREG, S_ISLNK, S_ISFIFO, S_ISCHR, S_ISBLK, S_ISSOCK,
      beq_iff_eq] at h <;>
    simp [getattr_mode, override_and_mask, S_ISDIR, S_ISREG, S_ISLNK, S_ISFIFO, S_ISCHR,
      S_ISBLK, S_ISSOCK, h, S_IFDIR, S_IFREG, S_IFLNK, S_IFIFO, S_IFCHR, S_IFBLK, S_IFSOCK]

/-- The type and mode `vboxfs_getattr` reports on success are those lines
498-523 make of the 16-bit mode in the snapshot of the node. -/
theorem vboxfs_getattr_reports (mp : vboxfs_mnt) (sfprov_get_attr : sffs_stat → Nat × sffs_stat)
    (now now2 : timeval) (v_type : vtype) (fsid : Nat) (np : vboxfs_node) (vap0 : vattr)
    (h0 : (vboxfs_getattr mp sfprov_get_attr now now2 v_type fsid np vap0).error = 0) :
    ∃ vap1,
      (vboxfs_getattr mp sfprov_get_attr now now2 v_type fsid np vap0).vap.va_type =
        (getattr_mode mp ((vboxfs_getattr mp sfprov_get_attr now now2 v_type fsid np
          vap0).node.sf_stat.sf_mode % 2 ^ 16) vap1).va_type ∧
      (vboxfs_getattr mp sfprov_get_attr now now2 v_type fsid np vap0).vap.va_mode =
        (getattr_mode mp ((vboxfs_getattr mp sfprov_get_attr now now2 v_type fsid np
          vap0).node.sf_stat.sf_mode % 2 ^ 16) vap1).va_mode := by
  unfold vboxfs_getattr at h0 ⊢
  simp only [] at h0 ⊢
  split_ifs at h0 ⊢
  all_goals first
    | exact ⟨_, rfl, rfl⟩
    | (exfalso; simp_all)

/-- The blocks `vboxfs_getattr` reports: 1024 bytes are 2 blocks, 1 byte is
1 block, and at the largest `off_t` the sum of line 528 wraps. -/
theorem getattr_bytes_runs :
    getattr_bytes 1024 = 2 ∧ getattr_bytes 1 = 1 ∧ getattr_bytes 0 = 0 ∧
    getattr_bytes (2 ^ 63 - 1) = 2 ^ 64 - 18014398509481983 ∧
    (vboxfs_getattr (sample_mnt 0) (fun _ => (0, { zero_stat with sf_alloc := 1024 }))
      ⟨1700000000, 0⟩ ⟨1700000000, 0⟩ vtype.VREG 0 sample_file zero_vattr).vap.va_bytes = 2 := by
  decide

/-- C11 as stated fails.  With `sf_fmode = 0400` and `sf_fmask = 022` a FIFO
whose provider mode is 010666 is reported with the mode 010666: the
permission bits are neither overridden nor masked, and both bits of the mask
are left in the mode.  And a provider mode 0644 without type bits is reported
for a vnode of type `VREG` with the mode 0644, whose type field is empty. -/
theorem vboxfs_getattr_special_not_masked :
    (vboxfs_getattr (sample_fmask_mnt 0o400 0o022) (mode_get_attr 0o010666) ⟨1700000000, 0⟩
      ⟨1700000000, 0⟩ vtype.VFIFO 0 sample_file zero_vattr).error = 0 ∧
    (vboxfs_getattr (sample_fmask_mnt 0o400 0o022) (mode_get_attr 0o010666) ⟨1700000000, 0⟩
      ⟨1700000000, 0⟩ vtype.VFIFO 0 sample_file zero_vattr).vap.va_type = vtype.VFIFO ∧
    (vboxfs_getattr (sample_fmask_mnt 0o400 0o022) (mode_get_attr 0o010666) ⟨1700000000, 0⟩
      ⟨1700000000, 0⟩ vtype.VFIFO 0 sample_file zero_vattr).vap.va_mode = 0o010666 ∧
    override_and_mask 0o400 0o022 S_IFIFO 0o010666 = 0o010400 ∧
    (vboxfs_getattr (sample_fmask_mnt 0o400 0o022) (mode_get_attr 0o010666) ⟨1700000000, 0⟩
      ⟨1700000000, 0⟩ vtype.VFIFO 0 sample_file zero_vattr).vap.va_mode &&&
        and_not 0o022 S_IFMT = 0o022 ∧
    (vboxfs_getattr (sample_fmask_mnt 0 0) (mode_get_attr 0o644) ⟨1700000000, 0⟩
      ⟨1700000000, 0⟩ vtype.VREG 0 sample_file zero_vattr).error = 0 ∧
    (vboxfs_getattr (sample_fmask_mnt 0 0) (mode_get_attr 0o644) ⟨1700000000, 0⟩
      ⟨1700000000, 0⟩ vtype.VREG 0 sample_file zero_vattr).vap.va_type = vtype.VREG ∧
    (vboxfs_getattr (sample_fmask_mnt 0 0) (mode_get_attr 0o644) ⟨1700000000, 0⟩
      ⟨1700000000, 0⟩ vtype.VREG 0 sample_file zero_vattr).vap.va_mode &&& S_IFMT = 0 ∧
    vtype_ifmt vtype.VREG = 0o100000 := by
  decide

/-- C11, amended: when `vboxfs_getattr` succeeds, `m` being the 16-bit mode of
the snapshot it reports from: if `m` is the mode of a directory, the reported
type is `VDIR` and the reported mode is `sf_dmode & 0777` (or `m` when
`sf_dmode` is 0) without the bits of `sf_dmask` and with `S_IFDIR` put back,
so that no bit of `sf_dmask` is left outside the type field; if `m` is the
mode of a regular file or of a symbolic link, the same holds with `sf_fmode`,
`sf_fmask` and `S_IFREG` or `S_IFLNK`; if `m` is the mode of a FIFO, a
character device, a block device or a socket, the reported mode is `m`
itself; and in all seven cases the type field of the reported mode is the one
that goes with the reported `va_type`. -/
theorem vboxfs_getattr_mode_masked (mp : vboxfs_mnt)
    (sfprov_get_attr : sffs_stat → Nat × sffs_stat) (now now2 : timeval) (v_type : vtype)
    (fsid : Nat) (np : vboxfs_node) (vap0 : vattr) (r : getattr_result) (m : Nat)
    (hr : vboxfs_getattr mp sfprov_get_attr now now2 v_type fsid np vap0 = r)
    (h0 : r.error = 0) (hm : m = r.node.sf_stat.sf_mode % 2 ^ 16) :
    (S_ISDIR m = true → r.vap.va_type = vtype.VDIR ∧
      r.vap.va_mode = override_and_mask mp.sf_dmode mp.sf_dmask S_IFDIR m ∧
      r.vap.va_mode &&& and_not mp.sf_dmask S_IFMT = 0 ∧
      r.vap.va_mode &&& S_IFMT = vtype_ifmt r.vap.va_type) ∧
    (S_ISREG m = true → r.vap.va_type = vtype.VREG ∧
      r.vap.va_mode = override_and_mask mp.sf_fmode mp.sf_fmask S_IFREG m ∧
      r.vap.va_mode &&& and_not mp.sf_fmask S_IFMT = 0 ∧
      r.vap.va_mode &&& S_IFMT = vtype_ifmt r.vap.va_type) ∧
    (S_ISLNK m = true → r.vap.va_type = vtype.VLNK ∧
      r.vap.va_mode = override_and_mask mp.sf_fmode mp.sf_fmask S_IFLNK m ∧
      r.vap.va_mode &&& and_not mp.sf_fmask S_IFMT = 0 ∧
      r.vap.va_mode &&& S_IFMT = vtype_ifmt r.vap.va_type) ∧
    (S_ISFIFO m = true ∨ S_ISCHR m = true ∨ S_ISBLK m = true ∨ S_ISSOCK m = true →
      r.vap.va_mode = m ∧ r.vap.va_mode &&& S_IFMT = vtype_ifmt r.vap.va_type) := by
  subst hr
  obtain ⟨vap1, ht, hmode⟩ :=
    vboxfs_getattr_reports mp sfprov_get_attr now now2 v_type fsid np vap0 h0
  rw [← hm] at ht hmode
  obtain ⟨hdir, hreg, hlnk, hfifo, hchr, hblk, hsock⟩ := getattr_mode_spec mp m vap1
  have masked : ∀ (ov k T : Nat), T &&& S_IFMT = T → T < 2 ^ 16 → m &&& S_IFMT = T →
      override_and_mask ov k T m &&& and_not k S_IFMT = 0 ∧
      override_and_mask ov k T m &&& S_IFMT = T := by
    intro ov k T hT hT16 hmT
    exact mask_and_type _ k T hT hT16 (override_type_field ov m T hmT)
  refine ⟨?_, ?_, ?_, ?_⟩
  · intro h
    have hmT : m &&& S_IFMT = S_IFDIR := by simpa [S_ISDIR] using h
    obtain ⟨e1, e2⟩ := hdir h
    obtain ⟨m1, m2⟩ := masked mp.sf_dmode mp.sf_dmask S_IFDIR (by decide) (by decide) hmT
    rw [ht, hmode, e1, e2]
    exact ⟨rfl, rfl, m1, m2⟩
  · intro h
    have hmT : m &&& S_IFMT = S_IFREG := by simpa [S_ISREG] using h
    obtain ⟨e1, e2⟩ := hreg h
    obtain ⟨m1, m2⟩ := masked mp.sf_fmode mp.sf_fmask S_IFREG (by decide) (by decide) hmT
    rw [ht, hmode, e1, e2]
    exact ⟨rfl, rfl, m1, m2⟩
  · intro h
    have hmT : m &&& S_IFMT = S_IFLNK := by simpa [S_ISLNK] using h
    obtain ⟨e1, e2⟩ := hlnk h
    obtain ⟨m1, m2⟩ := masked mp.sf_fmode mp.sf_fmask S_IFLNK (by decide) (by decide) hmT
    rw [ht, hmode, e1, e2]
    exact ⟨rfl, rfl, m1, m2⟩
  · rintro (h | h | h | h)
    · obtain ⟨e1, e2⟩ := hfifo h
      rw [ht, hmode, e1, e2]
      exact ⟨rfl, by simpa [S_ISFIFO] using h⟩
    · obtain ⟨e1, e2⟩ := hchr h
      rw [ht, hmode, e1, e2]
      exact ⟨rfl, by simpa [S_ISCHR] using h⟩
    · obtain ⟨e1, e2⟩ := hblk h
      rw [ht, hmode, e1, e2]
      exact ⟨rfl, by simpa [S_ISBLK] using h⟩
    · obtain ⟨e1, e2⟩ := hsock h
      rw [ht, hmode, e1, e2]
      exact ⟨rfl, by simpa [S_ISSOCK] using h⟩

/-- A run of `vboxfs_getattr_mode_masked`: a directory of provider mode 040777
under `sf_dmask = 022` is reported with the mode 040755. -/
theorem vboxfs_getattr_mode_masked_witness :
    (vboxfs_getattr { sample_mnt 0 with sf_dmask := 0o022 } (mode_get_attr 0o040777)
      ⟨1700000000, 0⟩ ⟨1700000000, 0⟩ vtype.VDIR 0 sample_dir zero_vattr).error = 0 ∧
    S_ISDIR 0o040777 = true ∧
    (vboxfs_getattr { sample_mnt 0 with sf_dmask := 0o022 } (mode_get_attr 0o040777)
      ⟨1700000000, 0⟩ ⟨1700000000, 0⟩ vtype.VDIR 0 sample_dir zero_vattr).vap.va_mode
        = 0o040755 ∧
    (vboxfs_getattr { sample_mnt 0 with sf_dmask := 0o022 } (mode_get_attr 0o040777)
      ⟨1700000000, 0⟩ ⟨1700000000, 0⟩ vtype.VDIR 0 sample_dir zero_vattr).vap.va_mode &&&
        and_not 0o022 S_IFMT = 0 :=
  ⟨by decide, by decide, by decide,
    ((vboxfs_getattr_mode_masked { sample_mnt 0 with sf_dmask := 0o022 }
      (mode_get_attr 0o040777) ⟨1700000000, 0⟩ ⟨1700000000, 0⟩ vtype.VDIR 0 sample_dir
      zero_vattr _ 0o040777 rfl (by decide) (by decide)).1 (by decide)).2.2.1⟩

/-! ## Operations that are not supported -/

/-- C12: each of the entry points for create, remove, rename, symlink, link,
mknod, mkdir, rmdir, advisory lock, extended attributes and write, as the
operations vector names them, returns `EOPNOTSUPP` for every argument and
leaves every node as it was: attribute snapshot and its timestamp, directory
listing, binding (vnode and state word) and open file handle. -/
theorem vboxfs_mutating_ops_not_supported (op : vop_slot) (ap : vop_args)
    (mem : Nat → vboxfs_node) :
    (vboxfs_vnodeops op ap mem).error = EOPNOTSUPP ∧
    (vboxfs_vnodeops op ap mem).mem = mem ∧
    ∀ a : Nat,
      ((vboxfs_vnodeops op ap mem).mem a).sf_stat = (mem a).sf_stat ∧
      ((vboxfs_vnodeops op ap mem).mem a).sf_stat_time = (mem a).sf_stat_time ∧
      ((vboxfs_vnodeops op ap mem).mem a).sf_dir_list = (mem a).sf_dir_list ∧
      ((vboxfs_vnodeops op ap mem).mem a).sf_vnode = (mem a).sf_vnode ∧
      ((vboxfs_vnodeops op ap mem).mem a).sf_vpstate = (mem a).sf_vpstate ∧
      ((vboxfs_vnodeops op ap mem).mem a).sf_file = (mem a).sf_file := by
  cases op <;> exact ⟨rfl, rfl, fun _ => ⟨rfl, rfl, rfl, rfl, rfl, rfl⟩⟩

/-! ## Concurrent calls of `vboxfs_alloc_vp` -/

theorem or_and_self_ne_zero (s m : Nat) (h : m ≠ 0) : (s ||| m) &&& m ≠ 0 := by
  have e : (s ||| m) &&& m = m := by
    apply Nat.eq_of_testBit_eq
    intro i
    simp only [Nat.testBit_or, Nat.testBit_and]
    cases s.testBit i <;> cases m.testBit i <;> rfl
  rw [e]
  exact h

theorem and_comm_eq_zero (a b : Nat) (h : a &&& b = 0) : b &&& a = 0 := by
  rw [Nat.land_comm]
  exact h

theorem getElem?_set_some {α : Type} (l : List α) (j i : Nat) (a t : α)
    (h : (l.set j a)[i]? = some t) : (i = j ∧ t = a) ∨ (i ≠ j ∧ l[i]? = some t) := by
  rw [List.getElem?_set] at h
  split_ifs at h with h1 h2
  · left; exact ⟨h1.symm, (Option.some.inj h).symm⟩
  · right; exact ⟨fun e => h1 e.symm, h⟩

theorem getElem?_set_self_some {α : Type} (l : List α) (j : Nat) (a t : α)
    (h : l[j]? = some t) : (l.set j a)[j]? = some a := by
  obtain ⟨hj, _⟩ := List.getElem?_eq_some.mp h
  exact List.getElem?_set_self hj

/-- A thread of the list after `wakeup` is a thread of the list before it,
at `loop` if it was asleep on `&node->sf_vpstate`. -/
theorem alloc_wakeup_getElem? (ts : List alloc_thread) (i : Nat) (t1 : alloc_thread)
    (h : (alloc_wakeup ts)[i]? = some t1) :
    ∃ t0, ts[i]? = some t0 ∧
      ((t0.pc = alloc_pc.asleep_want ∧ t1.pc = alloc_pc.at_loop) ∨
       (t0.pc ≠ alloc_pc.asleep_want ∧ t1 = t0)) := by
  unfold alloc_wakeup at h
  rw [List.getElem?_map] at h
  cases h0 : ts[i]? with
  | none => rw [h0] at h; cases h
  | some t0 =>
    rw [h0] at h
    simp only [Option.map_some'] at h
    refine ⟨t0, rfl, ?_⟩
    have h1 := Option.some.inj h
    by_cases hp : t0.pc = alloc_pc.asleep_want
    · left
      rw [if_pos hp] at h1
      exact ⟨hp, by rw [← h1]⟩
    · right
      rw [if_neg hp] at h1
      exact ⟨hp, h1.symm⟩

theorem alloc_wakeup_length (ts : List alloc_thread) : (alloc_wakeup ts).length = ts.length := by
  unfold alloc_wakeup
  exact List.length_map _ _

/-- What `alloc_sys_step` makes of the system when the thread named takes the
step `r`. -/
theorem alloc_sys_step_some (F : vpstate_flags) (np : Nat) (s : alloc_sys) (e : alloc_sched)
    (t : alloc_thread) (r : alloc_step) (ht : s.threads[e.tid]? = some t)
    (hr : alloc_thread_step F np s.node s.vi_doomed t e.ret e.newvp = some r) :
    alloc_sys_step F np s e = some
      { node := r.node, vi_doomed := s.vi_doomed,
        threads :=
          if r.wakeup_want then alloc_wakeup (s.threads.set e.tid { t with pc := r.pc })
          else s.threads.set e.tid { t with pc := r.pc },
        getnewvnode_calls := s.getnewvnode_calls + (if r.getnewvnode_called then 1 else 0),
        getnewvnode_vps := r.getnewvnode_gave.toList ++ s.getnewvnode_vps } := by
  unfold alloc_sys_step
  rw [ht]
  simp only [hr]

theorem alloc_sys_step_none (F : vpstate_flags) (np : Nat) (s : alloc_sys) (e : alloc_sched)
    (ht : s.threads[e.tid]? = none) : alloc_sys_step F np s e = some s := by
  unfold alloc_sys_step
  rw [ht]

/-- A step that wakes nobody changes the thread that took it and no other. -/
theorem alloc_quiet_step_thread (ts : List alloc_thread) (j : Nat) (t : alloc_thread)
    (pc : alloc_pc) (i : Nat) (t1 : alloc_thread)
    (h : (if false = true then alloc_wakeup (ts.set j { t with pc := pc })
          else ts.set j { t with pc := pc })[i]? = some t1) :
    (i = j ∧ t1.pc = pc) ∨ (i ≠ j ∧ ts[i]? = some t1) := by
  simp only [Bool.false_eq_true, if_false] at h
  rcases getElem?_set_some _ _ _ _ _ h with ⟨h1, h2⟩ | h1
  · left
    exact ⟨h1, by rw [h2]⟩
  · right
    exact h1

/-- What the label `unlock` leaves. -/
theorem alloc_leave_spec (F : vpstate_flags) (hF : F.wf) (np : Nat) (node : vboxfs_node)
    (error : Nat) (vp : Option Nat) :
    (alloc_leave F np node error vp).pc = alloc_pc.returned error vp ∧
    (alloc_leave F np node error vp).node.sf_vnode = vp ∧
    (alloc_leave F np node error vp).node.sf_type = node.sf_type ∧
    (alloc_leave F np node error vp).node.sf_parent = node.sf_parent ∧
    (alloc_leave F np node error vp).getnewvnode_called = false ∧
    (node.sf_vpstate &&& F.VBOXFS_VNODE_DOOMED = 0 →
      (alloc_leave F np node error vp).node.sf_vpstate &&& F.VBOXFS_VNODE_DOOMED = 0) ∧
    (node.sf_vpstate &&& F.VBOXFS_VNODE_WANT ≠ 0 →
      (alloc_leave F np node error vp).wakeup_want = true) := by
  obtain ⟨-, -, -, -, hAW, -, -, -, -, -⟩ := hF
  have hw := and_not_and_disjoint node.sf_vpstate _ _ hAW
  unfold alloc_leave alloc_finish
  simp only []
  split
  · refine ⟨rfl, rfl, rfl, rfl, trivial, ?_, fun _ => rfl⟩
    intro hD
    exact and_not_and_of_and_eq_zero _ _ _ (and_not_and_of_and_eq_zero _ _ _ hD)
  · rename_i hn
    refine ⟨rfl, rfl, rfl, rfl, trivial, ?_, ?_⟩
    · intro hD
      exact and_not_and_of_and_eq_zero _ _ _ hD
    · intro hW
      rw [hw] at hn
      exact absurd hW hn

/-- From the idle state a step of a thread makes it the allocating thread. -/
theorem alloc_idle_step (F : vpstate_flags) (hF : F.wf) (np : Nat) (s : alloc_sys)
    (e : alloc_sched) (hok : alloc_node_ok s.node)
    (hD : s.node.sf_vpstate &&& F.VBOXFS_VNODE_DOOMED = 0) (h : alloc_idle F s)
    (t : alloc_thread) (ht : s.threads[e.tid]? = some t) :
    alloc_step_to F np s e (fun s1 => alloc_busy_at F s1 e.tid alloc_pc.in_getnewvnode) := by
  obtain ⟨hv, hA, hc, hvps, hts⟩ := h
  obtain ⟨hA0, hW0, -, -, hAW, hAD, -, hWD, -, -⟩ := hF
  have hpc := hts _ _ ht
  have hr : alloc_thread_step F np s.node s.vi_doomed t e.ret e.newvp = some
      { pc := alloc_pc.in_getnewvnode,
        node := { s.node with
          sf_vpstate := s.node.sf_vpstate ||| F.VBOXFS_VNODE_ALLOCATING },
        wakeup_want := false, getnewvnode_called := true } := by
    unfold alloc_thread_step
    rw [hpc]
    simp only []
    unfold alloc_enter
    rw [hv]
    simp only []
    rw [if_neg (by
      intro hc1
      rcases hc1 with hc1 | hc1
      · exact hc1 hD
      · exact hok.1 hc1), if_neg (by
      intro hc1
      exact hc1 hA)]
  refine ⟨_, alloc_sys_step_some F np s e t _ ht hr, rfl, ?_, hok, ?_, ?_⟩
  · show (s.threads.set e.tid _).length = s.threads.length
    exact List.length_set _ _ _
  · show (s.node.sf_vpstate ||| F.VBOXFS_VNODE_ALLOCATING) &&& F.VBOXFS_VNODE_DOOMED = 0
    rw [or_and_disjoint _ _ _ hAD]
    exact hD
  · refine ⟨hv, or_and_self_ne_zero _ _ hA0, ?_, hvps,
      ⟨{ t with pc := alloc_pc.in_getnewvnode }, ?_, rfl⟩, ?_⟩
    · show s.getnewvnode_calls + 1 = 1
      rw [hc]
    · exact getElem?_set_self_some _ _ _ _ ht
    · intro i t1 hi h1
      rcases alloc_quiet_step_thread _ _ _ _ _ _ h1 with ⟨h2, -⟩ | ⟨-, h2⟩
      · exact absurd h2 hi
      · exact Or.inl (hts _ _ h2)

/-- In the bound state a step takes its thread from `loop` into `vget` and
from there to the return of the vnode, and changes nothing else. -/
theorem alloc_bound_step (F : vpstate_flags) (np : Nat) (s : alloc_sys) (e : alloc_sched)
    (he : e.ret = 0) (hok : alloc_node_ok s.node)
    (hD : s.node.sf_vpstate &&& F.VBOXFS_VNODE_DOOMED = 0) (v : Nat) (h : alloc_bound_to s v)
    (t : alloc_thread) (ht : s.threads[e.tid]? = some t) :
    alloc_step_to F np s e (fun s1 => alloc_bound_to s1 v ∧
      (∃ t1, s1.threads[e.tid]? = some t1 ∧
        (t.pc = alloc_pc.at_loop → t1.pc = alloc_pc.in_vget v) ∧
        (t.pc ≠ alloc_pc.at_loop → t1.pc = alloc_pc.returned 0 (some v))) ∧
      ∀ i, i ≠ e.tid → s1.threads[i]? = s.threads[i]?) := by
  obtain ⟨hc, hvps, hv, hvd, hts⟩ := h
  have quiet : ∀ pc : alloc_pc,
      alloc_thread_step F np s.node s.vi_doomed t e.ret e.newvp = some
        { pc := pc, node := s.node, wakeup_want := false, getnewvnode_called := false } →
      (pc = alloc_pc.at_loop ∨ pc = alloc_pc.in_vget v ∨ pc = alloc_pc.returned 0 (some v)) →
      (t.pc = alloc_pc.at_loop → pc = alloc_pc.in_vget v) →
      (t.pc ≠ alloc_pc.at_loop → pc = alloc_pc.returned 0 (some v)) →
      alloc_step_to F np s e (fun s1 => alloc_bound_to s1 v ∧
        (∃ t1, s1.threads[e.tid]? = some t1 ∧
          (t.pc = alloc_pc.at_loop → t1.pc = alloc_pc.in_vget v) ∧
          (t.pc ≠ alloc_pc.at_loop → t1.pc = alloc_pc.returned 0 (some v))) ∧
        ∀ i, i ≠ e.tid → s1.threads[i]? = s.threads[i]?) := by
    intro pc hr hpc h1 h2
    refine ⟨_, alloc_sys_step_some F np s e t _ ht hr, rfl, ?_, hok, hD,
      ⟨?_, hvps, hv, hvd, ?_⟩,
      ⟨{ t with pc := pc }, ?_, h1, h2⟩, ?_⟩
    · show (s.threads.set e.tid _).length = s.threads.length
      exact List.length_set _ _ _
    · show s.getnewvnode_calls + 0 = 1
      rw [hc]
    · intro i t1 h3
      rcases alloc_quiet_step_thread _ _ _ _ _ _ h3 with ⟨-, h4⟩ | ⟨-, h4⟩
      · rw [h4]
        exact hpc
      · exact hts _ _ h4
    · exact getElem?_set_self_some _ _ _ _ ht
    · intro i hi
      show (s.threads.set e.tid _)[i]? = s.threads[i]?
      exact List.getElem?_set_ne (fun h => hi h.symm)
  rcases hts _ _ ht with hpc | hpc | hpc
  · refine quiet (alloc_pc.in_vget v) ?_ (Or.inr (Or.inl rfl)) (fun _ => rfl)
      (fun h => absurd hpc h)
    unfold alloc_thread_step
    rw [hpc]
    simp only []
    unfold alloc_enter
    rw [hv]
    simp only []
    rw [if_neg (by
      intro hc1
      rcases hc1 with hc1 | hc1
      · exact hok.1 hc1
      · exact hvd hc1.1), if_neg hvd]
  · refine quiet (alloc_pc.returned 0 (some v)) ?_ (Or.inr (Or.inr rfl))
      (fun h => by rw [hpc] at h; cases h) (fun _ => rfl)
    unfold alloc_thread_step
    rw [hpc]
    simp only []
    rw [he, hv]
    simp [ENOENT]
  · refine quiet (alloc_pc.returned 0 (some v)) ?_ (Or.inr (Or.inr rfl))
      (fun h => by rw [hpc] at h; cases h) (fun _ => rfl)
    unfold alloc_thread_step
    rw [hpc]

/-- In the busy state a step of a thread other than the allocating one puts
it to sleep with `VBOXFS_VNODE_WANT` set, or leaves it asleep. -/
theorem alloc_busy_step_other (F : vpstate_flags) (hF : F.wf) (np : Nat) (s : alloc_sys)
    (e : alloc_sched) (he : e.ret = 0) (hok : alloc_node_ok s.node)
    (hD : s.node.sf_vpstate &&& F.VBOXFS_VNODE_DOOMED = 0) (a : Nat) (pc : alloc_pc)
    (h : alloc_busy_at F s a pc) (t : alloc_thread) (ht : s.threads[e.tid]? = some t)
    (hea : e.tid ≠ a) :
    alloc_step_to F np s e (fun s1 => alloc_busy_at F s1 a pc) := by
  obtain ⟨hv, hA, hc, hvps, ⟨ta, hta, hpa⟩, hothers⟩ := h
  obtain ⟨-, hW0, -, -, hAW, -, -, hWD, -, -⟩ := hF
  have hWA := and_comm_eq_zero _ _ hAW
  rcases hothers _ _ hea ht with hpc | ⟨hpc, hW⟩
  · have hr : alloc_thread_step F np s.node s.vi_doomed t e.ret e.newvp = some
        { pc := alloc_pc.asleep_want,
          node := { s.node with sf_vpstate := s.node.sf_vpstate ||| F.VBOXFS_VNODE_WANT },
          wakeup_want := false, getnewvnode_called := false } := by
      unfold alloc_thread_step
      rw [hpc]
      simp only []
      unfold alloc_enter
      rw [hv]
      simp only []
      rw [if_neg (by
        intro hc1
        rcases hc1 with hc1 | hc1
        · exact hc1 hD
        · exact hok.1 hc1), if_pos hA]
    refine ⟨_, alloc_sys_step_some F np s e t _ ht hr, rfl, ?_, hok, ?_, ?_⟩
    · show (s.threads.set e.tid _).length = s.threads.length
      exact List.length_set _ _ _
    · show (s.node.sf_vpstate ||| F.VBOXFS_VNODE_WANT) &&& F.VBOXFS_VNODE_DOOMED = 0
      rw [or_and_disjoint _ _ _ hWD]
      exact hD
    · refine ⟨hv, ?_, ?_, hvps, ⟨ta, ?_, hpa⟩, ?_⟩
      · show (s.node.sf_vpstate ||| F.VBOXFS_VNODE_WANT) &&& F.VBOXFS_VNODE_ALLOCATING ≠ 0
        rw [or_and_disjoint _ _ _ hWA]
        exact hA
      · show s.getnewvnode_calls + 0 = 1
        rw [hc]
      · show (s.threads.set e.tid _)[a]? = some ta
        rw [List.getElem?_set_ne hea]
        exact hta
      · intro i t1 hi h1
        have hWset : (s.node.sf_vpstate ||| F.VBOXFS_VNODE_WANT) &&& F.VBOXFS_VNODE_WANT ≠ 0 :=
          or_and_self_ne_zero _ _ hW0
        rcases alloc_quiet_step_thread _ _ _ _ _ _ h1 with ⟨-, h2⟩ | ⟨-, h2⟩
        · exact Or.inr ⟨h2, hWset⟩
        · rcases hothers _ _ hi h2 with h3 | ⟨h3, -⟩
          · exact Or.inl h3
          · exact Or.inr ⟨h3, hWset⟩
  · have hr : alloc_thread_step F np s.node s.vi_doomed t e.ret e.newvp = some
        { pc := alloc_pc.asleep_want, node := s.node, wakeup_want := false,
          getnewvnode_called := false } := by
      unfold alloc_thread_step
      rw [hpc]
      simp only []
      rw [if_neg (by
        intro hc1
        exact hc1 he)]
    refine ⟨_, alloc_sys_step_some F np s e t _ ht hr, rfl, ?_, hok, hD, ?_⟩
    · show (s.threads.set e.tid _).length = s.threads.length
      exact List.length_set _ _ _
    · refine ⟨hv, hA, ?_, hvps, ⟨ta, ?_, hpa⟩, ?_⟩
      · show s.getnewvnode_calls + 0 = 1
        rw [hc]
      · show (s.threads.set e.tid _)[a]? = some ta
        rw [List.getElem?_set_ne hea]
        exact hta
      · intro i t1 hi h1
        rcases alloc_quiet_step_thread _ _ _ _ _ _ h1 with ⟨-, h2⟩ | ⟨-, h2⟩
        · exact Or.inr ⟨h2, hW⟩
        · exact hothers _ _ hi h2

/-- In the busy state the step of the allocating thread out of `getnewvnode`
takes it into `insmntque1`. -/
theorem alloc_busy_step_getnewvnode (F : vpstate_flags) (np : Nat) (s : alloc_sys)
    (e : alloc_sched) (he : e.ret = 0) (hok : alloc_node_ok s.node)
    (hD : s.node.sf_vpstate &&& F.VBOXFS_VNODE_DOOMED = 0)
    (h : alloc_busy_at F s e.tid alloc_pc.in_getnewvnode) :
    alloc_step_to F np s e
      (fun s1 => alloc_busy_at F s1 e.tid (alloc_pc.in_insmntque1 e.newvp)) := by
  obtain ⟨hv, hA, hc, hvps, ⟨ta, hta, hpc⟩, hothers⟩ := h
  have hr : alloc_thread_step F np s.node s.vi_doomed ta e.ret e.newvp = some
      { pc := alloc_pc.in_insmntque1 e.newvp, node := s.node, wakeup_want := false,
        getnewvnode_called := false, getnewvnode_gave := some e.newvp } := by
    unfold alloc_thread_step
    rw [hpc]
    simp only []
    rw [if_neg (by
      intro hc1
      exact hc1 he), if_neg (by
      intro hc1
      rcases hc1 with hc1 | hc1 | hc1
      · exact hok.2.1 hc1
      · exact hok.2.2.1 hc1
      · exact hok.2.2.2 hc1)]
  refine ⟨_, alloc_sys_step_some F np s e ta _ hta hr, rfl, ?_, hok, hD, ?_⟩
  · show (s.threads.set e.tid _).length = s.threads.length
    exact List.length_set _ _ _
  · refine ⟨hv, hA, ?_, ?_, ⟨{ ta with pc := alloc_pc.in_insmntque1 e.newvp }, ?_, rfl⟩, ?_⟩
    · show s.getnewvnode_calls + 0 = 1
      rw [hc]
    · show (some e.newvp).toList ++ s.getnewvnode_vps = [e.newvp]
      rw [hvps]
      rfl
    · exact getElem?_set_self_some _ _ _ _ hta
    · intro i t1 hi h1
      rcases alloc_quiet_step_thread _ _ _ _ _ _ h1 with ⟨h2, -⟩ | ⟨-, h2⟩
      · exact absurd h2 hi
      · exact hothers _ _ hi h2

/-- In the busy state the step of the allocating thread out of `insmntque1`
binds the node to the new vnode and wakes every thread that sleeps. -/
theorem alloc_busy_step_insmntque1 (F : vpstate_flags) (hF : F.wf) (np : Nat) (s : alloc_sys)
    (e : alloc_sched) (he : e.ret = 0) (hok : alloc_node_ok s.node)
    (hD : s.node.sf_vpstate &&& F.VBOXFS_VNODE_DOOMED = 0) (v : Nat) (hvd : v ∉ s.vi_doomed)
    (h : alloc_busy_at F s e.tid (alloc_pc.in_insmntque1 v)) :
    alloc_step_to F np s e (fun s1 => alloc_bound_to s1 v) := by
  obtain ⟨hv, hA, hc, hvps, ⟨ta, hta, hpc⟩, hothers⟩ := h
  have hr : alloc_thread_step F np s.node s.vi_doomed ta e.ret e.newvp = some
      (alloc_leave F np s.node 0 (some v)) := by
    unfold alloc_thread_step
    rw [hpc]
    simp only []
    rw [if_neg (by
      intro hc1
      exact hc1 he)]
  obtain ⟨l1, l2, l3, l4, l5, l6, l7⟩ := alloc_leave_spec F hF np s.node 0 (some v)
  refine ⟨_, alloc_sys_step_some F np s e ta _ hta hr, rfl, ?_, ⟨?_, ?_, ?_, ?_⟩, l6 hD, ?_⟩
  · show (if (alloc_leave F np s.node 0 (some v)).wakeup_want = true then
          alloc_wakeup (s.threads.set e.tid
            { ta with pc := (alloc_leave F np s.node 0 (some v)).pc })
        else s.threads.set e.tid
            { ta with pc := (alloc_leave F np s.node 0 (some v)).pc }).length =
      s.threads.length
    split
    · rw [alloc_wakeup_length, List.length_set]
    · rw [List.length_set]
  · show ¬((alloc_leave F np s.node 0 (some v)).node.sf_type = vtype.VDIR ∧
      (alloc_leave F np s.node 0 (some v)).node.sf_parent = none)
    rw [l3, l4]
    exact hok.1
  · show (alloc_leave F np s.node 0 (some v)).node.sf_type ≠ vtype.VNON
    rw [l3]
    exact hok.2.1
  · show (alloc_leave F np s.node 0 (some v)).node.sf_type ≠ vtype.VBAD
    rw [l3]
    exact hok.2.2.1
  · show (alloc_leave F np s.node 0 (some v)).node.sf_type ≠ vtype.VMARKER
    rw [l3]
    exact hok.2.2.2
  · refine ⟨?_, hvps, l2, hvd, ?_⟩
    · show s.getnewvnode_calls +
        (if (alloc_leave F np s.node 0 (some v)).getnewvnode_called = true then 1 else 0) = 1
      rw [l5, hc]
      rfl
    · intro i t1 h1
      change (if (alloc_leave F np s.node 0 (some v)).wakeup_want = true then
          alloc_wakeup (s.threads.set e.tid
            { ta with pc := (alloc_leave F np s.node 0 (some v)).pc })
        else s.threads.set e.tid
            { ta with pc := (alloc_leave F np s.node 0 (some v)).pc })[i]? = some t1 at h1
      rw [l1] at h1
      cases hw : (alloc_leave F np s.node 0 (some v)).wakeup_want with
      | true =>
        rw [hw] at h1
        simp only [if_true] at h1
        obtain ⟨t0, h0, hcase⟩ := alloc_wakeup_getElem? _ _ _ h1
        rcases getElem?_set_some _ _ _ _ _ h0 with ⟨-, h2⟩ | ⟨hi, h2⟩
        · rcases hcase with ⟨h3, -⟩ | ⟨-, h3⟩
          · rw [h2] at h3
            cases h3
          · rw [h3, h2]
            exact Or.inr (Or.inr rfl)
        · rcases hcase with ⟨-, h3⟩ | ⟨h4, h3⟩
          · exact Or.inl h3
          · rw [h3]
            rcases hothers _ _ hi h2 with h5 | ⟨h5, -⟩
            · exact Or.inl h5
            · exact absurd h5 h4
      | false =>
        rw [hw] at h1
        simp only [Bool.false_eq_true, if_false] at h1
        rcases getElem?_set_some _ _ _ _ _ h1 with ⟨-, h2⟩ | ⟨hi, h2⟩
        · rw [h2]
          exact Or.inr (Or.inr rfl)
        · rcases hothers _ _ hi h2 with h5 | ⟨-, h5⟩
          · exact Or.inl h5
          · have h6 := l7 h5
            rw [hw] at h6
            cases h6

/-- A step that names no thread changes nothing. -/
theorem alloc_step_to_none (F : vpstate_flags) (np : Nat) (s : alloc_sys) (e : alloc_sched)
    (Q : alloc_sys → Prop) (hok : alloc_node_ok s.node)
    (hD : s.node.sf_vpstate &&& F.VBOXFS_VNODE_DOOMED = 0) (hQ : Q s)
    (ht : s.threads[e.tid]? = none) : alloc_step_to F np s e Q :=
  ⟨s, alloc_sys_step_none F np s e ht, rfl, rfl, hok, hD, hQ⟩

/-- Every step keeps `alloc_inv` when nothing fails. -/
theorem alloc_sys_step_inv (F : vpstate_flags) (hF : F.wf) (np : Nat) (s : alloc_sys)
    (e : alloc_sched) (he : e.ret = 0) (hnew : e.newvp ∉ s.vi_doomed) (h : alloc_inv F s) :
    alloc_step_to F np s e (fun s1 => alloc_inv F s1) := by
  have wrap : ∀ Q : alloc_sys → Prop, alloc_step_to F np s e Q →
      (∀ s1, s1.vi_doomed = s.vi_doomed → Q s1 →
        alloc_idle F s1 ∨ alloc_busy F s1 ∨ alloc_bound s1) →
      alloc_step_to F np s e (fun s1 => alloc_inv F s1) := by
    intro Q hstep hQ
    obtain ⟨s1, h1, h2, h3, h4, h5, h6⟩ := hstep
    exact ⟨s1, h1, h2, h3, h4, h5, h4, h5, hQ s1 h2 h6⟩
  obtain ⟨hok, hD, hidle | hbusy | hbound⟩ := h
  · cases ht : s.threads[e.tid]? with
    | none => exact alloc_step_to_none F np s e _ hok hD ⟨hok, hD, Or.inl hidle⟩ ht
    | some t =>
      refine wrap _ (alloc_idle_step F hF np s e hok hD hidle t ht) ?_
      intro s1 _ hQ
      exact Or.inr (Or.inl ⟨_, _, hQ, Or.inl rfl⟩)
  · cases ht : s.threads[e.tid]? with
    | none => exact alloc_step_to_none F np s e _ hok hD ⟨hok, hD, Or.inr (Or.inl hbusy)⟩ ht
    | some t =>
      obtain ⟨a, pc, hat, hpc⟩ := hbusy
      by_cases hea : e.tid = a
      · subst hea
        rcases hpc with hpc | ⟨v, hpc, hvd⟩
        · subst hpc
          refine wrap _ (alloc_busy_step_getnewvnode F np s e he hok hD hat) ?_
          intro s1 hd hQ
          refine Or.inr (Or.inl ⟨_, _, hQ, Or.inr ⟨e.newvp, rfl, ?_⟩⟩)
          rw [hd]
          exact hnew
        · subst hpc
          refine wrap _ (alloc_busy_step_insmntque1 F hF np s e he hok hD v hvd hat) ?_
          intro s1 _ hQ
          exact Or.inr (Or.inr ⟨v, hQ⟩)
      · refine wrap _ (alloc_busy_step_other F hF np s e he hok hD a pc hat t ht hea) ?_
        intro s1 hd hQ
        refine Or.inr (Or.inl ⟨a, pc, hQ, ?_⟩)
        rw [hd]
        exact hpc
  · cases ht : s.threads[e.tid]? with
    | none => exact alloc_step_to_none F np s e _ hok hD ⟨hok, hD, Or.inr (Or.inr hbound)⟩ ht
    | some t =>
      obtain ⟨v, hb⟩ := hbound
      refine wrap _ (alloc_bound_step F np s e he hok hD v hb t ht) ?_
      intro s1 _ hQ
      exact Or.inr (Or.inr ⟨v, hQ.1⟩)

theorem alloc_run_append (F : vpstate_flags) (np : Nat) (xs ys : List alloc_sched) :
    ∀ s s1 : alloc_sys, alloc_run F np s xs = some s1 →
      alloc_run F np s (xs ++ ys) = alloc_run F np s1 ys := by
  induction xs with
  | nil =>
    intro s s1 h
    cases h
    rfl
  | cons e es ih =>
    intro s s1 h
    simp only [alloc_run, List.cons_append] at h ⊢
    cases h0 : alloc_sys_step F np s e with
    | none => rw [h0] at h; cases h
    | some s0 =>
      rw [h0] at h
      simp only [] at h ⊢
      exact ih s0 s1 h

theorem alloc_fresh_not_mem (doomed : List Nat) : alloc_fresh doomed ∉ doomed := by
  have bound : ∀ (l : List Nat) (x : Nat), x ∈ l → x ≤ l.foldr max 0 := by
    intro l
    induction l with
    | nil => intro x hx; cases hx
    | cons y ys ih =>
      intro x hx
      simp only [List.foldr_cons]
      rcases List.mem_cons.mp hx with h | h
      · rw [h]
        exact le_max_left _ _
      · exact le_trans (ih x h) (le_max_right _ _)
  intro h
  have := bound doomed _ h
  unfold alloc_fresh at this
  omega

/-- A run along a schedule on which nothing fails keeps `alloc_inv`. -/
theorem alloc_run_inv (F : vpstate_flags) (hF : F.wf) (np : Nat) (doomed : List Nat)
    (sched : List alloc_sched) :
    ∀ s : alloc_sys, alloc_sched_ok doomed sched → s.vi_doomed = doomed → alloc_inv F s →
      ∃ s1, alloc_run F np s sched = some s1 ∧ alloc_inv F s1 ∧ s1.vi_doomed = doomed ∧
        s1.threads.length = s.threads.length := by
  induction sched with
  | nil =>
    intro s _ hd h
    exact ⟨s, rfl, h, hd, rfl⟩
  | cons e es ih =>
    intro s hs hd h
    obtain ⟨he, hnew⟩ := hs e (List.mem_cons_self _ _)
    rw [← hd] at hnew
    obtain ⟨s0, h1, h2, h3, -, -, h6⟩ := alloc_sys_step_inv F hF np s e he hnew h
    obtain ⟨s1, k1, k2, k3, k4⟩ :=
      ih s0 (fun x hx => hs x (List.mem_cons_of_mem _ hx)) (h2.trans hd) h6
    refine ⟨s1, ?_, k2, k3, k4.trans h3⟩
    simp only [alloc_run, h1]
    exact k1

/-- The calls start in a state of which `alloc_inv` holds when the node is
not bound, is not being bound, is not doomed and can be given a vnode. -/
theorem alloc_start_inv (F : vpstate_flags) (node : vboxfs_node) (doomed : List Nat)
    (calls : List (Nat × Option Nat)) (hv : node.sf_vnode = none)
    (hA : node.sf_vpstate &&& F.VBOXFS_VNODE_ALLOCATING = 0)
    (hD : node.sf_vpstate &&& F.VBOXFS_VNODE_DOOMED = 0) (hok : alloc_node_ok node) :
    alloc_inv F (alloc_start node doomed calls) := by
  refine ⟨hok, hD, Or.inl ⟨hv, hA, rfl, rfl, ?_⟩⟩
  intro i t ht
  unfold alloc_start at ht
  simp only [List.getElem?_map] at ht
  cases h0 : calls[i]? with
  | none => rw [h0] at ht; cases ht
  | some c =>
    rw [h0] at ht
    simp only [Option.map_some'] at ht
    rw [← Option.some.inj ht]

/-- What `alloc_inv` says of the calls that have returned: `getnewvnode` was
called at most once and has handed out at most one vnode, and once a call
has returned it was called once, every call that has returned gave 0 and the
vnode of the node, which is the one vnode `getnewvnode` handed out, and no
thread is asleep or in a call that makes a vnode. -/
theorem alloc_inv_returned (F : vpstate_flags) (s : alloc_sys) (h : alloc_inv F s) :
    s.getnewvnode_calls ≤ 1 ∧ s.getnewvnode_vps.length ≤ 1 ∧
    ∀ t ∈ s.threads, ∀ (error : Nat) (vpp : Option Nat), t.pc = alloc_pc.returned error vpp →
      s.getnewvnode_calls = 1 ∧ error = 0 ∧ vpp ≠ none ∧ vpp = s.node.sf_vnode ∧
      s.getnewvnode_vps = vpp.toList ∧
      ∀ t2 ∈ s.threads, t2.pc = alloc_pc.at_loop ∨
        (∃ v, some v = vpp ∧ t2.pc = alloc_pc.in_vget v) ∨ t2.pc = alloc_pc.returned 0 vpp := by
  obtain ⟨-, -, hidle | hbusy | hbound⟩ := h
  · obtain ⟨-, -, hc, hvps, hts⟩ := hidle
    refine ⟨by omega, by rw [hvps]; exact Nat.zero_le _, ?_⟩
    intro t ht error vpp hpc
    obtain ⟨i, hi⟩ := List.mem_iff_getElem?.mp ht
    rw [hts i t hi] at hpc
    cases hpc
  · obtain ⟨a, pc, ⟨-, -, hc, hvps, ⟨ta, hta, hpa⟩, hothers⟩, hpc⟩ := hbusy
    refine ⟨by omega, ?_, ?_⟩
    · rw [hvps]
      rcases hpc with h1 | ⟨v, h1, -⟩
      · rw [h1]
        exact Nat.zero_le _
      · rw [h1]
        exact Nat.le_refl _
    intro t ht error vpp hret
    obtain ⟨i, hi⟩ := List.mem_iff_getElem?.mp ht
    exfalso
    by_cases hia : i = a
    · subst hia
      rw [hta] at hi
      have hta2 : ta = t := Option.some.inj hi
      rw [hta2] at hpa
      rw [hpa] at hret
      rcases hpc with h1 | ⟨v, h1, -⟩
      · rw [h1] at hret
        cases hret
      · rw [h1] at hret
        cases hret
    · rcases hothers i t hia hi with h1 | ⟨h1, -⟩
      · rw [h1] at hret
        cases hret
      · rw [h1] at hret
        cases hret
  · obtain ⟨v, hc, hvps, hv, -, hts⟩ := hbound
    refine ⟨by omega, by rw [hvps]; exact Nat.le_refl _, ?_⟩
    intro t ht error vpp hret
    obtain ⟨i, hi⟩ := List.mem_iff_getElem?.mp ht
    have hvpp : error = 0 ∧ vpp = some v := by
      rcases hts i t hi with h1 | h1 | h1
      · rw [h1] at hret
        cases hret
      · rw [h1] at hret
        cases hret
      · rw [h1] at hret
        cases hret
        exact ⟨rfl, rfl⟩
    obtain ⟨e0, e1⟩ := hvpp
    subst e0
    subst e1
    refine ⟨hc, rfl, by simp, hv.symm, hvps, ?_⟩
    intro t2 ht2
    obtain ⟨j, hj⟩ := List.mem_iff_getElem?.mp ht2
    rcases hts j t2 hj with h1 | h1 | h1
    · exact Or.inl h1
    · exact Or.inr (Or.inl ⟨v, rfl, h1⟩)
    · exact Or.inr (Or.inr h1)

/-- In the bound state a thread that runs twice has returned the vnode, and
the other threads stand where they stood. -/
theorem alloc_bound_twice (F : vpstate_flags) (np : Nat) (s : alloc_sys) (j w v : Nat)
    (hok : alloc_node_ok s.node) (hD : s.node.sf_vpstate &&& F.VBOXFS_VNODE_DOOMED = 0)
    (h : alloc_bound_to s v) :
    ∃ s2, alloc_run F np s [{ tid := j, ret := 0, newvp := w }, { tid := j, ret := 0, newvp := w }]
        = some s2 ∧
      s2.vi_doomed = s.vi_doomed ∧ s2.threads.length = s.threads.length ∧
      alloc_node_ok s2.node ∧ s2.node.sf_vpstate &&& F.VBOXFS_VNODE_DOOMED = 0 ∧
      alloc_bound_to s2 v ∧
      (∀ t, s2.threads[j]? = some t → t.pc = alloc_pc.returned 0 (some v)) ∧
      ∀ i, i ≠ j → s2.threads[i]? = s.threads[i]? := by
  cases ht : s.threads[j]? with
  | none =>
    have h1 : alloc_sys_step F np s { tid := j, ret := 0, newvp := w } = some s :=
      alloc_sys_step_none F np s _ ht
    refine ⟨s, ?_, rfl, rfl, hok, hD, h, ?_, fun _ _ => rfl⟩
    · simp only [alloc_run, h1]
    · intro t h2
      rw [ht] at h2
      cases h2
  | some t =>
    obtain ⟨s1, a1, a2, a3, a4, a5, a6, ⟨t1, a7, a8, a9⟩, a10⟩ :=
      alloc_bound_step F np s { tid := j, ret := 0, newvp := w } rfl hok hD v h t ht
    obtain ⟨s2, b1, b2, b3, b4, b5, b6, ⟨t2, b7, b8, b9⟩, b10⟩ :=
      alloc_bound_step F np s1 { tid := j, ret := 0, newvp := w } rfl a4 a5 v a6 t1 a7
    refine ⟨s2, ?_, b2.trans a2, b3.trans a3, b4, b5, b6, ?_, ?_⟩
    · simp only [alloc_run, a1, b1]
    · intro t3 h3
      have e3 : t3 = t2 := Option.some.inj (h3.symm.trans b7)
      rw [e3]
      apply b9
      by_cases hp : t.pc = alloc_pc.at_loop
      · rw [a8 hp]
        intro hc
        cases hc
      · rw [a9 hp]
        intro hc
        cases hc
    · intro i hi
      rw [b10 i hi, a10 i hi]

/-- In the bound state, when each of the threads `is` runs twice, each of
them has returned the vnode, and so has every thread that had done so. -/
theorem alloc_bound_all (F : vpstate_flags) (np : Nat) (w v : Nat) (is : List Nat) :
    ∀ s : alloc_sys, alloc_node_ok s.node → s.node.sf_vpstate &&& F.VBOXFS_VNODE_DOOMED = 0 →
      alloc_bound_to s v →
      ∃ s2, alloc_run F np s (alloc_twice w is) = some s2 ∧
        s2.threads.length = s.threads.length ∧
        ∀ (i : Nat) (t : alloc_thread), s2.threads[i]? = some t →
          (i ∈ is ∨ ∃ t0, s.threads[i]? = some t0 ∧ t0.pc = alloc_pc.returned 0 (some v)) →
          t.pc = alloc_pc.returned 0 (some v) := by
  induction is with
  | nil =>
    intro s _ _ _
    refine ⟨s, rfl, rfl, ?_⟩
    intro i t ht hcase
    rcases hcase with h1 | ⟨t0, h1, h2⟩
    · cases h1
    · rw [ht] at h1
      cases h1
      exact h2
  | cons j is ih =>
    intro s hok hD hb
    obtain ⟨s1, a1, -, a3, a4, a5, a6, a7, a8⟩ := alloc_bound_twice F np s j w v hok hD hb
    obtain ⟨s2, b1, b2, b3⟩ := ih s1 a4 a5 a6
    refine ⟨s2, ?_, b2.trans a3, ?_⟩
    · have e : alloc_twice w (j :: is) =
          [{ tid := j, ret := 0, newvp := w }, { tid := j, ret := 0, newvp := w }] ++
            alloc_twice w is := by
        simp [alloc_twice]
      rw [e, alloc_run_append F np _ _ s s1 a1]
      exact b1
    · intro i t ht hcase
      apply b3 i t ht
      by_cases hij : i = j
      · subst hij
        right
        cases h1 : s1.threads[i]? with
        | none =>
          exfalso
          have l2 : i < s2.threads.length := (List.getElem?_eq_some.mp ht).1
          rw [b2] at l2
          rw [List.getElem?_eq_none_iff] at h1
          omega
        | some t1 => exact ⟨t1, rfl, a7 t1 h1⟩
      · rcases hcase with h1 | ⟨t0, h1, h2⟩
        · rcases List.mem_cons.mp h1 with h3 | h3
          · exact absurd h3 hij
          · exact Or.inl h3
        · right
          refine ⟨t0, ?_, h2⟩
          rw [a8 i hij]
          exact h1

theorem alloc_twice_ok (doomed : List Nat) (is : List Nat) :
    alloc_sched_ok doomed (alloc_twice (alloc_fresh doomed) is) := by
  intro e he
  unfold alloc_twice at he
  rw [List.mem_flatMap] at he
  obtain ⟨i, -, hi⟩ := he
  simp only [List.mem_cons, List.mem_singleton, List.not_mem_nil, or_false, or_self] at hi
  rw [hi]
  exact ⟨rfl, alloc_fresh_not_mem doomed⟩

/-- From the bound state there is a schedule on which nothing fails and at
whose end every call has returned the vnode. -/
theorem alloc_bound_finish (F : vpstate_flags) (np : Nat) (s : alloc_sys) (v : Nat)
    (hok : alloc_node_ok s.node) (hD : s.node.sf_vpstate &&& F.VBOXFS_VNODE_DOOMED = 0)
    (h : alloc_bound_to s v) :
    ∃ more, alloc_sched_ok s.vi_doomed more ∧ ∃ s2, alloc_run F np s more = some s2 ∧
      ∀ t ∈ s2.threads, ∃ v, t.pc = alloc_pc.returned 0 (some v) := by
  obtain ⟨s2, h1, h2, h3⟩ :=
    alloc_bound_all F np (alloc_fresh s.vi_doomed) v (List.range s.threads.length) s hok hD h
  refine ⟨_, alloc_twice_ok s.vi_doomed _, s2, h1, ?_⟩
  intro t ht
  obtain ⟨i, hi⟩ := List.mem_iff_getElem?.mp ht
  refine ⟨v, h3 i t hi (Or.inl ?_)⟩
  rw [List.mem_range, ← h2]
  exact (List.getElem?_eq_some.mp hi).1

/-- A schedule that finishes from the state after a step finishes, with the
step put in front, from the state before it. -/
theorem alloc_finish_cons (F : vpstate_flags) (np : Nat) (s s1 : alloc_sys) (e : alloc_sched)
    (hstep : alloc_sys_step F np s e = some s1) (hd : s1.vi_doomed = s.vi_doomed)
    (he : e.ret = 0 ∧ e.newvp ∉ s.vi_doomed)
    (h : ∃ more, alloc_sched_ok s1.vi_doomed more ∧ ∃ s2, alloc_run F np s1 more = some s2 ∧
      ∀ t ∈ s2.threads, ∃ v, t.pc = alloc_pc.returned 0 (some v)) :
    ∃ more, alloc_sched_ok s.vi_doomed more ∧ ∃ s2, alloc_run F np s more = some s2 ∧
      ∀ t ∈ s2.threads, ∃ v, t.pc = alloc_pc.returned 0 (some v) := by
  obtain ⟨more, h1, s2, h2, h3⟩ := h
  refine ⟨e :: more, ?_, s2, ?_, h3⟩
  · intro x hx
    rcases List.mem_cons.mp hx with h4 | h4
    · rw [h4]
      exact he
    · rw [← hd]
      exact h1 x h4
  · simp only [alloc_run, hstep]
    exact h2

/-- From the busy state the allocating thread binds the node in two steps,
and the other calls then return the vnode. -/
theorem alloc_busy_finish (F : vpstate_flags) (hF : F.wf) (np : Nat) (s : alloc_sys)
    (hok : alloc_node_ok s.node) (hD : s.node.sf_vpstate &&& F.VBOXFS_VNODE_DOOMED = 0)
    (a : Nat) (pc : alloc_pc) (h : alloc_busy_at F s a pc)
    (hpc : pc = alloc_pc.in_getnewvnode ∨
      ∃ v, pc = alloc_pc.in_insmntque1 v ∧ v ∉ s.vi_doomed) :
    ∃ more, alloc_sched_ok s.vi_doomed more ∧ ∃ s2, alloc_run F np s more = some s2 ∧
      ∀ t ∈ s2.threads, ∃ v, t.pc = alloc_pc.returned 0 (some v) := by
  have hw := alloc_fresh_not_mem s.vi_doomed
  have last : ∀ (s0 : alloc_sys) (v : Nat), s0.vi_doomed = s.vi_doomed →
      alloc_node_ok s0.node → s0.node.sf_vpstate &&& F.VBOXFS_VNODE_DOOMED = 0 →
      v ∉ s0.vi_doomed → alloc_busy_at F s0 a (alloc_pc.in_insmntque1 v) →
      ∃ more, alloc_sched_ok s0.vi_doomed more ∧ ∃ s2, alloc_run F np s0 more = some s2 ∧
        ∀ t ∈ s2.threads, ∃ v, t.pc = alloc_pc.returned 0 (some v) := by
    intro s0 v hd0 hok0 hD0 hvd hat
    obtain ⟨s1, a1, a2, -, a4, a5, a6⟩ := alloc_busy_step_insmntque1 F hF np s0
      { tid := a, ret := 0, newvp := alloc_fresh s.vi_doomed } rfl hok0 hD0 v hvd hat
    refine alloc_finish_cons F np s0 s1 _ a1 a2 ⟨rfl, ?_⟩ (alloc_bound_finish F np s1 v a4 a5 a6)
    rw [hd0]
    exact hw
  rcases hpc with hpc | ⟨v, hpc, hvd⟩
  · subst hpc
    obtain ⟨s1, a1, a2, -, a4, a5, a6⟩ := alloc_busy_step_getnewvnode F np s
      { tid := a, ret := 0, newvp := alloc_fresh s.vi_doomed } rfl hok hD h
    refine alloc_finish_cons F np s s1 _ a1 a2 ⟨rfl, hw⟩ ?_
    refine last s1 (alloc_fresh s.vi_doomed) a2 a4 a5 ?_ a6
    rw [a2]
    exact hw
  · subst hpc
    exact last s v rfl hok hD hvd h

/-- From every state of which `alloc_inv` holds there is a schedule on which
nothing fails and at whose end every call has returned. -/
theorem alloc_inv_finish (F : vpstate_flags) (hF : F.wf) (np : Nat) (s : alloc_sys)
    (h : alloc_inv F s) :
    ∃ more, alloc_sched_ok s.vi_doomed more ∧ ∃ s2, alloc_run F np s more = some s2 ∧
      ∀ t ∈ s2.threads, ∃ v, t.pc = alloc_pc.returned 0 (some v) := by
  obtain ⟨hok, hD, hidle | hbusy | hbound⟩ := h
  · cases ht : s.threads[0]? with
    | none =>
      refine ⟨[], (fun e he => (by cases he)), s, rfl, ?_⟩
      intro t hmem
      exfalso
      rw [List.getElem?_eq_none_iff] at ht
      have hlen : s.threads.length = 0 := by omega
      rw [List.length_eq_zero] at hlen
      rw [hlen] at hmem
      cases hmem
    | some t =>
      obtain ⟨s1, a1, a2, -, a4, a5, a6⟩ := alloc_idle_step F hF np s
        { tid := 0, ret := 0, newvp := alloc_fresh s.vi_doomed } hok hD hidle t ht
      exact alloc_finish_cons F np s s1 _ a1 a2 ⟨rfl, alloc_fresh_not_mem _⟩
        (alloc_busy_finish F hF np s1 a4 a5 0 _ a6 (Or.inl rfl))
  · obtain ⟨a, pc, hat, hpc⟩ := hbusy
    exact alloc_busy_finish F hF np s hok hD a pc hat hpc
  · obtain ⟨v, hb⟩ := hbound
    exact alloc_bound_finish F np s v hok hD hb

/-- A single call run step by step ends as `vboxfs_alloc_vp` does on the
events `sample_alloc_env`: with 0, the vnode 42, and the same node. -/
theorem alloc_run_single_call :
    alloc_outcome (alloc_run std_flags 1 (alloc_start sample_file [] [(0, none)])
      [⟨0, 0, 0⟩, ⟨0, 0, 42⟩, ⟨0, 0, 0⟩]) = some ([alloc_pc.returned 0 (some 42)], 1, [42]) ∧
    (vboxfs_alloc_vp std_flags 1 sample_alloc_env [] 1 sample_file 0 none).map
      (fun r => (r.error, r.vpp)) = some (0, some 42) ∧
    (alloc_run std_flags 1 (alloc_start sample_file [] [(0, none)])
      [⟨0, 0, 0⟩, ⟨0, 0, 42⟩, ⟨0, 0, 0⟩]).map (fun s => s.node) =
    (vboxfs_alloc_vp std_flags 1 sample_alloc_env [] 1 sample_file 0 none).map
      (fun r => r.node) := by
  decide

/-- C13 as stated fails.  Two concurrent calls on a directory that has no
parent and is not bound both return `ENOENT` without a vnode, and
`getnewvnode` is not called; a single call does the same.  Of two calls on a
regular file that is not bound, the one that sleeps while the other
allocates returns `EINTR` without a vnode when a signal comes in.  And when
`getnewvnode` fails for the first of two calls, that call returns `ENFILE`
without a vnode and the second call makes a second call of `getnewvnode`. -/
theorem vboxfs_alloc_vp_concurrent_fails :
    alloc_outcome (alloc_run std_flags 1 (alloc_start sample_orphan_dir [] [(0, none), (0, none)])
      [⟨0, 0, 42⟩, ⟨1, 0, 42⟩]) =
      some ([alloc_pc.returned ENOENT none, alloc_pc.returned ENOENT none], 0, []) ∧
    vboxfs_alloc_vp std_flags 1 [] [] 1 sample_orphan_dir 0 none =
      some { error := ENOENT, vpp := none, node := sample_orphan_dir, wakeup_want := false,
             vv_root := false } ∧
    alloc_outcome (alloc_run std_flags 1 (alloc_start sample_file [] [(0, none), (0, none)])
      sample_signal_sched) =
      some ([alloc_pc.returned 0 (some 42), alloc_pc.returned 4 none], 1, [42]) ∧
    alloc_outcome (alloc_run std_flags 1 (alloc_start sample_file [] [(0, none), (0, none)])
      sample_enfile_sched) =
      some ([alloc_pc.returned 23 none, alloc_pc.returned 0 (some 43)], 2, [43]) := by
  decide

/-- The critical section from `loop1` hands out no vnode. -/
theorem alloc_enter_gave (F : vpstate_flags) (node : vboxfs_node) (doomed : List Nat)
    (lkflag : Nat) (r : alloc_step) (h : alloc_enter F node doomed lkflag = some r) :
    r.getnewvnode_gave = none := by
  unfold alloc_enter at h
  split at h
  · split_ifs at h
    all_goals first
      | (cases h; rfl)
  · split_ifs at h
    all_goals first
      | (cases h; rfl)

/-- A step of a thread hands out a vnode only when the thread stands in
`getnewvnode` and the call returns 0, and the vnode is the one the schedule
names for that return. -/
theorem alloc_thread_step_gave (F : vpstate_flags) (np : Nat) (node : vboxfs_node)
    (doomed : List Nat) (t : alloc_thread) (ret newvp : Nat) (r : alloc_step)
    (h : alloc_thread_step F np node doomed t ret newvp = some r) :
    r.getnewvnode_gave = none ∨
    (r.getnewvnode_gave = some newvp ∧ t.pc = alloc_pc.in_getnewvnode ∧ ret = 0) := by
  unfold alloc_thread_step at h
  split at h
  · exact Or.inl (alloc_enter_gave F node doomed t.lkflag r h)
  · split_ifs at h
    · cases h
      exact Or.inl rfl
    · exact Or.inl (alloc_enter_gave F node doomed t.lkflag r h)
  · split_ifs at h
    all_goals first
      | (cases h; exact Or.inl rfl)
  · split_ifs at h
    all_goals first
      | (cases h; exact Or.inl rfl)
  · rename_i hpc
    split_ifs at h with h1 h2
    · cases h
      exact Or.inl rfl
    · cases h
      exact Or.inr ⟨rfl, hpc, not_not.mp h1⟩
  · split_ifs at h
    all_goals first
      | (cases h; exact Or.inl rfl)
  · cases h
    exact Or.inl rfl

/-- A step of the system leaves the vnodes handed out as they are, or puts in
front the vnode that the schedule names for the return of `getnewvnode` to
the thread that stood in that call. -/
theorem alloc_sys_step_vps (F : vpstate_flags) (np : Nat) (s s1 : alloc_sys) (e : alloc_sched)
    (h : alloc_sys_step F np s e = some s1) :
    s1.getnewvnode_vps = s.getnewvnode_vps ∨
    (s1.getnewvnode_vps = e.newvp :: s.getnewvnode_vps ∧
      ∃ t, s.threads[e.tid]? = some t ∧ t.pc = alloc_pc.in_getnewvnode ∧ e.ret = 0) := by
  cases ht : s.threads[e.tid]? with
  | none =>
    rw [alloc_sys_step_none F np s e ht] at h
    cases h
    exact Or.inl rfl
  | some t =>
    cases hr : alloc_thread_step F np s.node s.vi_doomed t e.ret e.newvp with
    | none =>
      unfold alloc_sys_step at h
      rw [ht] at h
      simp only [hr] at h
      cases h
    | some r =>
      rw [alloc_sys_step_some F np s e t r ht hr] at h
      cases h
      rcases alloc_thread_step_gave F np s.node s.vi_doomed t e.ret e.newvp r hr with
        h1 | ⟨h1, h2, h3⟩
      · left
        show r.getnewvnode_gave.toList ++ s.getnewvnode_vps = s.getnewvnode_vps
        rw [h1]
        rfl
      · right
        refine ⟨?_, t, rfl, h2, h3⟩
        show r.getnewvnode_gave.toList ++ s.getnewvnode_vps = e.newvp :: s.getnewvnode_vps
        rw [h1]
        rfl

/-- Every vnode handed out in a run is the one that an entry of the schedule
names, and at that entry the thread stood in `getnewvnode`, which returned
0. -/
theorem alloc_run_vps (F : vpstate_flags) (np : Nat) (sched : List alloc_sched) :
    ∀ s s1 : alloc_sys, alloc_run F np s sched = some s1 →
      ∀ v ∈ s1.getnewvnode_vps, v ∈ s.getnewvnode_vps ∨
        ∃ (pre : List alloc_sched) (e : alloc_sched) (post : List alloc_sched) (s0 : alloc_sys)
          (t : alloc_thread),
          sched = pre ++ e :: post ∧ alloc_run F np s pre = some s0 ∧
          s0.threads[e.tid]? = some t ∧ t.pc = alloc_pc.in_getnewvnode ∧ e.ret = 0 ∧
          e.newvp = v := by
  induction sched with
  | nil =>
    intro s s1 h v hv
    cases h
    exact Or.inl hv
  | cons e es ih =>
    intro s s1 h v hv
    simp only [alloc_run] at h
    cases h0 : alloc_sys_step F np s e with
    | none => rw [h0] at h; cases h
    | some s' =>
      rw [h0] at h
      simp only [] at h
      rcases ih s' s1 h v hv with h1 | ⟨pre, e2, post, s0, t, k1, k2, k3, k4, k5, k6⟩
      · rcases alloc_sys_step_vps F np s s' e h0 with h2 | ⟨h2, t, h3, h4, h5⟩
        · rw [h2] at h1
          exact Or.inl h1
        · rw [h2] at h1
          rcases List.mem_cons.mp h1 with h6 | h6
          · exact Or.inr ⟨[], e, es, s, t, rfl, rfl, h3, h4, h5, h6.symm⟩
          · exact Or.inl h6
      · refine Or.inr ⟨e :: pre, e2, post, s0, t, ?_, ?_, k3, k4, k5, k6⟩
        · rw [k1]
          rfl
        · simp only [alloc_run, h0]
          exact k2

/-- C13, amended: let any number of calls of `vboxfs_alloc_vp` run
concurrently on one node that is not bound, is not being bound
(`VBOXFS_VNODE_ALLOCATING` clear), is not doomed, is not a directory without
a parent and has a type the function knows, and let no call of `getnewvnode`,
`insmntque1` or `vget` fail, no signal interrupt a sleeping call, and the new
vnode not be under reclaim.  Then under every interleaving `getnewvnode` is
called at most once and hands out at most one vnode, and a vnode it has
handed out is the one the schedule names at the entry where the thread that
stood in `getnewvnode` got its return; every call that has returned has
returned 0 and the vnode the node is bound to, and that vnode is the one
`getnewvnode` handed out; and the interleaving can be continued so that all
the calls have returned, each with 0 and that same vnode, the only one
`getnewvnode` has handed out. -/
theorem vboxfs_alloc_vp_concurrent (F : vpstate_flags) (hF : F.wf) (np : Nat)
    (node : vboxfs_node) (doomed : List Nat) (calls : List (Nat × Option Nat))
    (sched : List alloc_sched) (hv : node.sf_vnode = none)
    (hA : node.sf_vpstate &&& F.VBOXFS_VNODE_ALLOCATING = 0)
    (hD : node.sf_vpstate &&& F.VBOXFS_VNODE_DOOMED = 0) (hok : alloc_node_ok node)
    (hs : alloc_sched_ok doomed sched) :
    ∃ s, alloc_run F np (alloc_start node doomed calls) sched = some s ∧
      s.threads.length = calls.length ∧
      s.getnewvnode_calls ≤ 1 ∧ s.getnewvnode_vps.length ≤ 1 ∧
      (∀ v ∈ s.getnewvnode_vps,
        ∃ (pre : List alloc_sched) (e : alloc_sched) (post : List alloc_sched) (s0 : alloc_sys)
          (t : alloc_thread),
          sched = pre ++ e :: post ∧
          alloc_run F np (alloc_start node doomed calls) pre = some s0 ∧
          s0.threads[e.tid]? = some t ∧ t.pc = alloc_pc.in_getnewvnode ∧ e.ret = 0 ∧
          e.newvp = v) ∧
      (∀ t ∈ s.threads, ∀ (error : Nat) (vpp : Option Nat),
        t.pc = alloc_pc.returned error vpp →
          s.getnewvnode_calls = 1 ∧ error = 0 ∧ vpp ≠ none ∧ vpp = s.node.sf_vnode ∧
          s.getnewvnode_vps = vpp.toList) ∧
      ∃ more s2, alloc_sched_ok doomed more ∧ alloc_run F np s more = some s2 ∧
        s2.threads.length = calls.length ∧ s2.getnewvnode_calls ≤ 1 ∧
        ∀ t ∈ s2.threads, s2.getnewvnode_calls = 1 ∧
          ∃ v, s2.node.sf_vnode = some v ∧ s2.getnewvnode_vps = [v] ∧
            t.pc = alloc_pc.returned 0 (some v) := by
  have hstart := alloc_start_inv F node doomed calls hv hA hD hok
  have hlen : (alloc_start node doomed calls).threads.length = calls.length := by
    unfold alloc_start
    exact List.length_map _ _
  obtain ⟨s, h1, h2, h3, h4⟩ :=
    alloc_run_inv F hF np doomed sched (alloc_start node doomed calls) hs rfl hstart
  obtain ⟨r1, r2, r3⟩ := alloc_inv_returned F s h2
  refine ⟨s, h1, h4.trans hlen, r1, r2, ?_, ?_, ?_⟩
  · intro v hmem
    rcases alloc_run_vps F np sched (alloc_start node doomed calls) s h1 v hmem with h5 | h5
    · cases h5
    · exact h5
  · intro t ht error vpp hpc
    obtain ⟨k1, k2, k3, k4, k5, -⟩ := r3 t ht error vpp hpc
    exact ⟨k1, k2, k3, k4, k5⟩
  · obtain ⟨more, m1, s2, m2, m3⟩ := alloc_inv_finish F hF np s h2
    rw [h3] at m1
    obtain ⟨s3, n1, n2, -, n4⟩ := alloc_run_inv F hF np doomed more s m1 h3 h2
    have e23 : s3 = s2 := Option.some.inj (n1.symm.trans m2)
    subst e23
    obtain ⟨q1, -, q3⟩ := alloc_inv_returned F s3 n2
    refine ⟨more, s3, m1, m2, (n4.trans h4).trans hlen, q1, ?_⟩
    intro t ht
    obtain ⟨v, hpc⟩ := m3 t ht
    obtain ⟨k1, -, -, k4, k5, -⟩ := q3 t ht 0 (some v) hpc
    exact ⟨k1, v, k4.symm, k5, hpc⟩

/-- A run of `vboxfs_alloc_vp_concurrent`: three calls on a regular file that
is not bound, the second asleep while the first allocates the vnode 42, the
third coming after; all three return 0 and the vnode 42, the one vnode that
`getnewvnode` handed out in its one call. -/
theorem vboxfs_alloc_vp_concurrent_witness :
    alloc_outcome (alloc_run std_flags 1
      (alloc_start sample_file [] [(0, none), (0, none), (0, none)]) sample_three_sched) =
      some ([alloc_pc.returned 0 (some 42), alloc_pc.returned 0 (some 42),
        alloc_pc.returned 0 (some 42)], 1, [42]) ∧
    ∃ s, alloc_run std_flags 1
        (alloc_start sample_file [] [(0, none), (0, none), (0, none)]) sample_three_sched =
        some s ∧
      s.threads.length = 3 ∧ s.getnewvnode_calls ≤ 1 ∧ s.getnewvnode_vps.length ≤ 1 ∧
      ∀ t ∈ s.threads, ∀ (error : Nat) (vpp : Option Nat),
        t.pc = alloc_pc.returned error vpp →
          s.getnewvnode_calls = 1 ∧ error = 0 ∧ vpp ≠ none ∧ vpp = s.node.sf_vnode ∧
          s.getnewvnode_vps = vpp.toList := by
  refine ⟨by decide, ?_⟩
  obtain ⟨s, h1, h2, h3, h4, -, h6, -⟩ := vboxfs_alloc_vp_concurrent std_flags std_flags_wf 1
    sample_file [] [(0, none), (0, none), (0, none)] sample_three_sched rfl (by decide)
    (by decide) (by unfold alloc_node_ok; decide) (by unfold alloc_sched_ok; decide)
  exact ⟨s, h1, h2, h3, h4, h6⟩

end VBoxVfs
